import Mathlib

/-!
# The OS/161 virtual-memory core (`kern/vm/vm.c`, `kern/vm/addrspace.c`)

A shallow embedding of the address-space and page-fault code.

* 32-bit words (`vaddr_t`, `paddr_t`, `size_t`, and the bit patterns of `int`
  permissions) are natural numbers, truncated with `u32` wherever the C
  arithmetic can wrap.
* `struct region` linked lists are Lean lists in link order.
* `paddr_t ***pgtable` is a list of 256 optional level-1 nodes, each a list of
  64 optional level-2 nodes, each a list of 64 leaf words; `none` is `NULL`.
* The heap, the frame allocator and the TLB are external collaborators.  They
  are carried in `Machine`: the outcomes of upcoming `kmalloc` and
  `alloc_kpages` calls, and logs of the TLB writes, `free_kpages` and `kfree`
  calls performed so far.
* A function whose C execution dereferences a null or a freed pointer has no
  defined result; such functions return `Option`, with `none` for that case.
* The order in which `vm_fault` stores into the page table and writes the TLB is
  observed through `vm_fault_traced`, the same code returning its events in
  execution order as well; dropping the events gives `vm_fault`.
-/

namespace OS161

set_option maxRecDepth 100000

/-! ## Words and constants -/

/-- Truncation to a 32-bit unsigned word. -/
def u32 (x : Nat) : Nat := x % 2 ^ 32

/-- Modelled from the spec: `PAGE_SIZE` of `machine/vm.h` (4 KiB pages). -/
def PAGE_SIZE : Nat := 4096

/-- Modelled from the spec: `PAGE_FRAME` of `machine/vm.h`, the mask of bits 31..12. -/
def PAGE_FRAME : Nat := 0xfffff000

/-- Modelled from the spec: `MIPS_KSEG0` of `machine/vm.h`, the base of the
direct-mapped kernel window. -/
def MIPS_KSEG0 : Nat := 0x80000000

/-- Modelled from the spec: `PADDR_TO_KVADDR` of `machine/vm.h`, addition of the
kernel-window base modulo 2^32. -/
def PADDR_TO_KVADDR (paddr : Nat) : Nat := u32 (paddr + MIPS_KSEG0)

/-- Modelled from the spec: `KVADDR_TO_PADDR` of `machine/vm.h`, subtraction of the
kernel-window base modulo 2^32. -/
def KVADDR_TO_PADDR (vaddr : Nat) : Nat := u32 (u32 vaddr + 2 ^ 32 - MIPS_KSEG0)

/-- Modelled from the spec: `USERSTACK` of `machine/vm.h` (scenario C: `0x80000000`). -/
def USERSTACK : Nat := 0x80000000

/-- Modelled from the spec: `USERSTACKSIZE` (scenario C: 16 pages). -/
def USERSTACKSIZE : Nat := 16 * PAGE_SIZE

/-- Modelled from the spec: `TLBLO_DIRTY` of `machine/tlb.h` (bit 10). -/
def TLBLO_DIRTY : Nat := 0x00000400

/-- Modelled from the spec: `TLBLO_VALID` of `machine/tlb.h` (bit 9). -/
def TLBLO_VALID : Nat := 0x00000200

/-- Modelled from the spec: `NUM_TLB` of `machine/tlb.h`, the number of TLB slots. -/
def NUM_TLB : Nat := 64

/-- Modelled from the spec: `TLBHI_INVALID(i)` of `machine/tlb.h`, a distinct
sentinel per slot. -/
def TLBHI_INVALID (entryno : Nat) : Nat := u32 ((0x80000 + entryno) <<< 12)

/-- Modelled from the spec: `TLBLO_INVALID()` of `machine/tlb.h`. -/
def TLBLO_INVALID : Nat := 0

/-- Modelled from the spec: `ENOMEM` of `kern/errno.h` (OUT_OF_MEMORY). -/
def ENOMEM : Nat := 3

/-- Modelled from the spec: `EFAULT` of `kern/errno.h` (BAD_ADDRESS). -/
def EFAULT : Nat := 6

/-- Modelled from the spec: `EINVAL` of `kern/errno.h` (INVALID_ARGUMENT). -/
def EINVAL : Nat := 8

/-! ## `kern/include/vm.h` -/

/-- Macro `PG_IDX0(pg)`: `pg >> 24` on a 32-bit word. -/
def PG_IDX0 (pg : Nat) : Nat := u32 pg >>> 24

/-- Macro `PG_IDX1(pg)`: `pg << 8 >> 26` on a 32-bit word. -/
def PG_IDX1 (pg : Nat) : Nat := u32 (u32 pg <<< 8) >>> 26

/-- Macro `PG_IDX2(pg)`: `pg << 14 >> 26` on a 32-bit word. -/
def PG_IDX2 (pg : Nat) : Nat := u32 (u32 pg <<< 14) >>> 26

def PG_SIZE_0 : Nat := 256
def PG_SIZE_1 : Nat := 64
def PG_SIZE_2 : Nat := 64

def VM_FAULT_READ : Int := 0
def VM_FAULT_WRITE : Int := 1
def VM_FAULT_READONLY : Int := 2

def R_RD : Nat := 0b100
def R_WR : Nat := 0b010
def R_EX : Nat := 0b001

/-- Macro `GET_DIRTY_BIT(perm)`: `((perm & R_WR) == R_WR) * TLBLO_DIRTY`. -/
def GET_DIRTY_BIT (perm : Nat) : Nat :=
  (if perm &&& R_WR = R_WR then 1 else 0) * TLBLO_DIRTY

/-- Macro `GET_VALID_BIT(perm)`:
`(((perm & R_RD) == R_RD) | ((perm & R_EX) == R_EX)) * TLBLO_VALID`. -/
def GET_VALID_BIT (perm : Nat) : Nat :=
  ((if perm &&& R_RD = R_RD then 1 else 0) ||| (if perm &&& R_EX = R_EX then 1 else 0))
    * TLBLO_VALID

/-- Macro `GET_WRITE_BIT(paddr)`: `((paddr & TLBLO_DIRTY) == TLBLO_DIRTY) * R_WR`. -/
def GET_WRITE_BIT (paddr : Nat) : Nat :=
  (if paddr &&& TLBLO_DIRTY = TLBLO_DIRTY then 1 else 0) * R_WR

/-- Macro `GET_READ_BIT(paddr)`: `((paddr & TLBLO_VALID) == TLBLO_VALID) * R_RD`. -/
def GET_READ_BIT (paddr : Nat) : Nat :=
  (if paddr &&& TLBLO_VALID = TLBLO_VALID then 1 else 0) * R_RD

/-! ## `kern/include/addrspace.h` -/

/-- Type `struct region` without its `next` link, which is the list order. -/
structure region where
  vaddr : Nat
  memsize : Nat
  cur_perm : Nat
  old_perm : Nat
deriving DecidableEq, Repr

/-- A level-2 node: 64 leaf words. -/
abbrev pte2_t := List Nat

/-- A level-1 node: 64 pointers to level-2 nodes. -/
abbrev pte1_t := List (Option pte2_t)

/-- The level-0 array: 256 pointers to level-1 nodes. -/
abbrev pgtable_t := List (Option pte1_t)

/-- Type `struct addrspace` (the non-dumbvm variant). -/
structure addrspace where
  regions : List region
  pgtable : Option pgtable_t
deriving DecidableEq, Repr

/-- Modelled from the spec: `struct proc` of `proc.h`, of which only the address
space is used here. -/
structure proc where
  p_addrspace : Option addrspace
deriving DecidableEq, Repr

/-- Modelled from the spec: `proc_getas()` of `proc.c`, the address space of the
current process (`NULL` without a current process). -/
def proc_getas (curproc : Option proc) : Option addrspace :=
  match curproc with
  | none => none
  | some p => p.p_addrspace

/-! ## External collaborators -/

/-- A heap block handed to `kfree`, recorded by what it held. -/
inductive kblock where
  | as_struct
  | region_node (r : region)
  | level0 (a : pgtable_t)
  | level1 (a : pte1_t)
  | level2 (a : pte2_t)
deriving DecidableEq, Repr

/-- A write to the TLB. -/
inductive tlb_event where
  | random (entryhi entrylo : Nat)
  | write (entryhi entrylo index : Nat)
deriving DecidableEq, Repr

/-- The collaborators of the VM core: allocator outcomes still to come, and the
calls made so far. -/
structure Machine where
  kmalloc_results : List Bool
  alloc_kpages_results : List Nat
  tlb_log : List tlb_event
  free_kpages_log : List Nat
  kfree_log : List kblock
deriving DecidableEq, Repr

/-- Modelled from the spec: `kmalloc`, which yields a block or `NULL`; an exhausted
outcome list is an exhausted heap. -/
def kmalloc (m : Machine) : Bool × Machine :=
  match m.kmalloc_results with
  | [] => (false, m)
  | b :: rest => (b, { m with kmalloc_results := rest })

/-- Modelled from the spec: `kfree`, a no-op on `NULL`. -/
def kfree (m : Machine) (p : Option kblock) : Machine :=
  match p with
  | none => m
  | some b => { m with kfree_log := m.kfree_log ++ [b] }

/-- Modelled from the spec: `alloc_kpages(1)`, which yields a kernel virtual
address, or zero on failure. -/
def alloc_kpages (m : Machine) : Nat × Machine :=
  match m.alloc_kpages_results with
  | [] => (0, m)
  | v :: rest => (u32 v, { m with alloc_kpages_results := rest })

/-- Modelled from the spec: `free_kpages(addr)`. -/
def free_kpages (m : Machine) (addr : Nat) : Machine :=
  { m with free_kpages_log := m.free_kpages_log ++ [addr] }

/-- Modelled from the spec: `tlb_random(entryhi, entrylo)`. -/
def tlb_random (m : Machine) (entryhi entrylo : Nat) : Machine :=
  { m with tlb_log := m.tlb_log ++ [tlb_event.random entryhi entrylo] }

/-- Modelled from the spec: `tlb_write(entryhi, entrylo, index)`. -/
def tlb_write (m : Machine) (entryhi entrylo index : Nat) : Machine :=
  { m with tlb_log := m.tlb_log ++ [tlb_event.write entryhi entrylo index] }

/-- Function `vm_tlbflush`: every slot `i < NUM_TLB` is overwritten with the invalid entry. -/
def vm_tlbflush (m : Machine) : Machine :=
  (List.range NUM_TLB).foldl (fun acc i => tlb_write acc (TLBHI_INVALID i) TLBLO_INVALID i) m

/-! ## Region list (`addrspace.c`) -/

/-- Function `init_region`: a fresh node, or `NULL` when `kmalloc` fails. -/
def init_region (m : Machine) (vaddr memsize cur_perm old_perm : Nat) :
    Option region × Machine :=
  let a := kmalloc m
  if a.1 = false then (none, a.2)
  else (some ⟨vaddr, memsize, cur_perm, old_perm⟩, a.2)

/-- Function `copy_region`: a fresh node with the four fields of `old_r`. -/
def copy_region (m : Machine) (old_r : region) : Option region × Machine :=
  init_region m old_r.vaddr old_r.memsize old_r.cur_perm old_r.old_perm

/-- The walk of `add_region` to the last node, where `r` is linked. -/
def add_region_walk : List region → region → List region
  | [], r => [r]
  | cur :: next, r => cur :: add_region_walk next r

/-- Function `add_region`: link `r` at the end of the list. -/
def add_region (as : addrspace) (r : region) : addrspace :=
  { as with regions := add_region_walk as.regions r }

/-- The loop of `search_region` from the node `cur` on. -/
def search_region_from : List region → Nat → Nat → Option region
  | [], _, _ => none
  | cur :: next, vaddr, memsize =>
    if vaddr ≥ cur.vaddr ∧ u32 (vaddr + memsize) ≤ u32 (cur.vaddr + cur.memsize) then
      some cur
    else
      search_region_from next vaddr memsize

/-- Function `search_region`: the first region that is a superset of the request. -/
def search_region (as : addrspace) (vaddr memsize : Nat) : Option region :=
  search_region_from as.regions vaddr memsize

/-- The loop of `free_regions`. -/
def free_regions (m : Machine) (as : addrspace) : Machine :=
  as.regions.foldl (fun acc cur => kfree acc (some (kblock.region_node cur))) m

/-! ## Page-table allocation (`vm.c`)

The `as` argument of the three allocators is represented by its level-0 array
`as->pgtable`, the only part of the address space they touch. -/

/-- Function `vm_allocpte1`: store a fresh zeroed level-1 node (or `NULL` when `kmalloc`
fails) in slot `PG_IDX0(paddr)`. -/
def vm_allocpte1 (m : Machine) (pgtable : pgtable_t) (paddr : Nat) :
    Nat × Machine × pgtable_t :=
  let idx0 := PG_IDX0 paddr
  let a := kmalloc m
  if a.1 = false then
    (ENOMEM, a.2, pgtable.set idx0 none)
  else
    (0, a.2, pgtable.set idx0 (some (List.replicate PG_SIZE_1 none)))

/-- Function `vm_allocpte2`: store a fresh zeroed level-2 node (or `NULL` when `kmalloc`
fails) in slot `PG_IDX1(paddr)` of the level-1 node; undefined when that node is
`NULL`. -/
def vm_allocpte2 (m : Machine) (pgtable : pgtable_t) (paddr : Nat) :
    Option (Nat × Machine × pgtable_t) :=
  let idx0 := PG_IDX0 paddr
  let idx1 := PG_IDX1 paddr
  match pgtable.getD idx0 none with
  | none => none
  | some pte1 =>
    let a := kmalloc m
    if a.1 = false then
      some (ENOMEM, a.2, pgtable.set idx0 (some (pte1.set idx1 none)))
    else
      some (0, a.2,
        pgtable.set idx0 (some (pte1.set idx1 (some (List.replicate PG_SIZE_2 0)))))

/-- Function `vm_allocpte3`: allocate a frame and store its leaf word in slot
`PG_IDX2(paddr)` of the level-2 node; undefined when a node on the path is `NULL`. -/
def vm_allocpte3 (m : Machine) (pgtable : pgtable_t) (paddr : Nat) (perm : Nat) :
    Option (Nat × Machine × pgtable_t) :=
  let idx0 := PG_IDX0 paddr
  let idx1 := PG_IDX1 paddr
  let idx2 := PG_IDX2 paddr
  match pgtable.getD idx0 none with
  | none => none
  | some pte1 =>
    match pte1.getD idx1 none with
    | none => none
    | some pte2 =>
      let a := alloc_kpages m
      let vaddr := a.1
      if vaddr = 0 then
        some (ENOMEM, a.2, pgtable)
      else
        let pfn := KVADDR_TO_PADDR vaddr
        let entry := (pfn &&& PAGE_FRAME) ||| GET_DIRTY_BIT perm ||| GET_VALID_BIT perm
        some (0, a.2, pgtable.set idx0 (some (pte1.set idx1 (some (pte2.set idx2 entry)))))

/-- The value of `pgtable[i][j][k]`, when the two nodes above it exist. -/
def pt_leaf (pgtable : pgtable_t) (i j k : Nat) : Option Nat :=
  match pgtable.getD i none with
  | none => none
  | some pte1 =>
    match pte1.getD j none with
    | none => none
    | some pte2 => some (pte2.getD k 0)

/-! ## The fault handler (`vm.c`) -/

/-- The `cleanupB` block of `vm_fault`; `pte1` is the local read before step 1. -/
def vm_fault_cleanupB (m : Machine) (allocated_pte1_flag : Nat) (pte1 : Option pte1_t) :
    Machine :=
  if allocated_pte1_flag = 1 ∧ pte1 ≠ none then kfree m (pte1.map kblock.level1) else m

/-- The `cleanupC` block of `vm_fault`, falling through to `cleanupB`; `pte2` is the
local read before step 2. -/
def vm_fault_cleanupC (m : Machine) (allocated_pte1_flag : Nat) (pte1 : Option pte1_t)
    (allocated_pte2_flag : Nat) (pte2 : Option pte2_t) : Machine :=
  vm_fault_cleanupB
    (if allocated_pte2_flag = 1 ∧ pte2 ≠ none then kfree m (pte2.map kblock.level2) else m)
    allocated_pte1_flag pte1

/-- The end of `vm_fault` (lines 197-208): read the leaf back and write it to the TLB. -/
def vm_fault_tlb (m : Machine) (pgtable : pgtable_t) (faultaddress paddr : Nat) :
    Option (Nat × Machine × pgtable_t) :=
  match pt_leaf pgtable (PG_IDX0 paddr) (PG_IDX1 paddr) (PG_IDX2 paddr) with
  | none => none
  | some entry_lo =>
    let entry_hi := u32 faultaddress &&& PAGE_FRAME
    some (0, tlb_random m entry_hi entry_lo, pgtable)

/-- Step 3 of `vm_fault` (lines 182-195) and what follows it. -/
def vm_fault_pte3 (m : Machine) (as : addrspace) (pgtable : pgtable_t)
    (faultaddress paddr : Nat) (allocated_pte1_flag : Nat) (pte1 : Option pte1_t)
    (allocated_pte2_flag : Nat) (pte2 : Option pte2_t) :
    Option (Nat × Machine × pgtable_t) :=
  match pt_leaf pgtable (PG_IDX0 paddr) (PG_IDX1 paddr) (PG_IDX2 paddr) with
  | none => none
  | some pte3 =>
    if pte3 = 0 then
      match search_region as faultaddress 0 with
      | none =>
        some (EFAULT,
          vm_fault_cleanupC m allocated_pte1_flag pte1 allocated_pte2_flag pte2, pgtable)
      | some r =>
        match vm_allocpte3 m pgtable paddr r.cur_perm with
        | none => none
        | some (result, m1, pgtable1) =>
          if result ≠ 0 then
            some (result,
              vm_fault_cleanupC m1 allocated_pte1_flag pte1 allocated_pte2_flag pte2,
              pgtable1)
          else
            vm_fault_tlb m1 pgtable1 faultaddress paddr
    else
      vm_fault_tlb m pgtable faultaddress paddr

/-- Step 2 of `vm_fault` (lines 171-180) and what follows it. -/
def vm_fault_pte2 (m : Machine) (as : addrspace) (pgtable : pgtable_t)
    (faultaddress paddr : Nat) (allocated_pte1_flag : Nat) (pte1 : Option pte1_t) :
    Option (Nat × Machine × pgtable_t) :=
  match pgtable.getD (PG_IDX0 paddr) none with
  | none => none
  | some node1 =>
    let pte2 := node1.getD (PG_IDX1 paddr) none
    if pte2 = none then
      match vm_allocpte2 m pgtable paddr with
      | none => none
      | some (result, m1, pgtable1) =>
        if result ≠ 0 then
          some (result, vm_fault_cleanupB m1 allocated_pte1_flag pte1, pgtable1)
        else
          vm_fault_pte3 m1 as pgtable1 faultaddress paddr allocated_pte1_flag pte1 1 pte2
    else
      vm_fault_pte3 m as pgtable faultaddress paddr allocated_pte1_flag pte1 0 pte2

/-- The walk of `vm_fault` once its sanity checks have passed (lines 157-226);
`pgtable` is the array at `as->pgtable`. -/
def vm_fault_walk (m : Machine) (as : addrspace) (pgtable : pgtable_t)
    (faultaddress : Nat) : Option (Nat × Machine × pgtable_t) :=
  let paddr := KVADDR_TO_PADDR faultaddress
  let pte1 := pgtable.getD (PG_IDX0 paddr) none
  if pte1 = none then
    let a := vm_allocpte1 m pgtable paddr
    if a.1 ≠ 0 then
      some (a.1, a.2.1, a.2.2)
    else
      vm_fault_pte2 a.2.1 as a.2.2 faultaddress paddr 1 pte1
  else
    vm_fault_pte2 m as pgtable faultaddress paddr 0 pte1

/-- Function `vm_fault`: the result code, the collaborators and the current process after the
call. -/
def vm_fault (m : Machine) (curproc : Option proc) (faulttype : Int) (faultaddress : Nat) :
    Option (Nat × Machine × Option proc) :=
  match curproc with
  | none => some (EFAULT, m, curproc)
  | some p =>
    match proc_getas curproc with
    | none => some (EFAULT, m, curproc)
    | some as =>
      if as.regions = [] then
        some (EFAULT, m, curproc)
      else
        match as.pgtable with
        | none => some (EFAULT, m, curproc)
        | some pgtable =>
          if faulttype = VM_FAULT_READ ∨ faulttype = VM_FAULT_WRITE then
            match vm_fault_walk m as pgtable faultaddress with
            | none => none
            | some (result, m1, pgtable1) =>
              some (result, m1,
                some { p with p_addrspace := some { as with pgtable := some pgtable1 } })
          else if faulttype = VM_FAULT_READONLY then
            some (EFAULT, m, curproc)
          else
            some (EINVAL, m, curproc)

/-! ## The fault handler, with its page-table stores and TLB writes in order

The functions of this section are `vm_allocpte1`, `vm_allocpte2`, `vm_allocpte3` and
`vm_fault` once more, statement for statement, with one more component: the list of
the stores into the page table and of the TLB writes that the call has made, in
execution order.  The store of a fresh node into its slot is one event that carries
the node as its zero-fill loop leaves it. -/

/-- A store into the page table (`as->pgtable[idx0] = node`,
`as->pgtable[idx0][idx1] = node`, `as->pgtable[idx0][idx1][idx2] = entry`) or a write
to the TLB. -/
inductive vm_event where
  | store_pte1 (idx0 : Nat) (node : Option pte1_t)
  | store_pte2 (idx0 idx1 : Nat) (node : Option pte2_t)
  | store_pte3 (idx0 idx1 idx2 : Nat) (entry : Nat)
  | tlb (e : tlb_event)
deriving DecidableEq, Repr

/-- Function `vm_allocpte1` with its events: the store of line 21 happens whether
`kmalloc` succeeded or not. -/
def vm_allocpte1_traced (m : Machine) (pgtable : pgtable_t) (paddr : Nat)
    (trace : List vm_event) : Nat × Machine × pgtable_t × List vm_event :=
  let idx0 := PG_IDX0 paddr
  let a := kmalloc m
  if a.1 = false then
    (ENOMEM, a.2, pgtable.set idx0 none, trace ++ [vm_event.store_pte1 idx0 none])
  else
    (0, a.2, pgtable.set idx0 (some (List.replicate PG_SIZE_1 none)),
      trace ++ [vm_event.store_pte1 idx0 (some (List.replicate PG_SIZE_1 none))])

/-- Function `vm_allocpte2` with its events: the store of line 47 happens whether
`kmalloc` succeeded or not. -/
def vm_allocpte2_traced (m : Machine) (pgtable : pgtable_t) (paddr : Nat)
    (trace : List vm_event) : Option (Nat × Machine × pgtable_t × List vm_event) :=
  let idx0 := PG_IDX0 paddr
  let idx1 := PG_IDX1 paddr
  match pgtable.getD idx0 none with
  | none => none
  | some pte1 =>
    let a := kmalloc m
    if a.1 = false then
      some (ENOMEM, a.2, pgtable.set idx0 (some (pte1.set idx1 none)),
        trace ++ [vm_event.store_pte2 idx0 idx1 none])
    else
      some (0, a.2,
        pgtable.set idx0 (some (pte1.set idx1 (some (List.replicate PG_SIZE_2 0)))),
        trace ++ [vm_event.store_pte2 idx0 idx1 (some (List.replicate PG_SIZE_2 0))])

/-- Function `vm_allocpte3` with its events: the store of line 88 happens only when a
frame was allocated. -/
def vm_allocpte3_traced (m : Machine) (pgtable : pgtable_t) (paddr : Nat) (perm : Nat)
    (trace : List vm_event) : Option (Nat × Machine × pgtable_t × List vm_event) :=
  let idx0 := PG_IDX0 paddr
  let idx1 := PG_IDX1 paddr
  let idx2 := PG_IDX2 paddr
  match pgtable.getD idx0 none with
  | none => none
  | some pte1 =>
    match pte1.getD idx1 none with
    | none => none
    | some pte2 =>
      let a := alloc_kpages m
      let vaddr := a.1
      if vaddr = 0 then
        some (ENOMEM, a.2, pgtable, trace)
      else
        let pfn := KVADDR_TO_PADDR vaddr
        let entry := (pfn &&& PAGE_FRAME) ||| GET_DIRTY_BIT perm ||| GET_VALID_BIT perm
        some (0, a.2, pgtable.set idx0 (some (pte1.set idx1 (some (pte2.set idx2 entry)))),
          trace ++ [vm_event.store_pte3 idx0 idx1 idx2 entry])

/-- The end of `vm_fault` (lines 197-208) with its events: the `tlb_random` call. -/
def vm_fault_tlb_traced (m : Machine) (pgtable : pgtable_t) (faultaddress paddr : Nat)
    (trace : List vm_event) : Option (Nat × Machine × pgtable_t × List vm_event) :=
  match pt_leaf pgtable (PG_IDX0 paddr) (PG_IDX1 paddr) (PG_IDX2 paddr) with
  | none => none
  | some entry_lo =>
    let entry_hi := u32 faultaddress &&& PAGE_FRAME
    some (0, tlb_random m entry_hi entry_lo, pgtable,
      trace ++ [vm_event.tlb (tlb_event.random entry_hi entry_lo)])

/-- Step 3 of `vm_fault` (lines 182-195) and what follows it, with its events; the
cleanup blocks assign to the locals `pte2` and `pte1` only, not to the page table. -/
def vm_fault_pte3_traced (m : Machine) (as : addrspace) (pgtable : pgtable_t)
    (faultaddress paddr : Nat) (allocated_pte1_flag : Nat) (pte1 : Option pte1_t)
    (allocated_pte2_flag : Nat) (pte2 : Option pte2_t) (trace : List vm_event) :
    Option (Nat × Machine × pgtable_t × List vm_event) :=
  match pt_leaf pgtable (PG_IDX0 paddr) (PG_IDX1 paddr) (PG_IDX2 paddr) with
  | none => none
  | some pte3 =>
    if pte3 = 0 then
      match search_region as faultaddress 0 with
      | none =>
        some (EFAULT,
          vm_fault_cleanupC m allocated_pte1_flag pte1 allocated_pte2_flag pte2, pgtable,
          trace)
      | some r =>
        match vm_allocpte3_traced m pgtable paddr r.cur_perm trace with
        | none => none
        | some (result, m1, pgtable1, trace1) =>
          if result ≠ 0 then
            some (result,
              vm_fault_cleanupC m1 allocated_pte1_flag pte1 allocated_pte2_flag pte2,
              pgtable1, trace1)
          else
            vm_fault_tlb_traced m1 pgtable1 faultaddress paddr trace1
    else
      vm_fault_tlb_traced m pgtable faultaddress paddr trace

/-- Step 2 of `vm_fault` (lines 171-180) and what follows it, with its events. -/
def vm_fault_pte2_traced (m : Machine) (as : addrspace) (pgtable : pgtable_t)
    (faultaddress paddr : Nat) (allocated_pte1_flag : Nat) (pte1 : Option pte1_t)
    (trace : List vm_event) : Option (Nat × Machine × pgtable_t × List vm_event) :=
  match pgtable.getD (PG_IDX0 paddr) none with
  | none => none
  | some node1 =>
    let pte2 := node1.getD (PG_IDX1 paddr) none
    if pte2 = none then
      match vm_allocpte2_traced m pgtable paddr trace with
      | none => none
      | some (result, m1, pgtable1, trace1) =>
        if result ≠ 0 then
          some (result, vm_fault_cleanupB m1 allocated_pte1_flag pte1, pgtable1, trace1)
        else
          vm_fault_pte3_traced m1 as pgtable1 faultaddress paddr allocated_pte1_flag pte1
            1 pte2 trace1
    else
      vm_fault_pte3_traced m as pgtable faultaddress paddr allocated_pte1_flag pte1 0 pte2
        trace

/-- The walk of `vm_fault` (lines 157-226) with its events. -/
def vm_fault_walk_traced (m : Machine) (as : addrspace) (pgtable : pgtable_t)
    (faultaddress : Nat) (trace : List vm_event) :
    Option (Nat × Machine × pgtable_t × List vm_event) :=
  let paddr := KVADDR_TO_PADDR faultaddress
  let pte1 := pgtable.getD (PG_IDX0 paddr) none
  if pte1 = none then
    let a := vm_allocpte1_traced m pgtable paddr trace
    if a.1 ≠ 0 then
      some (a.1, a.2.1, a.2.2.1, a.2.2.2)
    else
      vm_fault_pte2_traced a.2.1 as a.2.2.1 faultaddress paddr 1 pte1 a.2.2.2
  else
    vm_fault_pte2_traced m as pgtable faultaddress paddr 0 pte1 trace

/-- Function `vm_fault` with its events: the result code, the collaborators, the current
process after the call, and the stores into the page table and TLB writes of the call in
execution order. -/
def vm_fault_traced (m : Machine) (curproc : Option proc) (faulttype : Int)
    (faultaddress : Nat) : Option (Nat × Machine × Option proc × List vm_event) :=
  match curproc with
  | none => some (EFAULT, m, curproc, [])
  | some p =>
    match proc_getas curproc with
    | none => some (EFAULT, m, curproc, [])
    | some as =>
      if as.regions = [] then
        some (EFAULT, m, curproc, [])
      else
        match as.pgtable with
        | none => some (EFAULT, m, curproc, [])
        | some pgtable =>
          if faulttype = VM_FAULT_READ ∨ faulttype = VM_FAULT_WRITE then
            match vm_fault_walk_traced m as pgtable faultaddress [] with
            | none => none
            | some (result, m1, pgtable1, trace1) =>
              some (result, m1,
                some { p with p_addrspace := some { as with pgtable := some pgtable1 } },
                trace1)
          else if faulttype = VM_FAULT_READONLY then
            some (EFAULT, m, curproc, [])
          else
            some (EINVAL, m, curproc, [])

/-! ## Address spaces (`addrspace.c`) -/

/-- Function `as_create`: a fresh address space, or `NULL` when either allocation fails. -/
def as_create (m : Machine) : Option addrspace × Machine :=
  let a := kmalloc m
  if a.1 = false then
    (none, a.2)
  else
    let b := kmalloc a.2
    if b.1 = false then
      (none, kfree b.2 (some kblock.as_struct))
    else
      (some { regions := [], pgtable := some (List.replicate PG_SIZE_0 none) }, b.2)

/-- The `k` loop of `as_destroy` over one level-2 node. -/
def as_destroy_pte2 (m : Machine) (pte2 : pte2_t) : Machine :=
  (List.range PG_SIZE_2).foldl
    (fun acc k =>
      if pte2.getD k 0 ≠ 0 then
        free_kpages acc (PADDR_TO_KVADDR (pte2.getD k 0 &&& PAGE_FRAME))
      else acc)
    m

/-- The `j` loop of `as_destroy` over one level-1 node. -/
def as_destroy_pte1 (m : Machine) (pte1 : pte1_t) : Machine :=
  (List.range PG_SIZE_1).foldl
    (fun acc j =>
      match pte1.getD j none with
      | none => kfree acc none
      | some pte2 => kfree (as_destroy_pte2 acc pte2) (some (kblock.level2 pte2)))
    m

/-- Function `as_destroy`; undefined when `as->pgtable` is `NULL`. -/
def as_destroy (m : Machine) (as : addrspace) : Option Machine :=
  match as.pgtable with
  | none => none
  | some pgtable =>
    let m1 := free_regions m as
    let m2 := (List.range PG_SIZE_0).foldl
      (fun acc i =>
        match pgtable.getD i none with
        | none => acc
        | some pte1 => kfree (as_destroy_pte1 acc pte1) (some (kblock.level1 pte1)))
      m1
    some (kfree (kfree m2 (some (kblock.level0 pgtable))) (some kblock.as_struct))

/-- The region loop of `as_copy` (lines 242-258) from the node `r_prv` on; the flag
is `false` when a `copy_region` returned `NULL`. -/
def as_copy_regions : List region → Machine → addrspace → Bool × Machine × addrspace
  | [], m, new_as => (true, m, new_as)
  | r_prv :: next, m, new_as =>
    let c := copy_region m r_prv
    match c.1 with
    | none => (false, c.2, new_as)
    | some r_cur => as_copy_regions next c.2 (add_region new_as r_cur)

/-- How the page-table loops of `as_copy` are left: by running on (`next`), by one
of the three `goto`s with the loop indices at that point, or by an undefined
dereference.  `new_pgtable` is the array at `new_as->pgtable`. -/
inductive copy_exit where
  | next (m : Machine) (new_pgtable : pgtable_t)
  | cleanupB (result : Nat) (m : Machine) (new_pgtable : pgtable_t)
  | cleanupC (result : Nat) (m : Machine) (new_pgtable : pgtable_t) (i : Nat)
  | cleanupD (result : Nat) (m : Machine) (new_pgtable : pgtable_t) (i j : Nat)
  | undefined
deriving DecidableEq, Repr

/-- The body of the innermost loop of `as_copy` (lines 268-288) for the non-zero
leaf `paddr = old_as->pgtable[i][j][k]`. -/
def as_copy_entry (i j : Nat) (paddr : Nat) (m : Machine) (new_pgtable : pgtable_t) :
    copy_exit :=
  let perm := GET_WRITE_BIT paddr ||| GET_READ_BIT paddr
  let a := vm_allocpte1 m new_pgtable paddr
  if a.1 ≠ 0 then
    copy_exit.cleanupB a.1 a.2.1 a.2.2
  else
    match vm_allocpte2 a.2.1 a.2.2 paddr with
    | none => copy_exit.undefined
    | some (result2, m2, pgtable2) =>
      if result2 ≠ 0 then
        copy_exit.cleanupC result2 m2 pgtable2 i
      else
        match vm_allocpte3 m2 pgtable2 paddr perm with
        | none => copy_exit.undefined
        | some (result3, m3, pgtable3) =>
          if result3 ≠ 0 then
            copy_exit.cleanupD result3 m3 pgtable3 i j
          else
            copy_exit.next m3 pgtable3

/-- The `k` loop of `as_copy` over the level-2 node `old_as->pgtable[i][j]`. -/
def as_copy_k (old_pte2 : pte2_t) (i j : Nat) :
    List Nat → Machine → pgtable_t → copy_exit
  | [], m, new_pgtable => copy_exit.next m new_pgtable
  | k :: ks, m, new_pgtable =>
    if old_pte2.getD k 0 ≠ 0 then
      match as_copy_entry i j (old_pte2.getD k 0) m new_pgtable with
      | copy_exit.next m1 pgtable1 => as_copy_k old_pte2 i j ks m1 pgtable1
      | e => e
    else
      as_copy_k old_pte2 i j ks m new_pgtable

/-- The `j` loop of `as_copy` over the level-1 node `old_as->pgtable[i]`. -/
def as_copy_j (old_pte1 : pte1_t) (i : Nat) :
    List Nat → Machine → pgtable_t → copy_exit
  | [], m, new_pgtable => copy_exit.next m new_pgtable
  | j :: js, m, new_pgtable =>
    match old_pte1.getD j none with
    | none => as_copy_j old_pte1 i js m new_pgtable
    | some old_pte2 =>
      match as_copy_k old_pte2 i j (List.range PG_SIZE_2) m new_pgtable with
      | copy_exit.next m1 pgtable1 => as_copy_j old_pte1 i js m1 pgtable1
      | e => e

/-- The `i` loop of `as_copy` over `old_as->pgtable`. -/
def as_copy_i (old_pgtable : pgtable_t) :
    List Nat → Machine → pgtable_t → copy_exit
  | [], m, new_pgtable => copy_exit.next m new_pgtable
  | i :: is, m, new_pgtable =>
    match old_pgtable.getD i none with
    | none => as_copy_i old_pgtable is m new_pgtable
    | some old_pte1 =>
      match as_copy_j old_pte1 i (List.range PG_SIZE_1) m new_pgtable with
      | copy_exit.next m1 pgtable1 => as_copy_i old_pgtable is m1 pgtable1
      | e => e

/-- The `cleanupB` block of `as_copy`: destroy `new_as` and return `result`. -/
def as_copy_cleanupB (result : Nat) (m : Machine) (old_as new_as : addrspace)
    (ret : Option addrspace) : Option (Nat × Machine × addrspace × Option addrspace) :=
  match as_destroy m new_as with
  | none => none
  | some m1 => some (result, m1, old_as, ret)

/-- The `cleanupC` block of `as_copy`: `kfree(new_as->pgtable[i])`, then
`old_as->pgtable[i] = NULL`, then `cleanupB`.  When `new_as->pgtable[i]` is a node
it stays linked after being freed and `as_destroy` walks it: undefined. -/
def as_copy_cleanupC (result : Nat) (m : Machine) (old_as new_as : addrspace)
    (ret : Option addrspace) (i : Nat) :
    Option (Nat × Machine × addrspace × Option addrspace) :=
  match new_as.pgtable, old_as.pgtable with
  | some new_pgtable, some old_pgtable =>
    match new_pgtable.getD i none with
    | some _ => none
    | none =>
      as_copy_cleanupB result (kfree m none)
        { old_as with pgtable := some (old_pgtable.set i none) } new_as ret
  | _, _ => none

/-- The `cleanupD` block of `as_copy`: `kfree(new_as->pgtable[i][j])`, then
`old_as->pgtable[i][j] = NULL`, then `cleanupC`; undefined when `new_as->pgtable[i]`
is `NULL`. -/
def as_copy_cleanupD (result : Nat) (m : Machine) (old_as new_as : addrspace)
    (ret : Option addrspace) (i j : Nat) :
    Option (Nat × Machine × addrspace × Option addrspace) :=
  match new_as.pgtable, old_as.pgtable with
  | some new_pgtable, some old_pgtable =>
    match new_pgtable.getD i none, old_pgtable.getD i none with
    | some new_pte1, some old_pte1 =>
      as_copy_cleanupC result (kfree m ((new_pte1.getD j none).map kblock.level2))
        { old_as with pgtable := some (old_pgtable.set i (some (old_pte1.set j none))) }
        new_as ret i
    | _, _ => none
  | _, _ => none

/-- Function `as_copy`: the result code, the collaborators, the source address space and the
word at `*ret` after the call (`ret` is that word before it); undefined when a null
or freed pointer is dereferenced. -/
def as_copy (m : Machine) (old_as : addrspace) (ret : Option addrspace) :
    Option (Nat × Machine × addrspace × Option addrspace) :=
  let c := as_create m
  match c.1 with
  | none => some (ENOMEM, c.2, old_as, ret)
  | some new_as0 =>
    let rc := as_copy_regions old_as.regions c.2 new_as0
    let new_as := rc.2.2
    if rc.1 = false then
      as_copy_cleanupB ENOMEM rc.2.1 old_as new_as ret
    else
      match old_as.pgtable, new_as.pgtable with
      | some old_pgtable, some new_pgtable =>
        match as_copy_i old_pgtable (List.range PG_SIZE_0) rc.2.1 new_pgtable with
        | copy_exit.next m1 pgtable1 =>
          some (0, m1, old_as, some { new_as with pgtable := some pgtable1 })
        | copy_exit.cleanupB result m1 pgtable1 =>
          as_copy_cleanupB result m1 old_as { new_as with pgtable := some pgtable1 } ret
        | copy_exit.cleanupC result m1 pgtable1 i =>
          as_copy_cleanupC result m1 old_as { new_as with pgtable := some pgtable1 } ret i
        | copy_exit.cleanupD result m1 pgtable1 i j =>
          as_copy_cleanupD result m1 old_as { new_as with pgtable := some pgtable1 } ret i j
        | copy_exit.undefined => none
      | _, _ => none

/-- Function `as_define_region`. -/
def as_define_region (m : Machine) (as : Option addrspace) (vaddr memsize : Nat)
    (readable writeable executable : Nat) : Nat × Machine × Option addrspace :=
  match as with
  | none => (EFAULT, m, as)
  | some a =>
    if search_region a vaddr memsize ≠ none then
      (ENOMEM, m, as)
    else
      let memsize1 := u32 (memsize + (vaddr &&& (0xffffffff - PAGE_FRAME)))
      let vaddr1 := vaddr &&& PAGE_FRAME
      let memsize2 := u32 (memsize1 + PAGE_SIZE - 1) &&& PAGE_FRAME
      let cur_perm := readable ||| writeable ||| executable
      let r := init_region m vaddr1 memsize2 cur_perm cur_perm
      match r.1 with
      | none => (ENOMEM, r.2, as)
      | some node => (0, r.2, some (add_region a node))

/-- Function `as_prepare_load`. -/
def as_prepare_load (as : addrspace) : Nat × addrspace :=
  if as.regions = [] then
    (EFAULT, as)
  else
    let perm := R_RD ||| R_WR ||| R_EX
    (0, { as with regions :=
      as.regions.map (fun r => { r with old_perm := r.cur_perm, cur_perm := perm }) })

/-- Function `as_complete_load`. -/
def as_complete_load (m : Machine) (as : addrspace) : Nat × Machine × addrspace :=
  if as.regions = [] then
    (EFAULT, m, as)
  else
    (0, vm_tlbflush m,
      { as with regions := as.regions.map (fun r => { r with cur_perm := r.old_perm }) })

/-- Function `as_define_stack`; `stackptr` is the word at `*stackptr` before the call, and the
last component of the result is that word after it. -/
def as_define_stack (m : Machine) (as : Option addrspace) (stackptr : Nat) :
    Nat × Machine × Option addrspace × Nat :=
  let a := as_define_region m as (USERSTACK - USERSTACKSIZE) USERSTACKSIZE R_RD R_WR 0
  if a.1 ≠ 0 then
    (a.1, a.2.1, a.2.2, stackptr)
  else
    (0, a.2.1, a.2.2, USERSTACK)

/-! ## Well-formed page tables and observations -/

/-- A level-2 pointer is `NULL` or points to 64 leaves. -/
def pte2_ok (o : Option pte2_t) : Bool :=
  match o with
  | none => true
  | some pte2 => pte2.length == PG_SIZE_2

/-- A level-1 pointer is `NULL` or points to 64 well-formed level-2 pointers. -/
def pte1_ok (o : Option pte1_t) : Bool :=
  match o with
  | none => true
  | some pte1 => pte1.length == PG_SIZE_1 && pte1.all pte2_ok

/-- The level-0 array has 256 well-formed level-1 pointers. -/
def pgtable_wf (pgtable : pgtable_t) : Bool :=
  pgtable.length == PG_SIZE_0 && pgtable.all pte1_ok

/-- The leaf word of `pgtable[i][j][k]`, an absent path counting as an empty leaf. -/
def leaf_word (pgtable : pgtable_t) (i j k : Nat) : Nat :=
  (pt_leaf pgtable i j k).getD 0

/-- The leaf word that `vm_fault` uses for the address `a`. -/
def fault_leaf (pgtable : pgtable_t) (a : Nat) : Nat :=
  leaf_word pgtable (PG_IDX0 (KVADDR_TO_PADDR a)) (PG_IDX1 (KVADDR_TO_PADDR a))
    (PG_IDX2 (KVADDR_TO_PADDR a))

/-- The page-table root of the current process, when there is one. -/
def curproc_pgtable (curproc : Option proc) : Option pgtable_t :=
  match proc_getas curproc with
  | none => none
  | some as => as.pgtable

/-- The slots on the path to `pgtable[i][j][k]` are within their arrays. -/
def path_ok (pgtable : pgtable_t) (i j k : Nat) : Prop :=
  i < pgtable.length ∧
    ∀ pte1, pgtable.getD i none = some pte1 →
      j < pte1.length ∧ ∀ pte2, pte1.getD j none = some pte2 → k < pte2.length

/-- The region that a successful `as_define_region` appends. -/
def defined_region (vaddr memsize readable writeable executable : Nat) : region :=
  { vaddr := vaddr &&& PAGE_FRAME
    memsize :=
      u32 (u32 (memsize + (vaddr &&& (0xffffffff - PAGE_FRAME))) + PAGE_SIZE - 1) &&& PAGE_FRAME
    cur_perm := readable ||| writeable ||| executable
    old_perm := readable ||| writeable ||| executable }

/-- The region that `as_define_stack` requests. -/
def stack_region : region :=
  { vaddr := USERSTACK - USERSTACKSIZE, memsize := USERSTACKSIZE,
    cur_perm := R_RD ||| R_WR, old_perm := R_RD ||| R_WR }

/-- A `goto` out of the page-table loops of `as_copy` carries a non-zero result. -/
def copy_exit_failed (e : copy_exit) : Prop :=
  match e with
  | copy_exit.cleanupB result _ _ => result ≠ 0
  | copy_exit.cleanupC result _ _ _ => result ≠ 0
  | copy_exit.cleanupD result _ _ _ _ => result ≠ 0
  | _ => True

/-- The leaf word that `vm_allocpte3` stores (line 88) for a frame at kernel address
`vaddr` and region permissions `perm`. -/
def fault_entry (vaddr perm : Nat) : Nat :=
  (KVADDR_TO_PADDR vaddr &&& PAGE_FRAME) ||| GET_DIRTY_BIT perm ||| GET_VALID_BIT perm

/-- Modelled from the spec: `TLBLO_NOCACHE` of `machine/tlb.h` (bit 11). -/
def TLBLO_NOCACHE : Nat := 0x00000800

/-- The non-zero leaf words of a level-2 node, in slot order. -/
def pte2_leaves : pte2_t → List Nat
  | [] => []
  | e :: es => if e ≠ 0 then e :: pte2_leaves es else pte2_leaves es

/-- The non-zero leaf words under a level-1 node, in slot order. -/
def pte1_leaves : pte1_t → List Nat
  | [] => []
  | none :: ps => pte1_leaves ps
  | some pte2 :: ps => pte2_leaves pte2 ++ pte1_leaves ps

/-- The non-zero leaf words of a page table, in the order of the indices `(i, j, k)`. -/
def pgtable_leaves : pgtable_t → List Nat
  | [] => []
  | none :: ps => pgtable_leaves ps
  | some pte1 :: ps => pte1_leaves pte1 ++ pgtable_leaves ps

/-- The present level-2 nodes of a level-1 node, as heap blocks, in slot order. -/
def pte1_blocks : pte1_t → List kblock
  | [] => []
  | none :: ps => pte1_blocks ps
  | some pte2 :: ps => kblock.level2 pte2 :: pte1_blocks ps

/-- The present nodes of a page table as heap blocks: for each present level-1 node
in slot order, its present level-2 nodes and then the node itself. -/
def pgtable_blocks : pgtable_t → List kblock
  | [] => []
  | none :: ps => pgtable_blocks ps
  | some pte1 :: ps => pte1_blocks pte1 ++ kblock.level1 pte1 :: pgtable_blocks ps

/-- The collaborators after `free_kpages` was called on `frames` and `kfree` on
`blocks`, in that order within each log. -/
def log_to (m : Machine) (frames : List Nat) (blocks : List kblock) : Machine :=
  { m with free_kpages_log := m.free_kpages_log ++ frames, kfree_log := m.kfree_log ++ blocks }

/-- The event is a store into the page table. -/
def is_pt_store : vm_event → Bool
  | vm_event.tlb _ => false
  | _ => true

/-- The page table after the store of an event; a TLB write leaves it as it is. -/
def pt_apply (pgtable : pgtable_t) : vm_event → pgtable_t
  | vm_event.store_pte1 idx0 node => pgtable.set idx0 node
  | vm_event.store_pte2 idx0 idx1 node =>
    match pgtable.getD idx0 none with
    | none => pgtable
    | some pte1 => pgtable.set idx0 (some (pte1.set idx1 node))
  | vm_event.store_pte3 idx0 idx1 idx2 entry =>
    match pgtable.getD idx0 none with
    | none => pgtable
    | some pte1 =>
      match pte1.getD idx1 none with
      | none => pgtable
      | some pte2 => pgtable.set idx0 (some (pte1.set idx1 (some (pte2.set idx2 entry))))
  | vm_event.tlb _ => pgtable

/-- The TLB events at the end of a walk of `vm_fault` that left the page table
`pgtable1`: one `tlb_random` of the leaf when the result is 0, none otherwise. -/
def fault_tlb_events (faultaddress paddr result : Nat) (pgtable1 : pgtable_t) :
    List vm_event :=
  if result = 0 then
    [vm_event.tlb (tlb_event.random (u32 faultaddress &&& PAGE_FRAME)
      (leaf_word pgtable1 (PG_IDX0 paddr) (PG_IDX1 paddr) (PG_IDX2 paddr)))]
  else
    []

/-! ## Concrete scenarios -/

/-- A machine whose next sixteen `kmalloc` calls succeed and whose next frames are
at kernel addresses `0x80050000` and `0x80051000`. -/
def machine0 : Machine :=
  { kmalloc_results := List.replicate 16 true
    alloc_kpages_results := [0x80050000, 0x80051000]
    tlb_log := []
    free_kpages_log := []
    kfree_log := [] }

/-- An empty page table, as `as_create` leaves it. -/
def empty_pgtable : pgtable_t := List.replicate PG_SIZE_0 none

/-- The address space that a successful `as_create` returns. -/
def fresh_as : addrspace :=
  { regions := [], pgtable := some empty_pgtable }

/-- A page table whose only leaf is `entry`, on the path `vm_fault` uses for the
user page `0x00401000` (level-0 slot `0x80`, level-1 slot 16, level-2 slot 1). -/
def text_pgtable (entry : Nat) : pgtable_t :=
  empty_pgtable.set 0x80
    (some ((List.replicate PG_SIZE_1 none).set 16
      (some ((List.replicate PG_SIZE_2 0).set 1 entry))))

/-- The text segment `[0x00401000, 0x00403000)` with `cur_perm` and `old_perm`. -/
def text_region (cur_perm old_perm : Nat) : region :=
  { vaddr := 0x00401000, memsize := 0x2000, cur_perm := cur_perm, old_perm := old_perm }

/-- Scenario A as the ELF loader defines it (flags `PF_R = 4`, `PF_X = 1`): one
read-execute text segment and no page mapped. -/
def text_as : addrspace :=
  { regions := [text_region 5 5], pgtable := some empty_pgtable }

/-- The address space `text_as` after `as_prepare_load`, a READ fault at `0x00401500`
served from frame `0x80050000`, and `as_complete_load`. -/
def loaded_text_as : addrspace :=
  { regions := [text_region 5 5], pgtable := some (text_pgtable 0x00050600) }

/-- What `as_copy` stores in `*ret` for the source `loaded_text_as` when the new
frame is at kernel address `0x80051000`. -/
def copied_text_as : addrspace :=
  { regions := [text_region 5 5]
    pgtable := some (empty_pgtable.set 0
      (some ((List.replicate PG_SIZE_1 none).set 1
        (some ((List.replicate PG_SIZE_2 0).set 16 0x00051600))))) }

/-- An address space without regions whose page table maps the user page
`0x00401000`. -/
def regionless_as : addrspace :=
  { regions := [], pgtable := some (text_pgtable 0x00050600) }

/-- An address space whose only region is the user stack
`[USERSTACK - USERSTACKSIZE, USERSTACK)`, with no page mapped. -/
def stack_as : addrspace :=
  { regions := [stack_region], pgtable := some empty_pgtable }

/-- The address space `text_as` after READ faults at `0x00401500` and `0x00402500`
served from frames `0x80050000` and `0x80051000`: leaves `0x00050200` at `(0x80, 16, 1)`
and `0x00051200` at `(0x80, 16, 2)`. -/
def two_page_text_as : addrspace :=
  { regions := [text_region 5 5]
    pgtable := some (empty_pgtable.set 0x80
      (some ((List.replicate PG_SIZE_1 none).set 16
        (some (((List.replicate PG_SIZE_2 0).set 1 0x00050200).set 2 0x00051200))))) }

/-! ## Words and lists: auxiliary facts -/

theorem and_PAGE_FRAME_eq (x : Nat) (hx : x < 2 ^ 32) : x &&& PAGE_FRAME = x - x % 4096 := by
  have h1 : x &&& 0xfffff000 = (x >>> 12) <<< 12 := by
    apply Nat.eq_of_testBit_eq
    intro i
    rw [Nat.testBit_and, Nat.testBit_shiftLeft, Nat.testBit_shiftRight]
    have hm : (0xfffff000 : Nat) = (2 ^ 20 - 1) <<< 12 := by decide
    rw [hm, Nat.testBit_shiftLeft, Nat.testBit_two_pow_sub_one]
    by_cases hi : 12 ≤ i
    · have e : 12 + (i - 12) = i := by omega
      rw [e]
      by_cases h20 : i - 12 < 20
      · simp [h20, hi]
      · have hf : x.testBit i = false := by
          apply Nat.testBit_lt_two_pow
          calc x < 2 ^ 32 := hx
            _ ≤ 2 ^ i := Nat.pow_le_pow_right (by norm_num) (by omega)
        simp [h20, hi, hf]
    · simp [hi]
  unfold PAGE_FRAME
  rw [h1, Nat.shiftRight_eq_div_pow, Nat.shiftLeft_eq]
  have := Nat.div_add_mod x 4096
  norm_num
  omega

theorem and_bit_cases (x i : Nat) : x &&& 2 ^ i = 0 ∨ x &&& 2 ^ i = 2 ^ i := by
  rw [Nat.and_two_pow]
  cases x.testBit i <;> simp

theorem GET_DIRTY_BIT_cases (perm : Nat) :
    GET_DIRTY_BIT perm = 0 ∨ GET_DIRTY_BIT perm = 0x400 := by
  unfold GET_DIRTY_BIT TLBLO_DIRTY
  split <;> simp

theorem GET_VALID_BIT_cases (perm : Nat) :
    GET_VALID_BIT perm = 0 ∨ GET_VALID_BIT perm = 0x200 := by
  unfold GET_VALID_BIT TLBLO_VALID
  split <;> split <;> simp

theorem entry_and_DIRTY (p perm : Nat) :
    ((p &&& PAGE_FRAME) ||| GET_DIRTY_BIT perm ||| GET_VALID_BIT perm) &&& TLBLO_DIRTY
      = GET_DIRTY_BIT perm := by
  have h : TLBLO_DIRTY = 2 ^ 10 := by decide
  have t1 : Nat.testBit 4294963200 10 = false := by decide
  have t2 : Nat.testBit 512 10 = false := by decide
  have t3 : Nat.testBit 1024 10 = true := by decide
  rw [h, Nat.and_two_pow]
  rcases GET_DIRTY_BIT_cases perm with hd | hd <;>
    rcases GET_VALID_BIT_cases perm with hv | hv <;>
    simp [hd, hv, PAGE_FRAME, Nat.testBit_or, Nat.testBit_and, t1, t2, t3]

theorem entry_and_VALID (p perm : Nat) :
    ((p &&& PAGE_FRAME) ||| GET_DIRTY_BIT perm ||| GET_VALID_BIT perm) &&& TLBLO_VALID
      = GET_VALID_BIT perm := by
  have h : TLBLO_VALID = 2 ^ 9 := by decide
  have t1 : Nat.testBit 4294963200 9 = false := by decide
  have t2 : Nat.testBit 512 9 = true := by decide
  have t3 : Nat.testBit 1024 9 = false := by decide
  rw [h, Nat.and_two_pow]
  rcases GET_DIRTY_BIT_cases perm with hd | hd <;>
    rcases GET_VALID_BIT_cases perm with hv | hv <;>
    simp [hd, hv, PAGE_FRAME, Nat.testBit_or, Nat.testBit_and, t1, t2, t3]

theorem GET_DIRTY_BIT_ne_zero (perm : Nat) :
    GET_DIRTY_BIT perm ≠ 0 ↔ perm &&& R_WR ≠ 0 := by
  have h : perm &&& 2 = 0 ∨ perm &&& 2 = 2 := and_bit_cases perm 1
  unfold GET_DIRTY_BIT TLBLO_DIRTY R_WR
  rcases h with h | h <;> simp only [h] <;> decide

theorem GET_VALID_BIT_ne_zero (perm : Nat) :
    GET_VALID_BIT perm ≠ 0 ↔ perm &&& (R_RD ||| R_EX) ≠ 0 := by
  have h4 : perm &&& 4 = 0 ∨ perm &&& 4 = 4 := and_bit_cases perm 2
  have h1 : perm &&& 1 = 0 ∨ perm &&& 1 = 1 := and_bit_cases perm 0
  unfold GET_VALID_BIT TLBLO_VALID R_RD R_EX
  rw [Nat.and_or_distrib_left]
  rcases h4 with h4 | h4 <;> rcases h1 with h1 | h1 <;> simp only [h4, h1] <;> decide

theorem PG_IDX0_lt (pg : Nat) : PG_IDX0 pg < 256 := by
  unfold PG_IDX0 u32
  rw [Nat.shiftRight_eq_div_pow]
  omega

theorem PG_IDX1_lt (pg : Nat) : PG_IDX1 pg < 64 := by
  unfold PG_IDX1 u32
  rw [Nat.shiftRight_eq_div_pow]
  omega

theorem PG_IDX2_lt (pg : Nat) : PG_IDX2 pg < 64 := by
  unfold PG_IDX2 u32
  rw [Nat.shiftRight_eq_div_pow]
  omega

theorem getD_set_self {α : Type} (l : List α) (i : Nat) (a d : α) (h : i < l.length) :
    (l.set i a).getD i d = a := by
  rw [List.getD_eq_getElem?_getD, List.getElem?_set_self h]
  rfl

theorem getD_set_ne {α : Type} (l : List α) (i j : Nat) (a d : α) (h : i ≠ j) :
    (l.set i a).getD j d = l.getD j d := by
  rw [List.getD_eq_getElem?_getD, List.getElem?_set_ne h, List.getD_eq_getElem?_getD]

theorem getD_replicate_self {α : Type} (n i : Nat) (a : α) :
    (List.replicate n a).getD i a = a := by
  rw [List.getD_eq_getElem?_getD, List.getElem?_replicate]
  split <;> rfl

/-! ## The fault handler: auxiliary facts -/

theorem pt_leaf_eq_some (pgtable : pgtable_t) (i j k e : Nat) :
    pt_leaf pgtable i j k = some e ↔
      ∃ pte1 pte2, pgtable.getD i none = some pte1 ∧ pte1.getD j none = some pte2 ∧
        pte2.getD k 0 = e := by
  unfold pt_leaf
  cases h1 : pgtable.getD i none with
  | none => simp [-List.getD_eq_getElem?_getD]
  | some pte1 =>
    cases h2 : pte1.getD j none with
    | none => simp [-List.getD_eq_getElem?_getD, h2]
    | some pte2 => simp [-List.getD_eq_getElem?_getD, h2]

theorem pt_leaf_set (pgtable : pgtable_t) (pte1 : pte1_t) (pte2 : pte2_t) (i j k e : Nat)
    (hi : i < pgtable.length) (hj : j < pte1.length) (hk : k < pte2.length) :
    pt_leaf (pgtable.set i (some (pte1.set j (some (pte2.set k e))))) i j k = some e := by
  unfold pt_leaf
  rw [getD_set_self _ _ _ _ hi]
  simp only
  rw [getD_set_self _ _ _ _ hj]
  simp only
  rw [getD_set_self _ _ _ _ hk]

theorem getD_mem_of_some {α : Type} (l : List (Option α)) (i : Nat) (a : α)
    (h : l.getD i none = some a) : some a ∈ l := by
  rw [List.getD_eq_getElem?_getD] at h
  cases hq : l[i]? with
  | none => rw [hq] at h; cases h
  | some o =>
    rw [hq] at h
    have : o = some a := h
    rw [← this]
    exact List.getElem?_mem hq

theorem pgtable_wf_path_ok (pgtable : pgtable_t) (i j k : Nat)
    (hwf : pgtable_wf pgtable = true) (hi : i < 256) (hj : j < 64) (hk : k < 64) :
    path_ok pgtable i j k := by
  unfold pgtable_wf PG_SIZE_0 at hwf
  simp only [Bool.and_eq_true, beq_iff_eq, List.all_eq_true] at hwf
  refine ⟨by omega, ?_⟩
  intro pte1 h1
  have w1 := hwf.2 _ (getD_mem_of_some _ _ _ h1)
  unfold pte1_ok PG_SIZE_1 at w1
  simp only [Bool.and_eq_true, beq_iff_eq, List.all_eq_true] at w1
  refine ⟨by omega, ?_⟩
  intro pte2 h2
  have w2 := w1.2 _ (getD_mem_of_some _ _ _ h2)
  unfold pte2_ok PG_SIZE_2 at w2
  simp only [beq_iff_eq] at w2
  omega

theorem vm_fault_tlb_eq (m : Machine) (pgtable : pgtable_t) (faultaddress paddr e : Nat)
    (h : pt_leaf pgtable (PG_IDX0 paddr) (PG_IDX1 paddr) (PG_IDX2 paddr) = some e) :
    vm_fault_tlb m pgtable faultaddress paddr
      = some (0, tlb_random m (u32 faultaddress &&& PAGE_FRAME) e, pgtable) := by
  unfold vm_fault_tlb
  rw [h]

/-- Step 3 on an empty leaf: success means a region was found and its permissions
were encoded into the leaf. -/
theorem vm_fault_pte3_fresh (m : Machine) (as : addrspace) (pgtable : pgtable_t)
    (faultaddress paddr f1 : Nat) (p1 : Option pte1_t) (f2 : Nat) (p2 : Option pte2_t)
    (m1 : Machine) (pgtable1 : pgtable_t)
    (hp : path_ok pgtable (PG_IDX0 paddr) (PG_IDX1 paddr) (PG_IDX2 paddr))
    (hl : pt_leaf pgtable (PG_IDX0 paddr) (PG_IDX1 paddr) (PG_IDX2 paddr) = some 0)
    (h : vm_fault_pte3 m as pgtable faultaddress paddr f1 p1 f2 p2 = some (0, m1, pgtable1)) :
    ∃ r pfn, search_region as faultaddress 0 = some r ∧
      pt_leaf pgtable1 (PG_IDX0 paddr) (PG_IDX1 paddr) (PG_IDX2 paddr)
        = some ((pfn &&& PAGE_FRAME) ||| GET_DIRTY_BIT r.cur_perm
            ||| GET_VALID_BIT r.cur_perm) := by
  obtain ⟨pte1, pte2, h1, h2, _⟩ := (pt_leaf_eq_some _ _ _ _ _).1 hl
  obtain ⟨hi, hp1⟩ := hp
  obtain ⟨hj, hp2⟩ := hp1 pte1 h1
  have hk := hp2 pte2 h2
  unfold vm_fault_pte3 at h
  rw [hl] at h
  simp only [if_true] at h
  cases hs : search_region as faultaddress 0 with
  | none =>
    rw [hs] at h
    simp [EFAULT] at h
  | some r =>
    rw [hs] at h
    simp only [vm_allocpte3, h1, h2] at h
    by_cases hv : (alloc_kpages m).1 = 0
    · simp [hv, ENOMEM] at h
    · simp only [hv, if_false] at h
      simp only [ne_eq, not_true_eq_false, if_false] at h
      rw [vm_fault_tlb_eq _ _ _ _ _ (pt_leaf_set _ _ _ _ _ _ _ hi hj hk)] at h
      simp only [Option.some.injEq, Prod.mk.injEq, true_and] at h
      refine ⟨r, KVADDR_TO_PADDR (alloc_kpages m).1, rfl, ?_⟩
      rw [← h.2]
      exact pt_leaf_set _ _ _ _ _ _ _ hi hj hk

theorem leaf_word_fresh_pte1 (pgtable : pgtable_t) (n i j k : Nat) (hi : i < pgtable.length) :
    leaf_word (pgtable.set i (some (List.replicate n none))) i j k = 0 := by
  unfold leaf_word pt_leaf
  rw [getD_set_self _ _ _ _ hi]
  simp only
  rw [getD_replicate_self]
  rfl

/-- Step 2 on an empty leaf: success means a region was found and its permissions
were encoded into the leaf. -/
theorem vm_fault_pte2_fresh (m : Machine) (as : addrspace) (pgtable : pgtable_t)
    (faultaddress paddr f1 : Nat) (p1 : Option pte1_t)
    (m1 : Machine) (pgtable1 : pgtable_t)
    (hp : path_ok pgtable (PG_IDX0 paddr) (PG_IDX1 paddr) (PG_IDX2 paddr))
    (hl : leaf_word pgtable (PG_IDX0 paddr) (PG_IDX1 paddr) (PG_IDX2 paddr) = 0)
    (h : vm_fault_pte2 m as pgtable faultaddress paddr f1 p1 = some (0, m1, pgtable1)) :
    ∃ r pfn, search_region as faultaddress 0 = some r ∧
      pt_leaf pgtable1 (PG_IDX0 paddr) (PG_IDX1 paddr) (PG_IDX2 paddr)
        = some ((pfn &&& PAGE_FRAME) ||| GET_DIRTY_BIT r.cur_perm
            ||| GET_VALID_BIT r.cur_perm) := by
  unfold vm_fault_pte2 at h
  cases h1 : pgtable.getD (PG_IDX0 paddr) none with
  | none => rw [h1] at h; cases h
  | some node1 =>
    rw [h1] at h
    simp only at h
    obtain ⟨hi, hp1⟩ := hp
    obtain ⟨hj, hp2⟩ := hp1 node1 h1
    cases h2 : node1.getD (PG_IDX1 paddr) none with
    | none =>
      rw [h2] at h
      simp only [if_true, vm_allocpte2, h1] at h
      by_cases hk : (kmalloc m).1 = false
      · simp [hk, ENOMEM] at h
      · simp only [hk, if_false, ne_eq, not_true_eq_false] at h
        refine vm_fault_pte3_fresh _ _ _ _ _ _ _ _ _ _ _ ?_ ?_ h
        · refine ⟨by rw [List.length_set]; exact hi, ?_⟩
          intro pte1 e1
          rw [getD_set_self _ _ _ _ hi] at e1
          cases e1
          refine ⟨by rw [List.length_set]; exact hj, ?_⟩
          intro pte2 e2
          rw [getD_set_self _ _ _ _ hj] at e2
          cases e2
          rw [List.length_replicate]
          exact PG_IDX2_lt paddr
        · unfold pt_leaf
          rw [getD_set_self _ _ _ _ hi]
          simp only
          rw [getD_set_self _ _ _ _ hj]
          simp only
          rw [getD_replicate_self]
    | some node2 =>
      rw [h2] at h
      simp only [reduceCtorEq, if_false] at h
      have hl0 : pt_leaf pgtable (PG_IDX0 paddr) (PG_IDX1 paddr) (PG_IDX2 paddr) = some 0 := by
        unfold leaf_word pt_leaf at hl
        rw [h1] at hl
        simp only at hl
        rw [h2] at hl
        simp only [Option.getD_some] at hl
        exact (pt_leaf_eq_some _ _ _ _ _).2 ⟨node1, node2, h1, h2, hl⟩
      exact vm_fault_pte3_fresh _ _ _ _ _ _ _ _ _ _ _
        ⟨hi, fun pte1 e1 => by rw [h1] at e1; cases e1; exact ⟨hj, hp2⟩⟩ hl0 h

/-- The walk on an empty leaf: success means a region was found and its permissions
were encoded into the leaf. -/
theorem vm_fault_walk_fresh (m : Machine) (as : addrspace) (pgtable : pgtable_t)
    (faultaddress : Nat) (m1 : Machine) (pgtable1 : pgtable_t)
    (hwf : pgtable_wf pgtable = true)
    (hl : fault_leaf pgtable faultaddress = 0)
    (h : vm_fault_walk m as pgtable faultaddress = some (0, m1, pgtable1)) :
    ∃ r pfn, search_region as faultaddress 0 = some r ∧
      fault_leaf pgtable1 faultaddress
        = (pfn &&& PAGE_FRAME) ||| GET_DIRTY_BIT r.cur_perm ||| GET_VALID_BIT r.cur_perm := by
  have hp := pgtable_wf_path_ok pgtable _ _ _ hwf (PG_IDX0_lt (KVADDR_TO_PADDR faultaddress))
    (PG_IDX1_lt (KVADDR_TO_PADDR faultaddress)) (PG_IDX2_lt (KVADDR_TO_PADDR faultaddress))
  have key : ∃ r pfn, search_region as faultaddress 0 = some r ∧
      pt_leaf pgtable1 (PG_IDX0 (KVADDR_TO_PADDR faultaddress))
        (PG_IDX1 (KVADDR_TO_PADDR faultaddress)) (PG_IDX2 (KVADDR_TO_PADDR faultaddress))
        = some ((pfn &&& PAGE_FRAME) ||| GET_DIRTY_BIT r.cur_perm
            ||| GET_VALID_BIT r.cur_perm) := by
    unfold vm_fault_walk at h
    simp only at h
    cases h1 : pgtable.getD (PG_IDX0 (KVADDR_TO_PADDR faultaddress)) none with
    | none =>
      rw [h1] at h
      simp only [if_true, vm_allocpte1] at h
      by_cases hk : (kmalloc m).1 = false
      · simp [hk, ENOMEM] at h
      · simp only [hk, if_false, ne_eq, not_true_eq_false, Bool.true_eq_false,
          reduceCtorEq] at h
        refine vm_fault_pte2_fresh _ _ _ _ _ _ _ _ _ ?_ ?_ h
        · refine ⟨by rw [List.length_set]; exact hp.1, ?_⟩
          intro pte1 e1
          rw [getD_set_self _ _ _ _ hp.1] at e1
          cases e1
          refine ⟨by rw [List.length_replicate]; exact PG_IDX1_lt _, ?_⟩
          intro pte2 e2
          rw [getD_replicate_self] at e2
          cases e2
        · exact leaf_word_fresh_pte1 _ _ _ _ _ hp.1
    | some node1 =>
      rw [h1] at h
      simp only [reduceCtorEq, if_false] at h
      exact vm_fault_pte2_fresh _ _ _ _ _ _ _ _ _ hp hl h
  obtain ⟨r, pfn, hs, hleaf⟩ := key
  refine ⟨r, pfn, hs, ?_⟩
  unfold fault_leaf leaf_word
  rw [hleaf]
  rfl

/-- The walk on a populated leaf: no allocation, the leaf is written to the TLB as
it is. -/
theorem vm_fault_walk_populated (m : Machine) (as : addrspace) (pgtable : pgtable_t)
    (faultaddress : Nat) (hl : fault_leaf pgtable faultaddress ≠ 0) :
    vm_fault_walk m as pgtable faultaddress
      = some (0, tlb_random m (u32 faultaddress &&& PAGE_FRAME)
          (fault_leaf pgtable faultaddress), pgtable) := by
  unfold fault_leaf leaf_word at hl ⊢
  cases hq : pt_leaf pgtable (PG_IDX0 (KVADDR_TO_PADDR faultaddress))
      (PG_IDX1 (KVADDR_TO_PADDR faultaddress)) (PG_IDX2 (KVADDR_TO_PADDR faultaddress)) with
  | none => rw [hq] at hl; exact absurd rfl hl
  | some e =>
    rw [hq] at hl
    have he : e ≠ 0 := hl
    obtain ⟨pte1, pte2, h1, h2, h3⟩ := (pt_leaf_eq_some _ _ _ _ _).1 hq
    unfold vm_fault_walk
    simp only [h1, reduceCtorEq, if_false]
    unfold vm_fault_pte2
    simp only [h1, h2, reduceCtorEq, if_false]
    unfold vm_fault_pte3
    simp only [hq, he, if_false]
    rw [vm_fault_tlb_eq _ _ _ _ _ hq]
    rfl

/-! ## The fault handler: leaf flags (C1) -/

/-- What a `vm_fault` that returns 0 does to the leaf: the regions are as before and
(a) if the leaf used for the fault address was empty, the point lookup
`search_region(as, a, 0)` found a region `r`, and the leaf now has its DIRTY bit set
iff `r.cur_perm` has WRITE and its VALID bit set iff `r.cur_perm` has READ or EXEC;
(b) if the leaf was already populated, it is left exactly as it was. -/
theorem vm_fault_leaf_flags (m : Machine) (as : addrspace) (pgtable : pgtable_t)
    (faulttype : Int) (a : Nat) (m1 : Machine) (curproc1 : Option proc)
    (hpt : as.pgtable = some pgtable) (hwf : pgtable_wf pgtable = true)
    (h : vm_fault m (some ⟨some as⟩) faulttype a = some (0, m1, curproc1)) :
    ∃ pgtable1, curproc1 = some ⟨some { as with pgtable := some pgtable1 }⟩ ∧
      (fault_leaf pgtable a = 0 →
        ∃ r, search_region { as with pgtable := some pgtable1 } a 0 = some r ∧
          (fault_leaf pgtable1 a &&& TLBLO_DIRTY ≠ 0 ↔ r.cur_perm &&& R_WR ≠ 0) ∧
          (fault_leaf pgtable1 a &&& TLBLO_VALID ≠ 0 ↔
            r.cur_perm &&& (R_RD ||| R_EX) ≠ 0)) ∧
      (fault_leaf pgtable a ≠ 0 → fault_leaf pgtable1 a = fault_leaf pgtable a) := by
  unfold vm_fault at h
  simp only [proc_getas, hpt] at h
  by_cases hr : as.regions = []
  · simp [hr, EFAULT] at h
  · simp only [hr, if_false] at h
    by_cases hft : faulttype = VM_FAULT_READ ∨ faulttype = VM_FAULT_WRITE
    · simp only [hft, if_true] at h
      cases hw : vm_fault_walk m as pgtable a with
      | none => rw [hw] at h; cases h
      | some res =>
        obtain ⟨result, m2, pgtable1⟩ := res
        rw [hw] at h
        simp only [Option.some.injEq, Prod.mk.injEq] at h
        obtain ⟨h0, _, hc⟩ := h
        subst h0
        refine ⟨pgtable1, hc.symm, ?_, ?_⟩
        · intro hl
          obtain ⟨r, pfn, hs, hleaf⟩ := vm_fault_walk_fresh _ _ _ _ _ _ hwf hl hw
          refine ⟨r, hs, ?_, ?_⟩
          · rw [hleaf, entry_and_DIRTY]
            exact GET_DIRTY_BIT_ne_zero _
          · rw [hleaf, entry_and_VALID]
            exact GET_VALID_BIT_ne_zero _
        · intro hl
          rw [vm_fault_walk_populated _ _ _ _ hl] at hw
          simp only [Option.some.injEq, Prod.mk.injEq] at hw
          rw [← hw.2.2]
    · simp only [hft, if_false] at h
      by_cases hro : faulttype = VM_FAULT_READONLY
      · simp [hro, EFAULT] at h
      · simp [hro, EINVAL] at h

/-- The two cases at concrete inputs: a READ fault at `0x00401500` on the empty leaf of
the read-execute text segment, served from frame `0x80050000`, and a WRITE fault on the
populated leaf of `loaded_text_as`. -/
theorem vm_fault_leaf_flags_witness :
    (∃ pgtable1 r,
      search_region { text_as with pgtable := some pgtable1 } 0x00401500 0 = some r ∧
        (fault_leaf pgtable1 0x00401500 &&& TLBLO_DIRTY ≠ 0 ↔ r.cur_perm &&& R_WR ≠ 0) ∧
        (fault_leaf pgtable1 0x00401500 &&& TLBLO_VALID ≠ 0 ↔
          r.cur_perm &&& (R_RD ||| R_EX) ≠ 0)) ∧
    (∃ pgtable1,
      fault_leaf pgtable1 0x00401500 = fault_leaf (text_pgtable 0x00050600) 0x00401500) := by
  constructor
  · obtain ⟨pgtable1, _, hfresh, _⟩ :=
      vm_fault_leaf_flags machine0 text_as empty_pgtable VM_FAULT_READ 0x00401500
        { machine0 with
          kmalloc_results := List.replicate 14 true
          alloc_kpages_results := [0x80051000]
          tlb_log := [tlb_event.random 0x00401000 0x00050200] }
        (some ⟨some { text_as with pgtable := some (text_pgtable 0x00050200) }⟩)
        rfl (by decide) (by decide)
    obtain ⟨r, hr⟩ := hfresh (by decide)
    exact ⟨pgtable1, r, hr⟩
  · obtain ⟨pgtable1, _, _, hpop⟩ :=
      vm_fault_leaf_flags machine0 loaded_text_as (text_pgtable 0x00050600) VM_FAULT_WRITE
        0x00401500
        { machine0 with tlb_log := [tlb_event.random 0x00401000 0x00050600] }
        (some ⟨some loaded_text_as⟩)
        rfl (by decide) (by decide)
    exact ⟨pgtable1, hpop (by decide)⟩

/-- C1 (code evaluated at the failing input): the text segment is defined read-execute
and a page of it is faulted in between `as_prepare_load` and `as_complete_load`, as the
loader does; `as_complete_load` returns 0, restores `cur_perm` and flushes the TLB.  A
later READ fault on that page returns 0 with the DIRTY bit set in the leaf although the
region found for the address has no WRITE permission, and a later WRITE fault returns 0
as well and writes that leaf, DIRTY bit included, to the TLB. -/
theorem vm_fault_populated_leaf_stale_flags :
    (as_define_region (as_create machine0).2 (as_create machine0).1
        0x00401037 0x1234 4 0 1).2.2 = some text_as ∧
    (vm_fault machine0 (some ⟨some (as_prepare_load text_as).2⟩) VM_FAULT_READ
        0x00401500).map (fun x => (x.1, x.2.2))
      = some (0, some ⟨some ⟨[text_region 7 5], some (text_pgtable 0x00050600)⟩⟩) ∧
    (as_complete_load machine0 ⟨[text_region 7 5], some (text_pgtable 0x00050600)⟩).2.2
      = loaded_text_as ∧
    (vm_fault machine0 (some ⟨some loaded_text_as⟩) VM_FAULT_READ 0x00401500).map
        (fun x => (x.1, (curproc_pgtable x.2.2).map (fun pt => fault_leaf pt 0x00401500)))
      = some (0, some 0x00050600) ∧
    search_region loaded_text_as 0x00401500 0 = some (text_region 5 5) ∧
    0x00050600 &&& TLBLO_DIRTY ≠ 0 ∧
    (text_region 5 5).cur_perm &&& R_WR = 0 ∧
    (as_complete_load machine0 ⟨[text_region 7 5], some (text_pgtable 0x00050600)⟩).1 = 0 ∧
    (as_complete_load machine0 ⟨[text_region 7 5], some (text_pgtable 0x00050600)⟩).2.1
      = vm_tlbflush machine0 ∧
    (vm_fault machine0 (some ⟨some loaded_text_as⟩) VM_FAULT_WRITE 0x00401500).map
        (fun x => (x.1, x.2.1.tlb_log,
          (curproc_pgtable x.2.2).map (fun pt => fault_leaf pt 0x00401500)))
      = some (0, [tlb_event.random 0x00401000 0x00050600], some 0x00050600) := by
  decide

/-! ## The fault handler: failure (C2) and error classification (C7) -/

/-- C2 (code evaluated at the failing input): a READ fault at `0x00500000`, an address
in no region of `text_as`, returns EFAULT; the level-0 slot used for the address was
empty before the call and holds a level-1 node after it, whose slot for the address
holds a level-2 node, and nothing was handed to `kfree`. -/
theorem vm_fault_efault_keeps_nodes :
    search_region text_as 0x00500000 0 = none ∧
    empty_pgtable.getD (PG_IDX0 (KVADDR_TO_PADDR 0x00500000)) none = none ∧
    (vm_fault machine0 (some ⟨some text_as⟩) VM_FAULT_READ 0x00500000).map
        (fun x => (x.1, x.2.1.kfree_log,
          (curproc_pgtable x.2.2).map (fun pt =>
            ((pt.getD (PG_IDX0 (KVADDR_TO_PADDR 0x00500000)) none).map (fun pte1 =>
              pte1.getD (PG_IDX1 (KVADDR_TO_PADDR 0x00500000)) none)))))
      = some (EFAULT, [], some (some (some (List.replicate PG_SIZE_2 0)))) := by
  decide

/-- C7: `vm_fault` returns EFAULT, whatever the fault type, when there is no current
process, no address space, an empty region list or a null page-table root; otherwise
it returns EFAULT for `VM_FAULT_READONLY` and EINVAL for every type other than READ,
WRITE and READONLY.  In all these cases the collaborators (frames still to be handed
out, TLB log) and the current process, with its page table, are returned unchanged. -/
theorem vm_fault_error_classification (m : Machine) (curproc : Option proc)
    (faulttype : Int) (a : Nat) :
    ((curproc = none ∨ proc_getas curproc = none ∨
        (∃ as, proc_getas curproc = some as ∧ (as.regions = [] ∨ as.pgtable = none))) →
      vm_fault m curproc faulttype a = some (EFAULT, m, curproc)) ∧
    (∀ as pgtable, proc_getas curproc = some as → as.regions ≠ [] →
      as.pgtable = some pgtable →
        (faulttype = VM_FAULT_READONLY →
          vm_fault m curproc faulttype a = some (EFAULT, m, curproc)) ∧
        (faulttype ≠ VM_FAULT_READ → faulttype ≠ VM_FAULT_WRITE →
          faulttype ≠ VM_FAULT_READONLY →
          vm_fault m curproc faulttype a = some (EINVAL, m, curproc))) := by
  constructor
  · intro h
    cases curproc with
    | none => rfl
    | some p =>
      unfold vm_fault
      simp only
      cases hg : proc_getas (some p) with
      | none => rfl
      | some as =>
        simp only
        rcases h with h | h | ⟨as1, h1, h2⟩
        · cases h
        · rw [hg] at h; cases h
        · rw [hg] at h1
          cases h1
          rcases h2 with h2 | h2
          · simp [h2]
          · by_cases hr : as.regions = []
            · simp [hr]
            · simp [hr, h2]
  · intro as pgtable hg hr hpt
    cases curproc with
    | none => cases hg
    | some p =>
      unfold vm_fault
      simp only [hg, hr, hpt, if_false]
      constructor
      · intro hft
        subst hft
        simp [VM_FAULT_READONLY, VM_FAULT_READ, VM_FAULT_WRITE]
      · intro h1 h2 h3
        simp [h1, h2, h3]

/-- C7 witness: fault type 7 without a current process, and fault types READONLY and 7
on `text_as`. -/
theorem vm_fault_error_classification_witness :
    vm_fault machine0 none 7 0x00401500 = some (EFAULT, machine0, none) ∧
    vm_fault machine0 (some ⟨some text_as⟩) VM_FAULT_READONLY 0x00401500
      = some (EFAULT, machine0, some ⟨some text_as⟩) ∧
    vm_fault machine0 (some ⟨some text_as⟩) 7 0x00401500
      = some (EINVAL, machine0, some ⟨some text_as⟩) :=
  ⟨(vm_fault_error_classification machine0 none 7 0x00401500).1 (Or.inl rfl),
   ((vm_fault_error_classification machine0 (some ⟨some text_as⟩) VM_FAULT_READONLY
      0x00401500).2 text_as empty_pgtable rfl (by decide) rfl).1 rfl,
   ((vm_fault_error_classification machine0 (some ⟨some text_as⟩) 7
      0x00401500).2 text_as empty_pgtable rfl (by decide) rfl).2
      (by decide) (by decide) (by decide)⟩

/-! ## Regions: auxiliary facts -/

theorem add_region_walk_eq (l : List region) (r : region) : add_region_walk l r = l ++ [r] := by
  induction l with
  | nil => rfl
  | cons cur next ih => simp [add_region_walk, ih]

theorem search_region_from_eq_none (l : List region) (vaddr memsize : Nat) :
    search_region_from l vaddr memsize = none ↔
      ∀ r ∈ l, ¬ (vaddr ≥ r.vaddr ∧ u32 (vaddr + memsize) ≤ u32 (r.vaddr + r.memsize)) := by
  induction l with
  | nil => simp [search_region_from]
  | cons cur next ih =>
    unfold search_region_from
    by_cases hc : vaddr ≥ cur.vaddr ∧ u32 (vaddr + memsize) ≤ u32 (cur.vaddr + cur.memsize)
    · simp only [hc, and_self, if_true, reduceCtorEq, false_iff]
      intro hall
      exact hall cur (List.mem_cons_self _ _) hc
    · simp only [hc, if_false, ih, List.mem_cons, forall_eq_or_imp, not_false_eq_true, true_and]

theorem as_define_region_success (m : Machine) (as : addrspace)
    (vaddr memsize readable writeable executable : Nat) (m1 : Machine)
    (as1 : Option addrspace)
    (h : as_define_region m (some as) vaddr memsize readable writeable executable
      = (0, m1, as1)) :
    search_region as vaddr memsize = none ∧ (kmalloc m).1 = true ∧ m1 = (kmalloc m).2 ∧
      as1 = some { as with regions :=
        as.regions ++ [defined_region vaddr memsize readable writeable executable] } := by
  unfold as_define_region at h
  simp only at h
  by_cases hs : search_region as vaddr memsize = none
  · simp only [hs, ne_eq, not_true_eq_false, if_false, init_region] at h
    by_cases hk : (kmalloc m).1 = false
    · simp [hk, ENOMEM] at h
    · simp only [hk, if_false, Bool.true_eq_false, reduceCtorEq, Prod.mk.injEq,
        true_and] at h
      refine ⟨hs, by simpa using hk, h.1.symm, ?_⟩
      rw [← h.2]
      simp [add_region, add_region_walk_eq, defined_region]
  · simp [hs, ENOMEM] at h

theorem and_page_offset (x : Nat) : x &&& (0xffffffff - PAGE_FRAME) = x % 4096 := by
  have h : (0xffffffff - PAGE_FRAME : Nat) = 2 ^ 12 - 1 := by decide
  rw [h, Nat.and_pow_two_sub_one_eq_mod]

theorem defined_region_vaddr (vaddr memsize R W X : Nat) (hv : vaddr < 2 ^ 32) :
    (defined_region vaddr memsize R W X).vaddr = vaddr - vaddr % 4096 := by
  unfold defined_region
  exact and_PAGE_FRAME_eq vaddr hv

theorem defined_region_memsize (vaddr memsize R W X : Nat)
    (hov : vaddr + memsize + PAGE_SIZE < 2 ^ 32) :
    (defined_region vaddr memsize R W X).memsize
      = (memsize + vaddr % 4096 + 4095) - (memsize + vaddr % 4096 + 4095) % 4096 := by
  unfold PAGE_SIZE at hov
  unfold defined_region
  simp only
  rw [and_page_offset]
  have h1 : u32 (u32 (memsize + vaddr % 4096) + PAGE_SIZE - 1)
      = memsize + vaddr % 4096 + 4095 := by
    unfold u32 PAGE_SIZE
    omega
  rw [h1]
  exact and_PAGE_FRAME_eq _ (by omega)

/-! ## `as_define_region`: alignment (C4) -/

/-- C4: a successful `as_define_region(as, vaddr, memsize, ...)` with
`vaddr + memsize + PAGE_SIZE` below 2^32 appends one region with
`vaddr' = vaddr & PAGE_FRAME` and `memsize'` the round-up to a page multiple of
`memsize + (vaddr & (PAGE_SIZE-1))`; both are multiples of `PAGE_SIZE`,
`vaddr' <= vaddr` and `vaddr + memsize <= vaddr' + memsize'`. -/
theorem as_define_region_aligned (m : Machine) (as : addrspace)
    (vaddr memsize readable writeable executable : Nat) (m1 : Machine)
    (as1 : Option addrspace)
    (hov : vaddr + memsize + PAGE_SIZE < 2 ^ 32)
    (h : as_define_region m (some as) vaddr memsize readable writeable executable
      = (0, m1, as1)) :
    ∃ r, as1 = some { as with regions := as.regions ++ [r] } ∧
      r.vaddr = vaddr &&& PAGE_FRAME ∧
      r.memsize
        = (memsize + (vaddr &&& (PAGE_SIZE - 1)) + PAGE_SIZE - 1) / PAGE_SIZE * PAGE_SIZE ∧
      PAGE_SIZE ∣ r.vaddr ∧ PAGE_SIZE ∣ r.memsize ∧
      r.vaddr ≤ vaddr ∧ vaddr + memsize ≤ r.vaddr + r.memsize := by
  obtain ⟨_, _, _, has1⟩ := as_define_region_success _ _ _ _ _ _ _ _ _ h
  have hv : vaddr < 2 ^ 32 := by omega
  have e1 := defined_region_vaddr vaddr memsize readable writeable executable hv
  have e2 := defined_region_memsize vaddr memsize readable writeable executable hov
  have e3 : vaddr &&& (PAGE_SIZE - 1) = vaddr % 4096 := by
    have h12 : (PAGE_SIZE - 1 : Nat) = 2 ^ 12 - 1 := by decide
    rw [h12, Nat.and_pow_two_sub_one_eq_mod]
  refine ⟨defined_region vaddr memsize readable writeable executable, has1, rfl, ?_, ?_, ?_,
    ?_, ?_⟩
  · rw [e2, e3]
    unfold PAGE_SIZE
    omega
  · rw [e1]
    exact Nat.dvd_sub_mod vaddr
  · rw [e2]
    exact Nat.dvd_sub_mod _
  · rw [e1]
    omega
  · rw [e1, e2]
    omega

/-- C4 witness: `vaddr = 0x00401037`, `memsize = 0x1234` give the region
`[0x00401000, 0x00403000)`. -/
theorem as_define_region_aligned_witness :
    ∃ r, some { fresh_as with regions := [text_region 1 1] }
        = some { fresh_as with regions := fresh_as.regions ++ [r] } ∧
      r.vaddr = 0x00401037 &&& PAGE_FRAME ∧
      r.memsize
        = (0x1234 + (0x00401037 &&& (PAGE_SIZE - 1)) + PAGE_SIZE - 1) / PAGE_SIZE * PAGE_SIZE ∧
      PAGE_SIZE ∣ r.vaddr ∧ PAGE_SIZE ∣ r.memsize ∧
      r.vaddr ≤ 0x00401037 ∧ 0x00401037 + 0x1234 ≤ r.vaddr + r.memsize :=
  as_define_region_aligned machine0 fresh_as 0x00401037 0x1234 1 0 1
    { machine0 with kmalloc_results := List.replicate 15 true }
    (some { fresh_as with regions := [text_region 1 1] })
    (by decide) (by decide)

/-! ## `as_define_region`: overlap (C3, C9) -/

/-- C3 (code evaluated at the failing input): on a fresh address space,
`as_define_region(0x00401037, 0x1234, ...)` and then
`as_define_region(0x00402000, 0x2000, ...)` both return 0, and the two regions in the
list, `[0x00401000, 0x00403000)` and `[0x00402000, 0x00404000)`, overlap. -/
theorem as_define_region_admits_overlap :
    (as_create machine0).1 = some fresh_as ∧
    as_define_region machine0 (some fresh_as) 0x00401037 0x1234 4 0 1
      = (0, { machine0 with kmalloc_results := List.replicate 15 true }, some text_as) ∧
    as_define_region { machine0 with kmalloc_results := List.replicate 15 true }
        (some text_as) 0x00402000 0x2000 4 2 0
      = (0, { machine0 with kmalloc_results := List.replicate 14 true },
          some { text_as with regions :=
            [text_region 5 5, ⟨0x00402000, 0x2000, 6, 6⟩] }) ∧
    (text_region 5 5).vaddr < 0x00402000 + 0x2000 ∧
    0x00402000 < (text_region 5 5).vaddr + (text_region 5 5).memsize := by
  decide

/-- C9: when the region list holds a region `r` with `r.vaddr <= vaddr` and
`vaddr + memsize <= r.vaddr + r.memsize`, neither sum overflowing 32 bits,
`as_define_region` returns ENOMEM and leaves the address space, region list included,
and the allocator unchanged. -/
theorem as_define_region_contained (m : Machine) (as : addrspace) (r : region)
    (vaddr memsize readable writeable executable : Nat)
    (hr : r ∈ as.regions) (h1 : r.vaddr ≤ vaddr)
    (h2 : vaddr + memsize ≤ r.vaddr + r.memsize) (hov : r.vaddr + r.memsize < 2 ^ 32) :
    as_define_region m (some as) vaddr memsize readable writeable executable
      = (ENOMEM, m, some as) := by
  have hs : search_region as vaddr memsize ≠ none := by
    intro hnone
    unfold search_region at hnone
    rw [search_region_from_eq_none] at hnone
    apply hnone r hr
    refine ⟨h1, ?_⟩
    unfold u32
    rw [Nat.mod_eq_of_lt (by omega), Nat.mod_eq_of_lt hov]
    exact h2
  unfold as_define_region
  simp only [hs, ne_eq, not_false_eq_true, if_true]

/-- C9 witness: with the region `[0x00401000, 0x00403000)` in place,
`as_define_region(0x00402000, 0x100, R=1, W=1, X=0)` returns ENOMEM. -/
theorem as_define_region_contained_witness :
    as_define_region machine0 (some text_as) 0x00402000 0x100 1 1 0
      = (ENOMEM, machine0, some text_as) :=
  as_define_region_contained machine0 text_as (text_region 5 5) 0x00402000 0x100 1 1 0
    (by decide) (by decide) (by decide) (by decide)

/-! ## `as_define_region`: permissions (C8) -/

/-- C8 (amended): a successful `as_define_region` appends one region whose `cur_perm`
and `old_perm` both equal the bitwise OR `readable | writeable | executable` of the
three flag words as passed; when each flag is zero or its own permission bit
(`R_RD`, `R_WR`, `R_EX`), the stored word has READ, WRITE, EXEC exactly for the
non-zero flags. -/
theorem as_define_region_perm (m : Machine) (as : addrspace)
    (vaddr memsize readable writeable executable : Nat) (m1 : Machine)
    (as1 : Option addrspace)
    (h : as_define_region m (some as) vaddr memsize readable writeable executable
      = (0, m1, as1)) :
    ∃ r, as1 = some { as with regions := as.regions ++ [r] } ∧
      r.cur_perm = readable ||| writeable ||| executable ∧
      r.old_perm = r.cur_perm ∧
      ((readable = 0 ∨ readable = R_RD) → (writeable = 0 ∨ writeable = R_WR) →
        (executable = 0 ∨ executable = R_EX) →
          r.cur_perm = (if readable ≠ 0 then R_RD else 0) |||
            (if writeable ≠ 0 then R_WR else 0) ||| (if executable ≠ 0 then R_EX else 0)) := by
  obtain ⟨_, _, _, has1⟩ := as_define_region_success _ _ _ _ _ _ _ _ _ h
  refine ⟨defined_region vaddr memsize readable writeable executable, has1, rfl, rfl, ?_⟩
  intro hR hW hX
  have hc : (defined_region vaddr memsize readable writeable executable).cur_perm
      = readable ||| writeable ||| executable := rfl
  rw [hc]
  rcases hR with hR | hR <;> rcases hW with hW | hW <;> rcases hX with hX | hX <;>
    rw [hR, hW, hX] <;> decide

/-- C8 witness: the loader's flags `PF_R = 4`, `0`, `PF_X = 1` store `0b101`. -/
theorem as_define_region_perm_witness :
    ∃ r, some text_as = some { fresh_as with regions := fresh_as.regions ++ [r] } ∧
      r.cur_perm = 4 ||| 0 ||| 1 ∧
      r.old_perm = r.cur_perm ∧
      r.cur_perm = (if (4 : Nat) ≠ 0 then R_RD else 0) |||
        (if (0 : Nat) ≠ 0 then R_WR else 0) ||| (if (1 : Nat) ≠ 0 then R_EX else 0) := by
  obtain ⟨r, h1, h2, h3, h4⟩ :=
    as_define_region_perm machine0 fresh_as 0x00401037 0x1234 4 0 1
      { machine0 with kmalloc_results := List.replicate 15 true } (some text_as) (by decide)
  exact ⟨r, h1, h2, h3, h4 (Or.inr rfl) (Or.inl rfl) (Or.inr rfl)⟩

/-- C8 counterexample: `as_define_region(0x00401037, 0x1234, R=1, W=0, X=1)` succeeds
and stores `cur_perm = old_perm = 0b001`, not `R|EXEC = 0b101`. -/
theorem as_define_region_boolean_flags :
    as_define_region machine0 (some fresh_as) 0x00401037 0x1234 1 0 1
      = (0, { machine0 with kmalloc_results := List.replicate 15 true },
          some { fresh_as with regions := [text_region 1 1] }) ∧
    (text_region 1 1).cur_perm = 0b001 ∧ (text_region 1 1).old_perm = 0b001 ∧
    (text_region 1 1).cur_perm ≠ R_RD ||| R_EX := by
  decide

/-! ## `as_define_stack` (C10) -/

theorem defined_region_stack :
    defined_region (USERSTACK - USERSTACKSIZE) USERSTACKSIZE R_RD R_WR 0 = stack_region := by
  decide

/-- C10: when no region of the list contains `[USERSTACK - USERSTACKSIZE, USERSTACK)`
and the region node can be allocated, `as_define_stack` returns 0, appends exactly the
region `vaddr = USERSTACK - USERSTACKSIZE`, `memsize = USERSTACKSIZE`,
`cur_perm = old_perm = READ|WRITE`, and sets `*stackptr = USERSTACK`; whenever it fails
it returns the result of `as_define_region` and leaves `*stackptr` as it was. -/
theorem as_define_stack_spec (m : Machine) (as : addrspace) (stackptr : Nat) :
    ((∀ r ∈ as.regions,
        ¬ (r.vaddr ≤ USERSTACK - USERSTACKSIZE ∧ USERSTACK ≤ r.vaddr + r.memsize)) →
      (kmalloc m).1 = true →
      as_define_stack m (some as) stackptr
        = (0, (kmalloc m).2, some { as with regions := as.regions ++ [stack_region] },
            USERSTACK)) ∧
    (∀ as0 : Option addrspace, (as_define_stack m as0 stackptr).1 ≠ 0 →
      (as_define_stack m as0 stackptr).1
          = (as_define_region m as0 (USERSTACK - USERSTACKSIZE) USERSTACKSIZE R_RD R_WR 0).1 ∧
        (as_define_stack m as0 stackptr).2.2.2 = stackptr) := by
  constructor
  · intro hno hk
    have hs : search_region as (USERSTACK - USERSTACKSIZE) USERSTACKSIZE = none := by
      unfold search_region
      rw [search_region_from_eq_none]
      intro r hr hc
      apply hno r hr
      refine ⟨hc.1, ?_⟩
      have hle : u32 (r.vaddr + r.memsize) ≤ r.vaddr + r.memsize := Nat.mod_le _ _
      have htop : u32 (USERSTACK - USERSTACKSIZE + USERSTACKSIZE) = USERSTACK := by decide
      have := hc.2
      rw [htop] at this
      omega
    have hr : as_define_region m (some as) (USERSTACK - USERSTACKSIZE) USERSTACKSIZE R_RD R_WR 0
        = (0, (kmalloc m).2, some { as with regions := as.regions ++ [stack_region] }) := by
      unfold as_define_region
      simp only [hs, ne_eq, not_true_eq_false, if_false, init_region, hk, Bool.true_eq_false,
        reduceCtorEq, add_region, add_region_walk_eq]
      rw [← defined_region_stack]
      rfl
    unfold as_define_stack
    simp only [hr, ne_eq, not_true_eq_false, if_false]
  · intro as0 hne
    unfold as_define_stack at hne ⊢
    simp only at hne ⊢
    by_cases hz : (as_define_region m as0 (USERSTACK - USERSTACKSIZE) USERSTACKSIZE
        R_RD R_WR 0).1 = 0
    · simp [hz] at hne
    · simp [hz]

/-- C10 witness: the stack of `text_as`, and the failure on a null address space. -/
theorem as_define_stack_spec_witness :
    as_define_stack machine0 (some text_as) 0
      = (0, (kmalloc machine0).2,
          some { text_as with regions := text_as.regions ++ [stack_region] }, USERSTACK) ∧
    ((as_define_stack machine0 none 0).1
        = (as_define_region machine0 none (USERSTACK - USERSTACKSIZE) USERSTACKSIZE
            R_RD R_WR 0).1 ∧
      (as_define_stack machine0 none 0).2.2.2 = 0) :=
  ⟨(as_define_stack_spec machine0 text_as 0).1 (by decide) (by decide),
   (as_define_stack_spec machine0 text_as 0).2 none (by decide)⟩

/-! ## `as_copy` (C5, C6) -/

/-- C5 (code evaluated at the failing input): copying `loaded_text_as`, whose only
leaf is `0x00050600` at indices `(0x80, 16, 1)`, returns 0; the destination has no
leaf at `(0x80, 16, 1)` and its only leaf is at `(0, 1, 16)`, the indices of the
source leaf word `0x00050600` itself. -/
theorem as_copy_misplaces_leaf :
    pt_leaf (text_pgtable 0x00050600) 0x80 16 1 = some 0x00050600 ∧
    (PG_IDX0 0x00050600, PG_IDX1 0x00050600, PG_IDX2 0x00050600) = (0, 1, 16) ∧
    (as_copy { machine0 with alloc_kpages_results := [0x80051000] } loaded_text_as none).map
        (fun x => (x.1, x.2.2.2.map (fun new_as =>
          (new_as.pgtable.map (fun pt => (pt_leaf pt 0x80 16 1, pt_leaf pt 0 1 16))))))
      = some (0, some (some (none, some 0x00051600))) := by
  decide

/-- C6 (code evaluated at the failing input): copying `loaded_text_as` when the
`kmalloc` of the destination level-2 node fails returns ENOMEM and leaves the source
with slot `0x80` of its level-0 array set to `NULL`, so that its leaf is gone. -/
theorem as_copy_failure_clears_source :
    loaded_text_as.pgtable.map (fun pt => pt_leaf pt 0x80 16 1) = some (some 0x00050600) ∧
    (as_copy { machine0 with kmalloc_results := [true, true, true, true, false] }
        loaded_text_as none).map (fun x => (x.1, x.2.2.2))
      = some (ENOMEM, none) ∧
    (as_copy { machine0 with kmalloc_results := [true, true, true, true, false] }
        loaded_text_as none).map (fun x => x.2.2.1)
      = some { loaded_text_as with pgtable := some empty_pgtable } := by
  decide

/-! ## `as_prepare_load` and `as_complete_load` (C11, C12) -/

/-- C11: on a non-empty region list, `as_prepare_load` and the `as_complete_load`
that follows it both return 0; in between, every region has `cur_perm = READ|WRITE|EXEC`
and `old_perm` equal to its original `cur_perm`; afterwards every region has its
original `cur_perm` again; `vaddr`, `memsize` and the list order are the same in all
three states. -/
theorem as_prepare_complete_load (m : Machine) (as : addrspace) (h : as.regions ≠ []) :
    (as_prepare_load as).1 = 0 ∧
    (as_complete_load m (as_prepare_load as).2).1 = 0 ∧
    (as_prepare_load as).2.regions.map (fun r => r.cur_perm)
      = as.regions.map (fun _ => R_RD ||| R_WR ||| R_EX) ∧
    (as_prepare_load as).2.regions.map (fun r => r.old_perm)
      = as.regions.map (fun r => r.cur_perm) ∧
    (as_complete_load m (as_prepare_load as).2).2.2.regions.map (fun r => r.cur_perm)
      = as.regions.map (fun r => r.cur_perm) ∧
    (as_prepare_load as).2.regions.map (fun r => (r.vaddr, r.memsize))
      = as.regions.map (fun r => (r.vaddr, r.memsize)) ∧
    (as_complete_load m (as_prepare_load as).2).2.2.regions.map (fun r => (r.vaddr, r.memsize))
      = as.regions.map (fun r => (r.vaddr, r.memsize)) := by
  have hp1 : (as_prepare_load as).1 = 0 := by
    unfold as_prepare_load
    simp only [h, if_false]
  have hp2 : (as_prepare_load as).2.regions
      = as.regions.map
          (fun r => (⟨r.vaddr, r.memsize, R_RD ||| R_WR ||| R_EX, r.cur_perm⟩ : region)) := by
    unfold as_prepare_load
    simp only [h, if_false]
  have hne : (as_prepare_load as).2.regions ≠ [] := by
    rw [hp2]
    simpa using h
  have hc1 : (as_complete_load m (as_prepare_load as).2).1 = 0 := by
    unfold as_complete_load
    simp only [hne, if_false]
  have hc2 : (as_complete_load m (as_prepare_load as).2).2.2.regions
      = (as_prepare_load as).2.regions.map
          (fun r => (⟨r.vaddr, r.memsize, r.old_perm, r.old_perm⟩ : region)) := by
    unfold as_complete_load
    simp only [hne, if_false]
  refine ⟨hp1, hc1, ?_, ?_, ?_, ?_, ?_⟩
  · rw [hp2, List.map_map]; rfl
  · rw [hp2, List.map_map]; rfl
  · rw [hc2, hp2, List.map_map, List.map_map]; rfl
  · rw [hp2, List.map_map]; rfl
  · rw [hc2, hp2, List.map_map, List.map_map]; rfl

/-- C11 witness: the read-execute text segment of `text_as`. -/
theorem as_prepare_complete_load_witness :
    (as_prepare_load text_as).1 = 0 ∧
    (as_complete_load machine0 (as_prepare_load text_as).2).1 = 0 ∧
    (as_prepare_load text_as).2.regions.map (fun r => r.cur_perm)
      = text_as.regions.map (fun _ => R_RD ||| R_WR ||| R_EX) ∧
    (as_prepare_load text_as).2.regions.map (fun r => r.old_perm)
      = text_as.regions.map (fun r => r.cur_perm) ∧
    (as_complete_load machine0 (as_prepare_load text_as).2).2.2.regions.map
        (fun r => r.cur_perm)
      = text_as.regions.map (fun r => r.cur_perm) ∧
    (as_prepare_load text_as).2.regions.map (fun r => (r.vaddr, r.memsize))
      = text_as.regions.map (fun r => (r.vaddr, r.memsize)) ∧
    (as_complete_load machine0 (as_prepare_load text_as).2).2.2.regions.map
        (fun r => (r.vaddr, r.memsize))
      = text_as.regions.map (fun r => (r.vaddr, r.memsize)) :=
  as_prepare_complete_load machine0 text_as (by decide)

theorem tlb_write_fold_log (l : List Nat) (m : Machine) :
    (l.foldl (fun acc i => tlb_write acc (TLBHI_INVALID i) TLBLO_INVALID i) m).tlb_log
      = m.tlb_log ++ l.map (fun i => tlb_event.write (TLBHI_INVALID i) TLBLO_INVALID i) := by
  induction l generalizing m with
  | nil => simp
  | cons i is ih =>
    rw [List.foldl_cons, ih]
    simp [tlb_write]

/-- A flush writes every one of the `NUM_TLB` slots. -/
theorem vm_tlbflush_tlb_log (m : Machine) :
    (vm_tlbflush m).tlb_log
      = m.tlb_log
        ++ (List.range NUM_TLB).map (fun i => tlb_event.write (TLBHI_INVALID i) TLBLO_INVALID i) :=
  tlb_write_fold_log _ m

/-- C12: on an empty region list, `as_prepare_load` and `as_complete_load` return
EFAULT and hand back the address space as it was; `as_complete_load` also hands back
the collaborators as they were, so the TLB log has no new write: no flush, which would
add `NUM_TLB` writes. -/
theorem as_load_empty (m : Machine) (as : addrspace) (h : as.regions = []) :
    as_prepare_load as = (EFAULT, as) ∧ as_complete_load m as = (EFAULT, m, as) ∧
      (as_complete_load m as).2.1.tlb_log = m.tlb_log ∧
      (as_complete_load m as).2.1.tlb_log ≠ (vm_tlbflush m).tlb_log := by
  have h1 : as_prepare_load as = (EFAULT, as) := by
    unfold as_prepare_load
    simp only [h, if_true]
  have h2 : as_complete_load m as = (EFAULT, m, as) := by
    unfold as_complete_load
    simp only [h, if_true]
  refine ⟨h1, h2, by rw [h2], ?_⟩
  rw [h2, vm_tlbflush_tlb_log]
  intro heq
  have hlen := congrArg List.length heq
  simp [NUM_TLB] at hlen

/-- C12 witness: the address space that `as_create` returns. -/
theorem as_load_empty_witness :
    as_prepare_load fresh_as = (EFAULT, fresh_as) ∧
      as_complete_load machine0 fresh_as = (EFAULT, machine0, fresh_as) ∧
      (as_complete_load machine0 fresh_as).2.1.tlb_log = machine0.tlb_log ∧
      (as_complete_load machine0 fresh_as).2.1.tlb_log ≠ (vm_tlbflush machine0).tlb_log :=
  as_load_empty machine0 fresh_as rfl

/-! ## `as_create` (C13) -/

theorem kmalloc_kfree_log (m : Machine) : (kmalloc m).2.kfree_log = m.kfree_log := by
  unfold kmalloc
  cases m.kmalloc_results <;> rfl

/-- C13: when both `kmalloc` calls succeed, `as_create` returns an address space with
an empty region list and a level-0 array of 256 slots, all `NULL`; when either fails
it returns `NULL`, and when the second one fails the container is handed to `kfree`. -/
theorem as_create_spec (m : Machine) :
    ((kmalloc m).1 = true → (kmalloc (kmalloc m).2).1 = true →
      ∃ as pgtable, (as_create m).1 = some as ∧ as.regions = [] ∧
        as.pgtable = some pgtable ∧ pgtable.length = 256 ∧
        ∀ i, i < 256 → pgtable.getD i none = none) ∧
    (((kmalloc m).1 = false ∨ (kmalloc (kmalloc m).2).1 = false) → (as_create m).1 = none) ∧
    ((kmalloc m).1 = true → (kmalloc (kmalloc m).2).1 = false →
      (as_create m).2.kfree_log = m.kfree_log ++ [kblock.as_struct]) := by
  refine ⟨?_, ?_, ?_⟩
  · intro h1 h2
    refine ⟨{ regions := [], pgtable := some (List.replicate PG_SIZE_0 none) },
      List.replicate PG_SIZE_0 none, ?_, rfl, rfl, ?_, ?_⟩
    · unfold as_create
      simp only [h1, h2, Bool.true_eq_false, if_false]
    · simp [PG_SIZE_0]
    · intro i _
      exact getD_replicate_self _ _ _
  · intro h
    unfold as_create
    by_cases h1 : (kmalloc m).1 = false
    · simp only [h1, if_true]
    · rcases h with h | h
      · exact absurd h h1
      · simp only [h1, h, if_false, if_true, Bool.true_eq_false]
  · intro h1 h2
    unfold as_create
    simp only [h1, h2, Bool.true_eq_false, if_false, if_true, kfree]
    rw [kmalloc_kfree_log, kmalloc_kfree_log]

/-- C13 witness: both allocations succeeding, the first failing, the second failing. -/
theorem as_create_spec_witness :
    (∃ as pgtable, (as_create machine0).1 = some as ∧ as.regions = [] ∧
        as.pgtable = some pgtable ∧ pgtable.length = 256 ∧
        ∀ i, i < 256 → pgtable.getD i none = none) ∧
    (as_create { machine0 with kmalloc_results := [false] }).1 = none ∧
    (as_create { machine0 with kmalloc_results := [true, false] }).2.kfree_log
      = machine0.kfree_log ++ [kblock.as_struct] :=
  ⟨(as_create_spec machine0).1 (by decide) (by decide),
   (as_create_spec { machine0 with kmalloc_results := [false] }).2.1 (Or.inl (by decide)),
   (as_create_spec { machine0 with kmalloc_results := [true, false] }).2.2
     (by decide) (by decide)⟩

/-! ## `as_copy`: the region list (C14) -/

theorem as_copy_regions_ok (l : List region) (m : Machine) (new_as : addrspace)
    (m1 : Machine) (new_as1 : addrspace)
    (h : as_copy_regions l m new_as = (true, m1, new_as1)) :
    new_as1.regions = new_as.regions ++ l ∧ new_as1.pgtable = new_as.pgtable := by
  induction l generalizing m new_as with
  | nil =>
    unfold as_copy_regions at h
    simp only [Prod.mk.injEq, true_and] at h
    rw [← h.2]
    simp
  | cons r_prv next ih =>
    unfold as_copy_regions at h
    simp only [copy_region, init_region] at h
    by_cases hk : (kmalloc m).1 = false
    · simp [hk] at h
    · simp only [hk, if_false, Bool.true_eq_false] at h
      obtain ⟨h1, h2⟩ := ih _ _ h
      rw [h1, h2]
      simp [add_region, add_region_walk_eq]

theorem as_copy_entry_failed (i j paddr : Nat) (m : Machine) (pgtable : pgtable_t) :
    copy_exit_failed (as_copy_entry i j paddr m pgtable) := by
  unfold as_copy_entry
  simp only
  split
  · assumption
  · split
    · trivial
    · split
      · assumption
      · split
        · trivial
        · split
          · assumption
          · trivial

theorem as_copy_k_failed (old_pte2 : pte2_t) (i j : Nat) (ks : List Nat) (m : Machine)
    (pgtable : pgtable_t) : copy_exit_failed (as_copy_k old_pte2 i j ks m pgtable) := by
  induction ks generalizing m pgtable with
  | nil => unfold as_copy_k; trivial
  | cons k ks ih =>
    unfold as_copy_k
    split
    · have he := as_copy_entry_failed i j (old_pte2.getD k 0) m pgtable
      split
      · exact ih _ _
      · exact he
    · exact ih _ _

theorem as_copy_j_failed (old_pte1 : pte1_t) (i : Nat) (js : List Nat) (m : Machine)
    (pgtable : pgtable_t) : copy_exit_failed (as_copy_j old_pte1 i js m pgtable) := by
  induction js generalizing m pgtable with
  | nil => unfold as_copy_j; trivial
  | cons j js ih =>
    unfold as_copy_j
    split
    · exact ih _ _
    · rename_i old_pte2 _
      have hk := as_copy_k_failed old_pte2 i j (List.range PG_SIZE_2) m pgtable
      split
      · exact ih _ _
      · exact hk

theorem as_copy_i_failed (old_pgtable : pgtable_t) (is : List Nat) (m : Machine)
    (pgtable : pgtable_t) : copy_exit_failed (as_copy_i old_pgtable is m pgtable) := by
  induction is generalizing m pgtable with
  | nil => unfold as_copy_i; trivial
  | cons i is ih =>
    unfold as_copy_i
    split
    · exact ih _ _
    · rename_i old_pte1 _
      have hj := as_copy_j_failed old_pte1 i (List.range PG_SIZE_1) m pgtable
      split
      · exact ih _ _
      · exact hj

theorem as_copy_cleanupB_result (result : Nat) (m : Machine) (old_as new_as : addrspace)
    (ret : Option addrspace) (x : Nat × Machine × addrspace × Option addrspace)
    (h : as_copy_cleanupB result m old_as new_as ret = some x) : x.1 = result := by
  unfold as_copy_cleanupB at h
  split at h
  · cases h
  · cases h; rfl

theorem as_copy_cleanupC_result (result : Nat) (m : Machine) (old_as new_as : addrspace)
    (ret : Option addrspace) (i : Nat) (x : Nat × Machine × addrspace × Option addrspace)
    (h : as_copy_cleanupC result m old_as new_as ret i = some x) : x.1 = result := by
  unfold as_copy_cleanupC at h
  split at h
  · split at h
    · cases h
    · exact as_copy_cleanupB_result _ _ _ _ _ _ h
  · cases h

theorem as_copy_cleanupD_result (result : Nat) (m : Machine) (old_as new_as : addrspace)
    (ret : Option addrspace) (i j : Nat) (x : Nat × Machine × addrspace × Option addrspace)
    (h : as_copy_cleanupD result m old_as new_as ret i j = some x) : x.1 = result := by
  unfold as_copy_cleanupD at h
  split at h
  · split at h
    · exact as_copy_cleanupC_result _ _ _ _ _ _ _ h
    · cases h
  · cases h

theorem as_create_regions (m : Machine) (as : addrspace) (h : (as_create m).1 = some as) :
    as.regions = [] := by
  unfold as_create at h
  simp only at h
  split at h
  · cases h
  · split at h
    · cases h
    · cases h; rfl

/-- C14: when `as_copy` returns 0, `*ret` is an address space whose region list has the
length of the source's and equals it position by position in `vaddr`, `memsize`,
`cur_perm` and `old_perm` (the four fields of a region). -/
theorem as_copy_regions_equal (m : Machine) (old_as : addrspace) (ret : Option addrspace)
    (m1 : Machine) (old_as1 : addrspace) (ret1 : Option addrspace)
    (h : as_copy m old_as ret = some (0, m1, old_as1, ret1)) :
    ∃ new_as, ret1 = some new_as ∧ new_as.regions.length = old_as.regions.length ∧
      new_as.regions = old_as.regions := by
  unfold as_copy at h
  simp only at h
  cases hc : (as_create m).1 with
  | none => rw [hc] at h; simp [ENOMEM] at h
  | some new_as0 =>
    rw [hc] at h
    simp only at h
    have hnil := as_create_regions m new_as0 hc
    by_cases hrc : (as_copy_regions old_as.regions (as_create m).2 new_as0).1 = false
    · rw [if_pos hrc] at h
      have := as_copy_cleanupB_result _ _ _ _ _ _ h
      simp [ENOMEM] at this
    · rw [if_neg hrc] at h
      have hrc1 : as_copy_regions old_as.regions (as_create m).2 new_as0
          = (true, (as_copy_regions old_as.regions (as_create m).2 new_as0).2.1,
              (as_copy_regions old_as.regions (as_create m).2 new_as0).2.2) := by
        have ht : (as_copy_regions old_as.regions (as_create m).2 new_as0).1 = true := by
          simpa using hrc
        rw [← ht]
      obtain ⟨hreg, _⟩ := as_copy_regions_ok _ _ _ _ _ hrc1
      rw [hnil, List.nil_append] at hreg
      cases hop : old_as.pgtable with
      | none => rw [hop] at h; cases h
      | some old_pgtable =>
        cases hnp : (as_copy_regions old_as.regions (as_create m).2 new_as0).2.2.pgtable with
        | none => rw [hop, hnp] at h; cases h
        | some new_pgtable =>
          rw [hop, hnp] at h
          simp only at h
          have hf := as_copy_i_failed old_pgtable (List.range PG_SIZE_0)
            (as_copy_regions old_as.regions (as_create m).2 new_as0).2.1 new_pgtable
          cases he : as_copy_i old_pgtable (List.range PG_SIZE_0)
              (as_copy_regions old_as.regions (as_create m).2 new_as0).2.1 new_pgtable with
          | next m2 pgtable2 =>
            rw [he] at h
            simp only [Option.some.injEq, Prod.mk.injEq, true_and] at h
            refine ⟨_, h.2.2.symm, ?_, hreg⟩
            simp only [hreg]
          | cleanupB result m2 pgtable2 =>
            rw [he] at h hf
            have := as_copy_cleanupB_result _ _ _ _ _ _ h
            exact absurd this.symm hf
          | cleanupC result m2 pgtable2 i =>
            rw [he] at h hf
            have := as_copy_cleanupC_result _ _ _ _ _ _ _ h
            exact absurd this.symm hf
          | cleanupD result m2 pgtable2 i j =>
            rw [he] at h hf
            have := as_copy_cleanupD_result _ _ _ _ _ _ _ _ h
            exact absurd this.symm hf
          | undefined => rw [he] at h; cases h

/-- C14 witness: the copy of `loaded_text_as`. -/
theorem as_copy_regions_equal_witness :
    ∃ new_as, some copied_text_as = some new_as ∧
      new_as.regions.length = loaded_text_as.regions.length ∧
      new_as.regions = loaded_text_as.regions :=
  as_copy_regions_equal { machine0 with alloc_kpages_results := [0x80051000] }
    loaded_text_as none
    { machine0 with kmalloc_results := List.replicate 11 true, alloc_kpages_results := [] }
    loaded_text_as (some copied_text_as) (by decide)

/-! ## Page-table indices (C16) -/

theorem PG_IDX0_eq (a : Nat) (ha : a < 2 ^ 32) : PG_IDX0 a = a / 2 ^ 24 % 256 := by
  unfold PG_IDX0 u32
  rw [Nat.shiftRight_eq_div_pow]
  omega

theorem PG_IDX1_eq (a : Nat) (ha : a < 2 ^ 32) : PG_IDX1 a = a / 2 ^ 18 % 64 := by
  unfold PG_IDX1 u32
  rw [Nat.shiftRight_eq_div_pow, Nat.shiftLeft_eq]
  omega

theorem PG_IDX2_eq (a : Nat) (ha : a < 2 ^ 32) : PG_IDX2 a = a / 2 ^ 12 % 64 := by
  unfold PG_IDX2 u32
  rw [Nat.shiftRight_eq_div_pow, Nat.shiftLeft_eq]
  omega

theorem PG_IDX_agree (a b : Nat) (ha : a < 2 ^ 32) (hb : b < 2 ^ 32) :
    (PG_IDX0 a = PG_IDX0 b ∧ PG_IDX1 a = PG_IDX1 b ∧ PG_IDX2 a = PG_IDX2 b) ↔
      a / 2 ^ 12 = b / 2 ^ 12 := by
  rw [PG_IDX0_eq a ha, PG_IDX1_eq a ha, PG_IDX2_eq a ha, PG_IDX0_eq b hb, PG_IDX1_eq b hb,
    PG_IDX2_eq b hb]
  omega

theorem PG_IDX_onto (i j k : Nat) (hi : i < 256) (hj : j < 64) (hk : k < 64) :
    ∃ n, (n < 2 ^ 20 ∧ PG_IDX0 (n * 2 ^ 12) = i ∧ PG_IDX1 (n * 2 ^ 12) = j ∧
        PG_IDX2 (n * 2 ^ 12) = k) ∧
      ∀ n', (n' < 2 ^ 20 ∧ PG_IDX0 (n' * 2 ^ 12) = i ∧ PG_IDX1 (n' * 2 ^ 12) = j ∧
        PG_IDX2 (n' * 2 ^ 12) = k) → n' = n := by
  refine ⟨i * 4096 + j * 64 + k, ⟨by omega, ?_, ?_, ?_⟩, ?_⟩
  · rw [PG_IDX0_eq _ (by omega)]; omega
  · rw [PG_IDX1_eq _ (by omega)]; omega
  · rw [PG_IDX2_eq _ (by omega)]; omega
  · intro n' ⟨hn, h0, h1, h2⟩
    rw [PG_IDX0_eq _ (by omega)] at h0
    rw [PG_IDX1_eq _ (by omega)] at h1
    rw [PG_IDX2_eq _ (by omega)] at h2
    omega

/-- C16: for 32-bit words `a` and `b`, `PG_IDX0(a)` is bits 31..24 of `a`, `PG_IDX1(a)`
bits 23..18 and `PG_IDX2(a)` bits 17..12, below 256, 64 and 64; the three indices of
`a` and `b` agree iff `a` and `b` have the same top 20 bits; and every triple
`(i, j, k)` in 256 x 64 x 64 is the index triple of exactly one 20-bit page number. -/
theorem PG_IDX_split (a b i j k : Nat) (ha : a < 2 ^ 32) (hb : b < 2 ^ 32)
    (hi : i < 256) (hj : j < 64) (hk : k < 64) :
    (PG_IDX0 a = a / 2 ^ 24 % 256 ∧ PG_IDX1 a = a / 2 ^ 18 % 64 ∧
      PG_IDX2 a = a / 2 ^ 12 % 64 ∧
      PG_IDX0 a < 256 ∧ PG_IDX1 a < 64 ∧ PG_IDX2 a < 64) ∧
    ((PG_IDX0 a = PG_IDX0 b ∧ PG_IDX1 a = PG_IDX1 b ∧ PG_IDX2 a = PG_IDX2 b) ↔
      a / 2 ^ 12 = b / 2 ^ 12) ∧
    (∃! n, n < 2 ^ 20 ∧ PG_IDX0 (n * 2 ^ 12) = i ∧ PG_IDX1 (n * 2 ^ 12) = j ∧
      PG_IDX2 (n * 2 ^ 12) = k) :=
  ⟨⟨PG_IDX0_eq a ha, PG_IDX1_eq a ha, PG_IDX2_eq a ha, PG_IDX0_lt a, PG_IDX1_lt a,
      PG_IDX2_lt a⟩,
    PG_IDX_agree a b ha hb, PG_IDX_onto i j k hi hj hk⟩

/-- C16 witness: the words `0x00401500` and `0x00401fff` of page `0x00401`, and the
triple `(0, 16, 1)`. -/
theorem PG_IDX_split_witness :
    (PG_IDX0 0x00401500 = 0x00401500 / 2 ^ 24 % 256 ∧
      PG_IDX1 0x00401500 = 0x00401500 / 2 ^ 18 % 64 ∧
      PG_IDX2 0x00401500 = 0x00401500 / 2 ^ 12 % 64 ∧
      PG_IDX0 0x00401500 < 256 ∧ PG_IDX1 0x00401500 < 64 ∧ PG_IDX2 0x00401500 < 64) ∧
    ((PG_IDX0 0x00401500 = PG_IDX0 0x00401fff ∧ PG_IDX1 0x00401500 = PG_IDX1 0x00401fff ∧
        PG_IDX2 0x00401500 = PG_IDX2 0x00401fff) ↔
      0x00401500 / 2 ^ 12 = 0x00401fff / 2 ^ 12) ∧
    (∃! n, n < 2 ^ 20 ∧ PG_IDX0 (n * 2 ^ 12) = 0 ∧ PG_IDX1 (n * 2 ^ 12) = 16 ∧
      PG_IDX2 (n * 2 ^ 12) = 1) :=
  PG_IDX_split 0x00401500 0x00401fff 0 16 1 (by decide) (by decide) (by decide) (by decide)
    (by decide)

/-! ## `search_region` (C15) -/

theorem search_region_from_first (l : List region) (vaddr memsize : Nat) (r : region)
    (h : search_region_from l vaddr memsize = some r) :
    ∃ before after, l = before ++ r :: after ∧
      (vaddr ≥ r.vaddr ∧ u32 (vaddr + memsize) ≤ u32 (r.vaddr + r.memsize)) ∧
      ∀ x ∈ before,
        ¬ (vaddr ≥ x.vaddr ∧ u32 (vaddr + memsize) ≤ u32 (x.vaddr + x.memsize)) := by
  induction l with
  | nil => unfold search_region_from at h; cases h
  | cons cur next ih =>
    unfold search_region_from at h
    by_cases hc : vaddr ≥ cur.vaddr ∧ u32 (vaddr + memsize) ≤ u32 (cur.vaddr + cur.memsize)
    · rw [if_pos hc] at h
      cases h
      exact ⟨[], next, rfl, hc, fun x hx => by cases hx⟩
    · rw [if_neg hc] at h
      obtain ⟨before, after, hl, hr, hb⟩ := ih h
      refine ⟨cur :: before, after, by rw [hl]; rfl, hr, ?_⟩
      intro x hx
      rcases List.mem_cons.1 hx with hx | hx
      · rw [hx]; exact hc
      · exact hb x hx

theorem kmalloc_tlb_log (m : Machine) : (kmalloc m).2.tlb_log = m.tlb_log := by
  unfold kmalloc
  cases m.kmalloc_results <;> rfl

theorem kmalloc_alloc_results (m : Machine) :
    (kmalloc m).2.alloc_kpages_results = m.alloc_kpages_results := by
  unfold kmalloc
  cases m.kmalloc_results <;> rfl

theorem kmalloc_alloc_kpages (m : Machine) :
    (alloc_kpages (kmalloc m).2).1 = (alloc_kpages m).1 := by
  unfold alloc_kpages
  rw [kmalloc_alloc_results]
  cases m.alloc_kpages_results <;> rfl

theorem alloc_kpages_tlb_log (m : Machine) : (alloc_kpages m).2.tlb_log = m.tlb_log := by
  unfold alloc_kpages
  cases m.alloc_kpages_results <;> rfl

theorem kfree_tlb_log (m : Machine) (p : Option kblock) : (kfree m p).tlb_log = m.tlb_log := by
  unfold kfree
  cases p <;> rfl

theorem vm_fault_cleanupB_tlb_log (m : Machine) (f1 : Nat) (p1 : Option pte1_t) :
    (vm_fault_cleanupB m f1 p1).tlb_log = m.tlb_log := by
  unfold vm_fault_cleanupB
  split
  · exact kfree_tlb_log _ _
  · rfl

theorem vm_fault_cleanupC_tlb_log (m : Machine) (f1 : Nat) (p1 : Option pte1_t) (f2 : Nat)
    (p2 : Option pte2_t) : (vm_fault_cleanupC m f1 p1 f2 p2).tlb_log = m.tlb_log := by
  unfold vm_fault_cleanupC
  rw [vm_fault_cleanupB_tlb_log]
  split
  · exact kfree_tlb_log _ _
  · rfl

theorem leaf_word_set_other (pgtable : pgtable_t) (pte1 : pte1_t) (pte2 : pte2_t)
    (I J K e i j k : Nat)
    (h1 : pgtable.getD I none = some pte1) (h2 : pte1.getD J none = some pte2)
    (hI : I < pgtable.length) (hJ : J < pte1.length)
    (hne : (i, j, k) ≠ (I, J, K)) :
    leaf_word (pgtable.set I (some (pte1.set J (some (pte2.set K e))))) i j k
      = leaf_word pgtable i j k := by
  unfold leaf_word pt_leaf
  by_cases hi : I = i
  · subst hi
    rw [getD_set_self _ _ _ _ hI, h1]
    simp only
    by_cases hj : J = j
    · subst hj
      rw [getD_set_self _ _ _ _ hJ, h2]
      simp only
      have hk : K ≠ k := by
        intro hk
        subst hk
        exact hne rfl
      rw [getD_set_ne _ _ _ _ _ hk]
    · rw [getD_set_ne _ _ _ _ _ hj]
  · rw [getD_set_ne _ _ _ _ _ hi]

theorem leaf_word_alloc_pte1 (pgtable : pgtable_t) (I i j k : Nat)
    (h1 : pgtable.getD I none = none) :
    leaf_word (pgtable.set I (some (List.replicate PG_SIZE_1 none))) i j k
      = leaf_word pgtable i j k := by
  by_cases hI : I < pgtable.length
  · by_cases hi : I = i
    · subst hi
      rw [leaf_word_fresh_pte1 _ _ _ _ _ hI]
      unfold leaf_word pt_leaf
      rw [h1]
      rfl
    · unfold leaf_word pt_leaf
      rw [getD_set_ne _ _ _ _ _ hi]
  · rw [List.set_eq_of_length_le (by omega)]

theorem leaf_word_alloc_pte2 (pgtable : pgtable_t) (pte1 : pte1_t) (I J i j k : Nat)
    (h1 : pgtable.getD I none = some pte1) (h2 : pte1.getD J none = none)
    (hI : I < pgtable.length) :
    leaf_word (pgtable.set I (some (pte1.set J (some (List.replicate PG_SIZE_2 0))))) i j k
      = leaf_word pgtable i j k := by
  unfold leaf_word pt_leaf
  by_cases hi : I = i
  · subst hi
    rw [getD_set_self _ _ _ _ hI, h1]
    simp only
    by_cases hJ : J < pte1.length
    · by_cases hj : J = j
      · subst hj
        rw [getD_set_self _ _ _ _ hJ, h2]
        simp only
        rw [getD_replicate_self]
        rfl
      · rw [getD_set_ne _ _ _ _ _ hj]
    · rw [List.set_eq_of_length_le (by omega)]
  · rw [getD_set_ne _ _ _ _ _ hi]

theorem leaf_word_of_pt_leaf (pgtable : pgtable_t) (i j k e : Nat)
    (h : pt_leaf pgtable i j k = some e) : leaf_word pgtable i j k = e := by
  unfold leaf_word
  rw [h]
  rfl

/-- Step 3 returning 0: the TLB write, the leaf it installs, and the other leaves. -/
theorem vm_fault_pte3_ok (m : Machine) (as : addrspace) (pgtable : pgtable_t)
    (faultaddress paddr f1 : Nat) (p1 : Option pte1_t) (f2 : Nat) (p2 : Option pte2_t)
    (m1 : Machine) (pgtable1 : pgtable_t)
    (hp : path_ok pgtable (PG_IDX0 paddr) (PG_IDX1 paddr) (PG_IDX2 paddr))
    (h : vm_fault_pte3 m as pgtable faultaddress paddr f1 p1 f2 p2 = some (0, m1, pgtable1)) :
    ∃ e, pt_leaf pgtable1 (PG_IDX0 paddr) (PG_IDX1 paddr) (PG_IDX2 paddr) = some e ∧
      m1.tlb_log = m.tlb_log ++ [tlb_event.random (u32 faultaddress &&& PAGE_FRAME) e] ∧
      (∀ i j k, (i, j, k) ≠ (PG_IDX0 paddr, PG_IDX1 paddr, PG_IDX2 paddr) →
        leaf_word pgtable1 i j k = leaf_word pgtable i j k) ∧
      (leaf_word pgtable (PG_IDX0 paddr) (PG_IDX1 paddr) (PG_IDX2 paddr) = 0 →
        ∃ r, search_region as faultaddress 0 = some r ∧ (alloc_kpages m).1 ≠ 0 ∧
          e = fault_entry (alloc_kpages m).1 r.cur_perm) ∧
      (leaf_word pgtable (PG_IDX0 paddr) (PG_IDX1 paddr) (PG_IDX2 paddr) ≠ 0 →
        e = leaf_word pgtable (PG_IDX0 paddr) (PG_IDX1 paddr) (PG_IDX2 paddr) ∧
          pgtable1 = pgtable ∧ m1 = tlb_random m (u32 faultaddress &&& PAGE_FRAME) e) := by
  unfold vm_fault_pte3 at h
  cases hl : pt_leaf pgtable (PG_IDX0 paddr) (PG_IDX1 paddr) (PG_IDX2 paddr) with
  | none => rw [hl] at h; cases h
  | some pte3 =>
    rw [hl] at h
    simp only at h
    have hw := leaf_word_of_pt_leaf _ _ _ _ _ hl
    obtain ⟨pte1, pte2, h1, h2, _⟩ := (pt_leaf_eq_some _ _ _ _ _).1 hl
    obtain ⟨hi, hp1⟩ := hp
    obtain ⟨hj, hp2⟩ := hp1 pte1 h1
    have hk := hp2 pte2 h2
    by_cases hz : pte3 = 0
    · rw [if_pos hz] at h
      cases hs : search_region as faultaddress 0 with
      | none => rw [hs] at h; simp [EFAULT] at h
      | some r =>
        rw [hs] at h
        simp only [vm_allocpte3, h1, h2] at h
        by_cases hv : (alloc_kpages m).1 = 0
        · simp [hv, ENOMEM] at h
        · simp only [hv, if_false, ne_eq, not_true_eq_false] at h
          have hset := pt_leaf_set pgtable pte1 pte2 _ _ _
            (fault_entry (alloc_kpages m).1 r.cur_perm) hi hj hk
          unfold fault_entry at hset
          rw [vm_fault_tlb_eq _ _ _ _ _ hset] at h
          simp only [Option.some.injEq, Prod.mk.injEq, true_and] at h
          obtain ⟨hm, hpt⟩ := h
          refine ⟨fault_entry (alloc_kpages m).1 r.cur_perm, ?_, ?_, ?_, ?_, ?_⟩
          · rw [← hpt]; exact hset
          · rw [← hm]
            show (alloc_kpages m).2.tlb_log ++ _ = _
            rw [alloc_kpages_tlb_log]
            rfl
          · intro i j k hne
            rw [← hpt]
            exact leaf_word_set_other _ _ _ _ _ _ _ _ _ _ h1 h2 hi hj hne
          · intro _
            exact ⟨r, rfl, hv, rfl⟩
          · intro hnz
            rw [hw] at hnz
            exact absurd hz hnz
    · rw [if_neg hz, vm_fault_tlb_eq _ _ _ _ _ hl] at h
      simp only [Option.some.injEq, Prod.mk.injEq, true_and] at h
      obtain ⟨hm, hpt⟩ := h
      refine ⟨pte3, ?_, ?_, ?_, ?_, ?_⟩
      · rw [← hpt]; exact hl
      · rw [← hm]; rfl
      · intro i j k _
        rw [← hpt]
      · intro hzero
        rw [hw] at hzero
        exact absurd hzero hz
      · intro _
        exact ⟨hw.symm, hpt.symm, hm.symm⟩

theorem vm_allocpte3_machine (m : Machine) (pgtable : pgtable_t) (paddr perm result : Nat)
    (m1 : Machine) (pgtable1 : pgtable_t)
    (h : vm_allocpte3 m pgtable paddr perm = some (result, m1, pgtable1)) :
    m1 = (alloc_kpages m).2 := by
  unfold vm_allocpte3 at h
  simp only at h
  split at h
  · cases h
  · split at h
    · cases h
    · split at h
      · simp only [Option.some.injEq, Prod.mk.injEq] at h
        exact h.2.1.symm
      · simp only [Option.some.injEq, Prod.mk.injEq] at h
        exact h.2.1.symm

theorem vm_allocpte2_machine (m : Machine) (pgtable : pgtable_t) (paddr result : Nat)
    (m1 : Machine) (pgtable1 : pgtable_t)
    (h : vm_allocpte2 m pgtable paddr = some (result, m1, pgtable1)) :
    m1 = (kmalloc m).2 := by
  unfold vm_allocpte2 at h
  simp only at h
  split at h
  · cases h
  · split at h
    · simp only [Option.some.injEq, Prod.mk.injEq] at h
      exact h.2.1.symm
    · simp only [Option.some.injEq, Prod.mk.injEq] at h
      exact h.2.1.symm

theorem vm_fault_tlb_result (m : Machine) (pgtable : pgtable_t) (faultaddress paddr : Nat)
    (result : Nat) (m1 : Machine) (pgtable1 : pgtable_t) (hr : result ≠ 0)
    (h : vm_fault_tlb m pgtable faultaddress paddr = some (result, m1, pgtable1)) : False := by
  unfold vm_fault_tlb at h
  split at h
  · cases h
  · simp only [Option.some.injEq, Prod.mk.injEq] at h
    exact hr h.1.symm

/-- Step 3 returning an error: no TLB write. -/
theorem vm_fault_pte3_err (m : Machine) (as : addrspace) (pgtable : pgtable_t)
    (faultaddress paddr f1 : Nat) (p1 : Option pte1_t) (f2 : Nat) (p2 : Option pte2_t)
    (result : Nat) (m1 : Machine) (pgtable1 : pgtable_t) (hr : result ≠ 0)
    (h : vm_fault_pte3 m as pgtable faultaddress paddr f1 p1 f2 p2
      = some (result, m1, pgtable1)) :
    m1.tlb_log = m.tlb_log := by
  unfold vm_fault_pte3 at h
  cases hl : pt_leaf pgtable (PG_IDX0 paddr) (PG_IDX1 paddr) (PG_IDX2 paddr) with
  | none => rw [hl] at h; cases h
  | some pte3 =>
    rw [hl] at h
    simp only at h
    by_cases hz : pte3 = 0
    · rw [if_pos hz] at h
      cases hs : search_region as faultaddress 0 with
      | none =>
        rw [hs] at h
        simp only [Option.some.injEq, Prod.mk.injEq] at h
        rw [← h.2.1]
        exact vm_fault_cleanupC_tlb_log _ _ _ _ _
      | some r =>
        rw [hs] at h
        simp only at h
        cases ha : vm_allocpte3 m pgtable paddr r.cur_perm with
        | none => rw [ha] at h; cases h
        | some x =>
          obtain ⟨res, m2, pgtable2⟩ := x
          rw [ha] at h
          simp only at h
          by_cases hres : res ≠ 0
          · rw [if_pos hres] at h
            simp only [Option.some.injEq, Prod.mk.injEq] at h
            rw [← h.2.1, vm_fault_cleanupC_tlb_log, vm_allocpte3_machine _ _ _ _ _ _ _ ha,
              alloc_kpages_tlb_log]
          · rw [if_neg hres] at h
            exact (vm_fault_tlb_result _ _ _ _ _ _ _ hr h).elim
    · rw [if_neg hz] at h
      exact (vm_fault_tlb_result _ _ _ _ _ _ _ hr h).elim

/-- Step 2 returning 0: the TLB write, the leaf it installs, and the other leaves. -/
theorem vm_fault_pte2_ok (m : Machine) (as : addrspace) (pgtable : pgtable_t)
    (faultaddress paddr f1 : Nat) (p1 : Option pte1_t)
    (m1 : Machine) (pgtable1 : pgtable_t)
    (hp : path_ok pgtable (PG_IDX0 paddr) (PG_IDX1 paddr) (PG_IDX2 paddr))
    (h : vm_fault_pte2 m as pgtable faultaddress paddr f1 p1 = some (0, m1, pgtable1)) :
    ∃ e, pt_leaf pgtable1 (PG_IDX0 paddr) (PG_IDX1 paddr) (PG_IDX2 paddr) = some e ∧
      m1.tlb_log = m.tlb_log ++ [tlb_event.random (u32 faultaddress &&& PAGE_FRAME) e] ∧
      (∀ i j k, (i, j, k) ≠ (PG_IDX0 paddr, PG_IDX1 paddr, PG_IDX2 paddr) →
        leaf_word pgtable1 i j k = leaf_word pgtable i j k) ∧
      (leaf_word pgtable (PG_IDX0 paddr) (PG_IDX1 paddr) (PG_IDX2 paddr) = 0 →
        ∃ r, search_region as faultaddress 0 = some r ∧ (alloc_kpages m).1 ≠ 0 ∧
          e = fault_entry (alloc_kpages m).1 r.cur_perm) ∧
      (leaf_word pgtable (PG_IDX0 paddr) (PG_IDX1 paddr) (PG_IDX2 paddr) ≠ 0 →
        e = leaf_word pgtable (PG_IDX0 paddr) (PG_IDX1 paddr) (PG_IDX2 paddr) ∧
          pgtable1 = pgtable ∧ m1 = tlb_random m (u32 faultaddress &&& PAGE_FRAME) e) := by
  unfold vm_fault_pte2 at h
  cases h1 : pgtable.getD (PG_IDX0 paddr) none with
  | none => rw [h1] at h; cases h
  | some node1 =>
    rw [h1] at h
    simp only at h
    obtain ⟨hi, hp1⟩ := hp
    obtain ⟨hj, hp2⟩ := hp1 node1 h1
    cases h2 : node1.getD (PG_IDX1 paddr) none with
    | none =>
      rw [h2] at h
      simp only [if_true, vm_allocpte2, h1] at h
      by_cases hk : (kmalloc m).1 = false
      · simp [hk, ENOMEM] at h
      · simp only [hk, if_false, ne_eq, not_true_eq_false] at h
        have hp' : path_ok (pgtable.set (PG_IDX0 paddr)
            (some (node1.set (PG_IDX1 paddr) (some (List.replicate PG_SIZE_2 0)))))
            (PG_IDX0 paddr) (PG_IDX1 paddr) (PG_IDX2 paddr) := by
          refine ⟨by rw [List.length_set]; exact hi, ?_⟩
          intro pte1 e1
          rw [getD_set_self _ _ _ _ hi] at e1
          cases e1
          refine ⟨by rw [List.length_set]; exact hj, ?_⟩
          intro pte2 e2
          rw [getD_set_self _ _ _ _ hj] at e2
          cases e2
          rw [List.length_replicate]
          exact PG_IDX2_lt paddr
        have hsame := leaf_word_alloc_pte2 pgtable node1 (PG_IDX0 paddr) (PG_IDX1 paddr)
        have hzero : leaf_word pgtable (PG_IDX0 paddr) (PG_IDX1 paddr) (PG_IDX2 paddr) = 0 := by
          unfold leaf_word pt_leaf
          rw [h1]
          simp only
          rw [h2]
          rfl
        obtain ⟨e, he1, he2, he3, he4, _⟩ := vm_fault_pte3_ok _ _ _ _ _ _ _ _ _ _ _ hp' h
        refine ⟨e, he1, ?_, ?_, ?_, ?_⟩
        · rw [he2, kmalloc_tlb_log]
        · intro i j k hne
          rw [he3 i j k hne, hsame i j k h1 h2 hi]
        · intro _
          rw [hsame _ _ _ h1 h2 hi, kmalloc_alloc_kpages] at he4
          exact he4 hzero
        · intro hnz
          exact absurd hzero hnz
    | some node2 =>
      rw [h2] at h
      simp only [reduceCtorEq, if_false] at h
      exact vm_fault_pte3_ok _ _ _ _ _ _ _ _ _ _ _
        ⟨hi, fun pte1 e1 => by rw [h1] at e1; cases e1; exact ⟨hj, hp2⟩⟩ h

/-- Step 2 returning an error: no TLB write. -/
theorem vm_fault_pte2_err (m : Machine) (as : addrspace) (pgtable : pgtable_t)
    (faultaddress paddr f1 : Nat) (p1 : Option pte1_t)
    (result : Nat) (m1 : Machine) (pgtable1 : pgtable_t) (hr : result ≠ 0)
    (h : vm_fault_pte2 m as pgtable faultaddress paddr f1 p1 = some (result, m1, pgtable1)) :
    m1.tlb_log = m.tlb_log := by
  unfold vm_fault_pte2 at h
  cases h1 : pgtable.getD (PG_IDX0 paddr) none with
  | none => rw [h1] at h; cases h
  | some node1 =>
    rw [h1] at h
    simp only at h
    by_cases h2 : node1.getD (PG_IDX1 paddr) none = none
    · rw [if_pos h2] at h
      cases ha : vm_allocpte2 m pgtable paddr with
      | none => rw [ha] at h; cases h
      | some x =>
        obtain ⟨res, m2, pgtable2⟩ := x
        rw [ha] at h
        simp only at h
        have hm2 := vm_allocpte2_machine _ _ _ _ _ _ ha
        by_cases hres : res ≠ 0
        · rw [if_pos hres] at h
          simp only [Option.some.injEq, Prod.mk.injEq] at h
          rw [← h.2.1, vm_fault_cleanupB_tlb_log, hm2, kmalloc_tlb_log]
        · rw [if_neg hres] at h
          rw [vm_fault_pte3_err _ _ _ _ _ _ _ _ _ _ _ _ hr h, hm2, kmalloc_tlb_log]
    · rw [if_neg h2] at h
      exact vm_fault_pte3_err _ _ _ _ _ _ _ _ _ _ _ _ hr h

/-- The walk returning 0: the TLB write, the leaf it installs, and the other leaves. -/
theorem vm_fault_walk_ok (m : Machine) (as : addrspace) (pgtable : pgtable_t)
    (faultaddress : Nat) (m1 : Machine) (pgtable1 : pgtable_t)
    (hwf : pgtable_wf pgtable = true)
    (h : vm_fault_walk m as pgtable faultaddress = some (0, m1, pgtable1)) :
    ∃ e, pt_leaf pgtable1 (PG_IDX0 (KVADDR_TO_PADDR faultaddress))
          (PG_IDX1 (KVADDR_TO_PADDR faultaddress)) (PG_IDX2 (KVADDR_TO_PADDR faultaddress))
        = some e ∧
      m1.tlb_log = m.tlb_log ++ [tlb_event.random (u32 faultaddress &&& PAGE_FRAME) e] ∧
      (∀ i j k, (i, j, k) ≠ (PG_IDX0 (KVADDR_TO_PADDR faultaddress),
          PG_IDX1 (KVADDR_TO_PADDR faultaddress), PG_IDX2 (KVADDR_TO_PADDR faultaddress)) →
        leaf_word pgtable1 i j k = leaf_word pgtable i j k) ∧
      (fault_leaf pgtable faultaddress = 0 →
        ∃ r, search_region as faultaddress 0 = some r ∧ (alloc_kpages m).1 ≠ 0 ∧
          e = fault_entry (alloc_kpages m).1 r.cur_perm) ∧
      (fault_leaf pgtable faultaddress ≠ 0 →
        e = fault_leaf pgtable faultaddress ∧ pgtable1 = pgtable ∧
          m1 = tlb_random m (u32 faultaddress &&& PAGE_FRAME) e) := by
  have hp := pgtable_wf_path_ok pgtable _ _ _ hwf (PG_IDX0_lt (KVADDR_TO_PADDR faultaddress))
    (PG_IDX1_lt (KVADDR_TO_PADDR faultaddress)) (PG_IDX2_lt (KVADDR_TO_PADDR faultaddress))
  unfold fault_leaf
  unfold vm_fault_walk at h
  simp only at h
  generalize KVADDR_TO_PADDR faultaddress = paddr at h hp ⊢
  cases h1 : pgtable.getD (PG_IDX0 paddr) none with
  | none =>
    rw [h1] at h
    simp only [if_true, vm_allocpte1] at h
    by_cases hk : (kmalloc m).1 = false
    · simp [hk, ENOMEM] at h
    · simp only [hk, if_false, ne_eq, not_true_eq_false, Bool.true_eq_false,
        reduceCtorEq] at h
      have hp' : path_ok (pgtable.set (PG_IDX0 paddr) (some (List.replicate PG_SIZE_1 none)))
          (PG_IDX0 paddr) (PG_IDX1 paddr) (PG_IDX2 paddr) := by
        refine ⟨by rw [List.length_set]; exact hp.1, ?_⟩
        intro pte1 e1
        rw [getD_set_self _ _ _ _ hp.1] at e1
        cases e1
        refine ⟨by rw [List.length_replicate]; exact PG_IDX1_lt _, ?_⟩
        intro pte2 e2
        rw [getD_replicate_self] at e2
        cases e2
      have hsame := leaf_word_alloc_pte1 pgtable (PG_IDX0 paddr)
      have hzero : leaf_word pgtable (PG_IDX0 paddr) (PG_IDX1 paddr) (PG_IDX2 paddr) = 0 := by
        unfold leaf_word pt_leaf
        rw [h1]
        rfl
      obtain ⟨e, he1, he2, he3, he4, _⟩ := vm_fault_pte2_ok _ _ _ _ _ _ _ _ _ hp' h
      refine ⟨e, he1, ?_, ?_, ?_, ?_⟩
      · rw [he2, kmalloc_tlb_log]
      · intro i j k hne
        rw [he3 i j k hne, hsame i j k h1]
      · intro _
        rw [hsame _ _ _ h1, kmalloc_alloc_kpages] at he4
        exact he4 hzero
      · intro hnz
        exact absurd hzero hnz
  | some node1 =>
    rw [h1] at h
    simp only [reduceCtorEq, if_false] at h
    exact vm_fault_pte2_ok _ _ _ _ _ _ _ _ _ hp h

/-- The walk returning an error: no TLB write. -/
theorem vm_fault_walk_err (m : Machine) (as : addrspace) (pgtable : pgtable_t)
    (faultaddress result : Nat) (m1 : Machine) (pgtable1 : pgtable_t) (hr : result ≠ 0)
    (h : vm_fault_walk m as pgtable faultaddress = some (result, m1, pgtable1)) :
    m1.tlb_log = m.tlb_log := by
  unfold vm_fault_walk at h
  simp only at h
  generalize KVADDR_TO_PADDR faultaddress = paddr at h
  by_cases h1 : pgtable.getD (PG_IDX0 paddr) none = none
  · rw [if_pos h1] at h
    by_cases hres : (vm_allocpte1 m pgtable paddr).1 ≠ 0
    · rw [if_pos hres] at h
      simp only [Option.some.injEq, Prod.mk.injEq] at h
      rw [← h.2.1]
      unfold vm_allocpte1
      simp only
      split <;> exact kmalloc_tlb_log m
    · rw [if_neg hres] at h
      rw [vm_fault_pte2_err _ _ _ _ _ _ _ _ _ _ hr h]
      unfold vm_allocpte1
      simp only
      split <;> exact kmalloc_tlb_log m
  · rw [if_neg h1] at h
    exact vm_fault_pte2_err _ _ _ _ _ _ _ _ _ _ hr h

/-- A call of `vm_fault` either stops at a sanity check or at the fault type, with a
non-zero result and nothing changed, or performs the walk. -/
theorem vm_fault_inv (m : Machine) (curproc : Option proc) (faulttype : Int) (a : Nat)
    (result : Nat) (m1 : Machine) (curproc1 : Option proc)
    (h : vm_fault m curproc faulttype a = some (result, m1, curproc1)) :
    (result ≠ 0 ∧ m1 = m ∧ curproc1 = curproc) ∨
    (∃ p as pgtable pgtable1, curproc = some p ∧ p.p_addrspace = some as ∧
      as.pgtable = some pgtable ∧ as.regions ≠ [] ∧
      (faulttype = VM_FAULT_READ ∨ faulttype = VM_FAULT_WRITE) ∧
      vm_fault_walk m as pgtable a = some (result, m1, pgtable1) ∧
      curproc1 = some { p with p_addrspace := some { as with pgtable := some pgtable1 } }) := by
  have stop : ∀ code : Nat, code ≠ 0 →
      some (code, m, curproc) = some (result, m1, curproc1) →
      (result ≠ 0 ∧ m1 = m ∧ curproc1 = curproc) := by
    intro code hc he
    simp only [Option.some.injEq, Prod.mk.injEq] at he
    exact ⟨by rw [← he.1]; exact hc, he.2.1.symm, he.2.2.symm⟩
  unfold vm_fault at h
  cases curproc with
  | none => exact Or.inl (stop EFAULT (by decide) h)
  | some p =>
    simp only at h
    cases hg : proc_getas (some p) with
    | none => rw [hg] at h; exact Or.inl (stop EFAULT (by decide) h)
    | some as =>
      rw [hg] at h
      simp only at h
      by_cases hr : as.regions = []
      · rw [if_pos hr] at h
        exact Or.inl (stop EFAULT (by decide) h)
      · rw [if_neg hr] at h
        cases hpt : as.pgtable with
        | none => rw [hpt] at h; exact Or.inl (stop EFAULT (by decide) h)
        | some pgtable =>
          rw [hpt] at h
          simp only at h
          by_cases hft : faulttype = VM_FAULT_READ ∨ faulttype = VM_FAULT_WRITE
          · rw [if_pos hft] at h
            cases hw : vm_fault_walk m as pgtable a with
            | none => rw [hw] at h; cases h
            | some x =>
              obtain ⟨res, m2, pgtable1⟩ := x
              rw [hw] at h
              simp only [Option.some.injEq, Prod.mk.injEq] at h
              obtain ⟨h0, hm, hc⟩ := h
              subst h0
              subst hm
              exact Or.inr ⟨p, as, pgtable, pgtable1, rfl, hg, hpt, hr, hft, hw, hc.symm⟩
          · rw [if_neg hft] at h
            by_cases hro : faulttype = VM_FAULT_READONLY
            · rw [if_pos hro] at h
              exact Or.inl (stop EFAULT (by decide) h)
            · rw [if_neg hro] at h
              exact Or.inl (stop EINVAL (by decide) h)

theorem KVADDR_TO_PADDR_lt (a : Nat) : KVADDR_TO_PADDR a < 2 ^ 32 := by
  unfold KVADDR_TO_PADDR u32
  exact Nat.mod_lt _ (by norm_num)

theorem PG_IDX0_KVADDR (a : Nat) (ha : a < 2 ^ 32) :
    PG_IDX0 (KVADDR_TO_PADDR a) = (a / 2 ^ 24 + 128) % 256 := by
  rw [PG_IDX0_eq _ (KVADDR_TO_PADDR_lt a)]
  unfold KVADDR_TO_PADDR u32 MIPS_KSEG0
  omega

theorem PG_IDX1_KVADDR (a : Nat) (ha : a < 2 ^ 32) :
    PG_IDX1 (KVADDR_TO_PADDR a) = a / 2 ^ 18 % 64 := by
  rw [PG_IDX1_eq _ (KVADDR_TO_PADDR_lt a)]
  unfold KVADDR_TO_PADDR u32 MIPS_KSEG0
  omega

theorem PG_IDX2_KVADDR (a : Nat) (ha : a < 2 ^ 32) :
    PG_IDX2 (KVADDR_TO_PADDR a) = a / 2 ^ 12 % 64 := by
  rw [PG_IDX2_eq _ (KVADDR_TO_PADDR_lt a)]
  unfold KVADDR_TO_PADDR u32 MIPS_KSEG0
  omega

/-! ## The fault handler: which leaf (C17) -/

/-- C17 (amended): a `vm_fault(type, a)` that returns 0 populates and installs the
leaf at the indices of `KVADDR_TO_PADDR(a) = a - 0x80000000 mod 2^32`, that is
`i = (bits 31..24 of a) + 128 mod 256` (the top bit flipped), `j = bits 23..18 of a`,
`k = bits 17..12 of a`: that leaf holds the word written to the TLB, and every other
leaf of the page table is as before. -/
theorem vm_fault_leaf_index (m : Machine) (as : addrspace) (pgtable : pgtable_t)
    (faulttype : Int) (a : Nat) (m1 : Machine) (curproc1 : Option proc)
    (hpt : as.pgtable = some pgtable) (hwf : pgtable_wf pgtable = true) (ha : a < 2 ^ 32)
    (h : vm_fault m (some ⟨some as⟩) faulttype a = some (0, m1, curproc1)) :
    ∃ pgtable1 e, curproc1 = some ⟨some { as with pgtable := some pgtable1 }⟩ ∧
      pt_leaf pgtable1 ((a / 2 ^ 24 + 128) % 256) (a / 2 ^ 18 % 64) (a / 2 ^ 12 % 64)
        = some e ∧
      m1.tlb_log = m.tlb_log ++ [tlb_event.random (a &&& PAGE_FRAME) e] ∧
      ∀ i j k, (i, j, k) ≠ ((a / 2 ^ 24 + 128) % 256, a / 2 ^ 18 % 64, a / 2 ^ 12 % 64) →
        leaf_word pgtable1 i j k = leaf_word pgtable i j k := by
  rcases vm_fault_inv _ _ _ _ _ _ _ h with ⟨hne, _, _⟩ | ⟨p, as', pgtable', pgtable1, hc, hp, hpt',
    _, _, hw, hc1⟩
  · exact absurd rfl hne
  · cases hc
    simp only [Option.some.injEq] at hp
    subst hp
    rw [hpt] at hpt'
    cases hpt'
    obtain ⟨e, he1, he2, he3, _, _⟩ := vm_fault_walk_ok _ _ _ _ _ _ hwf hw
    rw [PG_IDX0_KVADDR a ha, PG_IDX1_KVADDR a ha, PG_IDX2_KVADDR a ha] at he1 he3
    have hu : u32 a = a := Nat.mod_eq_of_lt ha
    rw [hu] at he2
    exact ⟨pgtable1, e, hc1, he1, he2, he3⟩

/-- C17 witness: the READ fault at `0x00401500` on `text_as`. -/
theorem vm_fault_leaf_index_witness :
    ∃ pgtable1 e,
      (some ⟨some { text_as with pgtable := some (text_pgtable 0x00050200) }⟩ : Option proc)
        = some ⟨some { text_as with pgtable := some pgtable1 }⟩ ∧
      pt_leaf pgtable1 ((0x00401500 / 2 ^ 24 + 128) % 256) (0x00401500 / 2 ^ 18 % 64)
        (0x00401500 / 2 ^ 12 % 64) = some e ∧
      ({ machine0 with
          kmalloc_results := List.replicate 14 true
          alloc_kpages_results := [0x80051000]
          tlb_log := [tlb_event.random 0x00401000 0x00050200] } : Machine).tlb_log
        = machine0.tlb_log ++ [tlb_event.random (0x00401500 &&& PAGE_FRAME) e] ∧
      ∀ i j k, (i, j, k) ≠ ((0x00401500 / 2 ^ 24 + 128) % 256, 0x00401500 / 2 ^ 18 % 64,
          0x00401500 / 2 ^ 12 % 64) →
        leaf_word pgtable1 i j k = leaf_word empty_pgtable i j k :=
  vm_fault_leaf_index machine0 text_as empty_pgtable VM_FAULT_READ 0x00401500
    { machine0 with
      kmalloc_results := List.replicate 14 true
      alloc_kpages_results := [0x80051000]
      tlb_log := [tlb_event.random 0x00401000 0x00050200] }
    (some ⟨some { text_as with pgtable := some (text_pgtable 0x00050200) }⟩)
    rfl (by decide) (by decide) (by decide)

/-- C17 counterexample: after the READ fault at `0x00401500` on `text_as` returns 0,
the leaf at the indices `(0, 16, 1)` of the VPN `0x00401` of the fault address is
still empty; the leaf that was populated is the one at `(0x80, 16, 1)`. -/
theorem vm_fault_indexes_by_paddr :
    (PG_IDX0 0x00401500, PG_IDX1 0x00401500, PG_IDX2 0x00401500) = (0, 16, 1) ∧
    (vm_fault machine0 (some ⟨some text_as⟩) VM_FAULT_READ 0x00401500).map
        (fun x => (x.1, (curproc_pgtable x.2.2).map (fun pt =>
          (leaf_word pt (PG_IDX0 0x00401500) (PG_IDX1 0x00401500) (PG_IDX2 0x00401500),
            leaf_word pt 0x80 16 1))))
      = some (0, some (0, 0x00050200)) := by
  decide

/-! ## The fault handler: the TLB write (C19) -/

theorem vm_allocpte1_traced_eq (m : Machine) (pgtable : pgtable_t) (paddr : Nat)
    (trace : List vm_event) :
    ∃ node, vm_allocpte1_traced m pgtable paddr trace
        = ((vm_allocpte1 m pgtable paddr).1, (vm_allocpte1 m pgtable paddr).2.1,
            (vm_allocpte1 m pgtable paddr).2.2,
            trace ++ [vm_event.store_pte1 (PG_IDX0 paddr) node]) ∧
      pt_apply pgtable (vm_event.store_pte1 (PG_IDX0 paddr) node)
        = (vm_allocpte1 m pgtable paddr).2.2 := by
  unfold vm_allocpte1_traced vm_allocpte1
  simp only
  by_cases hk : (kmalloc m).1 = false
  · rw [if_pos hk, if_pos hk]
    exact ⟨none, rfl, rfl⟩
  · rw [if_neg hk, if_neg hk]
    exact ⟨_, rfl, rfl⟩

theorem vm_allocpte2_traced_eq (m : Machine) (pgtable : pgtable_t) (paddr : Nat)
    (trace : List vm_event) :
    ∃ st, (∀ e ∈ st, is_pt_store e = true) ∧
      vm_allocpte2_traced m pgtable paddr trace
        = (vm_allocpte2 m pgtable paddr).map (fun x => (x.1, x.2.1, x.2.2, trace ++ st)) ∧
      ∀ x, vm_allocpte2 m pgtable paddr = some x → st.foldl pt_apply pgtable = x.2.2 := by
  unfold vm_allocpte2_traced vm_allocpte2
  simp only
  cases h1 : pgtable.getD (PG_IDX0 paddr) none with
  | none =>
    refine ⟨[], ?_, rfl, ?_⟩
    · intro e he
      cases he
    · intro x hx
      cases hx
  | some pte1 =>
    by_cases hk : (kmalloc m).1 = false
    · simp only [hk, if_true]
      refine ⟨[vm_event.store_pte2 (PG_IDX0 paddr) (PG_IDX1 paddr) none], ?_, rfl, ?_⟩
      · intro e he
        simp only [List.mem_singleton] at he
        subst he
        rfl
      · intro x hx
        cases hx
        simp only [List.foldl, pt_apply, h1]
    · simp only [hk, if_false]
      refine ⟨[vm_event.store_pte2 (PG_IDX0 paddr) (PG_IDX1 paddr)
        (some (List.replicate PG_SIZE_2 0))], ?_, rfl, ?_⟩
      · intro e he
        simp only [List.mem_singleton] at he
        subst he
        rfl
      · intro x hx
        cases hx
        simp only [List.foldl, pt_apply, h1]

theorem vm_allocpte3_traced_eq (m : Machine) (pgtable : pgtable_t) (paddr perm : Nat)
    (trace : List vm_event) :
    ∃ st, (∀ e ∈ st, is_pt_store e = true) ∧
      vm_allocpte3_traced m pgtable paddr perm trace
        = (vm_allocpte3 m pgtable paddr perm).map
            (fun x => (x.1, x.2.1, x.2.2, trace ++ st)) ∧
      ∀ x, vm_allocpte3 m pgtable paddr perm = some x → st.foldl pt_apply pgtable = x.2.2 := by
  unfold vm_allocpte3_traced vm_allocpte3
  simp only
  cases h1 : pgtable.getD (PG_IDX0 paddr) none with
  | none =>
    refine ⟨[], ?_, rfl, ?_⟩
    · intro e he
      cases he
    · intro x hx
      cases hx
  | some pte1 =>
    dsimp only
    cases h2 : pte1.getD (PG_IDX1 paddr) none with
    | none =>
      refine ⟨[], ?_, rfl, ?_⟩
      · intro e he
        cases he
      · intro x hx
        cases hx
    | some pte2 =>
      by_cases hv : (alloc_kpages m).1 = 0
      · simp only [hv, if_true]
        refine ⟨[], ?_, ?_, ?_⟩
        · intro e he
          cases he
        · simp only [List.append_nil, Option.map_some']
        · intro x hx
          cases hx
          rfl
      · simp only [hv, if_false]
        refine ⟨[vm_event.store_pte3 (PG_IDX0 paddr) (PG_IDX1 paddr) (PG_IDX2 paddr)
          ((KVADDR_TO_PADDR (alloc_kpages m).1 &&& PAGE_FRAME) ||| GET_DIRTY_BIT perm
            ||| GET_VALID_BIT perm)], ?_, rfl, ?_⟩
        · intro e he
          simp only [List.mem_singleton] at he
          subst he
          rfl
        · intro x hx
          cases hx
          simp only [List.foldl, pt_apply, h1, h2]

theorem vm_fault_tlb_traced_eq (m : Machine) (pgtable : pgtable_t)
    (faultaddress paddr : Nat) (trace : List vm_event) :
    vm_fault_tlb_traced m pgtable faultaddress paddr trace
        = (vm_fault_tlb m pgtable faultaddress paddr).map
            (fun x => (x.1, x.2.1, x.2.2,
              trace ++ fault_tlb_events faultaddress paddr x.1 x.2.2)) ∧
      ∀ x, vm_fault_tlb m pgtable faultaddress paddr = some x → x.2.2 = pgtable := by
  unfold vm_fault_tlb_traced vm_fault_tlb
  cases h : pt_leaf pgtable (PG_IDX0 paddr) (PG_IDX1 paddr) (PG_IDX2 paddr) with
  | none =>
    refine ⟨rfl, ?_⟩
    intro x hx
    cases hx
  | some entry_lo =>
    simp only [Option.map_some', fault_tlb_events, if_true, leaf_word_of_pt_leaf _ _ _ _ _ h]
    refine ⟨trivial, ?_⟩
    intro x hx
    cases hx
    rfl

theorem vm_fault_pte3_traced_eq (m : Machine) (as : addrspace) (pgtable : pgtable_t)
    (faultaddress paddr f1 : Nat) (p1 : Option pte1_t) (f2 : Nat) (p2 : Option pte2_t)
    (trace : List vm_event) :
    ∃ st, (∀ e ∈ st, is_pt_store e = true) ∧
      vm_fault_pte3_traced m as pgtable faultaddress paddr f1 p1 f2 p2 trace
        = (vm_fault_pte3 m as pgtable faultaddress paddr f1 p1 f2 p2).map
            (fun x => (x.1, x.2.1, x.2.2,
              trace ++ st ++ fault_tlb_events faultaddress paddr x.1 x.2.2)) ∧
      ∀ x, vm_fault_pte3 m as pgtable faultaddress paddr f1 p1 f2 p2 = some x →
        st.foldl pt_apply pgtable = x.2.2 := by
  have hE : EFAULT ≠ 0 := by decide
  unfold vm_fault_pte3_traced vm_fault_pte3
  cases hleaf : pt_leaf pgtable (PG_IDX0 paddr) (PG_IDX1 paddr) (PG_IDX2 paddr) with
  | none =>
    refine ⟨[], ?_, rfl, ?_⟩
    · intro e he
      cases he
    · intro x hx
      cases hx
  | some pte3 =>
    dsimp only
    by_cases h0 : pte3 = 0
    · rw [if_pos h0, if_pos h0]
      cases hs : search_region as faultaddress 0 with
      | none =>
        dsimp only
        refine ⟨[], ?_, ?_, ?_⟩
        · intro e he
          cases he
        · simp only [Option.map_some', fault_tlb_events, if_neg hE, List.append_nil]
        · intro x hx
          cases hx
          rfl
      | some r =>
        dsimp only
        obtain ⟨st3, hst3, heq3, hrep3⟩ :=
          vm_allocpte3_traced_eq m pgtable paddr r.cur_perm trace
        rw [heq3]
        cases hv : vm_allocpte3 m pgtable paddr r.cur_perm with
        | none =>
          refine ⟨[], ?_, rfl, ?_⟩
          · intro e he
            cases he
          · intro x hx
            cases hx
        | some y =>
          obtain ⟨result, m1, pgtable1⟩ := y
          have hr : st3.foldl pt_apply pgtable = pgtable1 := hrep3 _ hv
          simp only [Option.map_some']
          by_cases hres : result ≠ 0
          · rw [if_pos hres, if_pos hres]
            refine ⟨st3, hst3, ?_, ?_⟩
            · simp only [Option.map_some', fault_tlb_events, if_neg hres, List.append_nil]
            · intro x hx
              cases hx
              exact hr
          · rw [if_neg hres, if_neg hres]
            obtain ⟨htlb, hsame⟩ :=
              vm_fault_tlb_traced_eq m1 pgtable1 faultaddress paddr (trace ++ st3)
            rw [htlb]
            refine ⟨st3, hst3, rfl, ?_⟩
            intro x hx
            rw [hsame x hx]
            exact hr
    · rw [if_neg h0, if_neg h0]
      obtain ⟨htlb, hsame⟩ := vm_fault_tlb_traced_eq m pgtable faultaddress paddr trace
      rw [htlb]
      refine ⟨[], ?_, ?_, ?_⟩
      · intro e he
        cases he
      · simp only [List.append_nil]
      · intro x hx
        exact (hsame x hx).symm

theorem vm_fault_pte2_traced_eq (m : Machine) (as : addrspace) (pgtable : pgtable_t)
    (faultaddress paddr f1 : Nat) (p1 : Option pte1_t) (trace : List vm_event) :
    ∃ st, (∀ e ∈ st, is_pt_store e = true) ∧
      vm_fault_pte2_traced m as pgtable faultaddress paddr f1 p1 trace
        = (vm_fault_pte2 m as pgtable faultaddress paddr f1 p1).map
            (fun x => (x.1, x.2.1, x.2.2,
              trace ++ st ++ fault_tlb_events faultaddress paddr x.1 x.2.2)) ∧
      ∀ x, vm_fault_pte2 m as pgtable faultaddress paddr f1 p1 = some x →
        st.foldl pt_apply pgtable = x.2.2 := by
  unfold vm_fault_pte2_traced vm_fault_pte2
  cases hn : pgtable.getD (PG_IDX0 paddr) none with
  | none =>
    refine ⟨[], ?_, rfl, ?_⟩
    · intro e he
      cases he
    · intro x hx
      cases hx
  | some node1 =>
    dsimp only
    by_cases h2 : node1.getD (PG_IDX1 paddr) none = none
    · rw [if_pos h2, if_pos h2]
      obtain ⟨st2, hst2, heq2, hrep2⟩ := vm_allocpte2_traced_eq m pgtable paddr trace
      rw [heq2]
      cases hv : vm_allocpte2 m pgtable paddr with
      | none =>
        refine ⟨[], ?_, rfl, ?_⟩
        · intro e he
          cases he
        · intro x hx
          cases hx
      | some y =>
        obtain ⟨result, m1, pgtable1⟩ := y
        have hr : st2.foldl pt_apply pgtable = pgtable1 := hrep2 _ hv
        simp only [Option.map_some']
        by_cases hres : result ≠ 0
        · rw [if_pos hres, if_pos hres]
          refine ⟨st2, hst2, ?_, ?_⟩
          · simp only [Option.map_some', fault_tlb_events, if_neg hres, List.append_nil]
          · intro x hx
            cases hx
            exact hr
        · rw [if_neg hres, if_neg hres]
          obtain ⟨st3, hst3, heq3, hrep3⟩ :=
            vm_fault_pte3_traced_eq m1 as pgtable1 faultaddress paddr f1 p1 1
              (node1.getD (PG_IDX1 paddr) none) (trace ++ st2)
          rw [heq3]
          refine ⟨st2 ++ st3, ?_, ?_, ?_⟩
          · intro e he
            rcases List.mem_append.mp he with h | h
            · exact hst2 e h
            · exact hst3 e h
          · simp only [List.append_assoc]
          · intro x hx
            rw [List.foldl_append, hr]
            exact hrep3 x hx
    · rw [if_neg h2, if_neg h2]
      exact vm_fault_pte3_traced_eq m as pgtable faultaddress paddr f1 p1 0
        (node1.getD (PG_IDX1 paddr) none) trace

theorem vm_fault_walk_traced_eq (m : Machine) (as : addrspace) (pgtable : pgtable_t)
    (faultaddress : Nat) (trace : List vm_event) :
    ∃ st, (∀ e ∈ st, is_pt_store e = true) ∧
      vm_fault_walk_traced m as pgtable faultaddress trace
        = (vm_fault_walk m as pgtable faultaddress).map
            (fun x => (x.1, x.2.1, x.2.2,
              trace ++ st ++
                fault_tlb_events faultaddress (KVADDR_TO_PADDR faultaddress) x.1 x.2.2)) ∧
      ∀ x, vm_fault_walk m as pgtable faultaddress = some x →
        st.foldl pt_apply pgtable = x.2.2 := by
  unfold vm_fault_walk_traced vm_fault_walk
  dsimp only
  generalize KVADDR_TO_PADDR faultaddress = paddr
  by_cases h1 : pgtable.getD (PG_IDX0 paddr) none = none
  · rw [if_pos h1, if_pos h1]
    obtain ⟨node, heq1, hap1⟩ := vm_allocpte1_traced_eq m pgtable paddr trace
    rw [heq1]
    dsimp only
    by_cases hres : (vm_allocpte1 m pgtable paddr).1 ≠ 0
    · rw [if_pos hres, if_pos hres]
      refine ⟨[vm_event.store_pte1 (PG_IDX0 paddr) node], ?_, ?_, ?_⟩
      · intro e he
        simp only [List.mem_singleton] at he
        subst he
        rfl
      · simp only [Option.map_some', fault_tlb_events, if_neg hres, List.append_nil]
      · intro x hx
        cases hx
        exact hap1
    · rw [if_neg hres, if_neg hres]
      obtain ⟨st2, hst2, heq2, hrep2⟩ :=
        vm_fault_pte2_traced_eq (vm_allocpte1 m pgtable paddr).2.1 as
          (vm_allocpte1 m pgtable paddr).2.2 faultaddress paddr 1
          (pgtable.getD (PG_IDX0 paddr) none)
          (trace ++ [vm_event.store_pte1 (PG_IDX0 paddr) node])
      rw [heq2]
      refine ⟨vm_event.store_pte1 (PG_IDX0 paddr) node :: st2, ?_, ?_, ?_⟩
      · intro e he
        rcases List.mem_cons.mp he with h | h
        · subst h
          rfl
        · exact hst2 e h
      · simp only [List.append_assoc, List.singleton_append]
      · intro x hx
        rw [List.foldl_cons, hap1]
        exact hrep2 x hx
  · rw [if_neg h1, if_neg h1]
    exact vm_fault_pte2_traced_eq m as pgtable faultaddress paddr 0
      (pgtable.getD (PG_IDX0 paddr) none) trace

/-- Dropping the events of `vm_fault_traced` gives `vm_fault`. -/
theorem vm_fault_traced_erase (m : Machine) (curproc : Option proc) (faulttype : Int)
    (a : Nat) :
    (vm_fault_traced m curproc faulttype a).map (fun x => (x.1, x.2.1, x.2.2.1))
      = vm_fault m curproc faulttype a := by
  unfold vm_fault_traced vm_fault
  cases curproc with
  | none => rfl
  | some p =>
    dsimp only
    cases hg : proc_getas (some p) with
    | none => rfl
    | some as =>
      dsimp only
      by_cases hr : as.regions = []
      · rw [if_pos hr, if_pos hr]
        rfl
      · rw [if_neg hr, if_neg hr]
        cases hpt : as.pgtable with
        | none => rfl
        | some pgtable =>
          dsimp only
          by_cases hft : faulttype = VM_FAULT_READ ∨ faulttype = VM_FAULT_WRITE
          · rw [if_pos hft, if_pos hft]
            obtain ⟨st, _, heq, _⟩ := vm_fault_walk_traced_eq m as pgtable a []
            rw [heq]
            cases vm_fault_walk m as pgtable a with
            | none => rfl
            | some x => rfl
          · rw [if_neg hft, if_neg hft]
            by_cases hro : faulttype = VM_FAULT_READONLY
            · rw [if_pos hro, if_pos hro]
              rfl
            · rw [if_neg hro, if_neg hro]
              rfl

/-- A call of `vm_fault` that stops at a sanity check or at the fault type makes no
event; otherwise its events are those of the walk. -/
theorem vm_fault_traced_inv (m : Machine) (curproc : Option proc) (faulttype : Int) (a : Nat)
    (result : Nat) (m1 : Machine) (curproc1 : Option proc)
    (h : vm_fault m curproc faulttype a = some (result, m1, curproc1)) :
    (result ≠ 0 ∧ m1 = m ∧ curproc1 = curproc ∧
      vm_fault_traced m curproc faulttype a = some (result, m, curproc, [])) ∨
    (∃ p as pgtable pgtable1, curproc = some p ∧ p.p_addrspace = some as ∧
      as.pgtable = some pgtable ∧
      vm_fault_walk m as pgtable a = some (result, m1, pgtable1) ∧
      curproc1 = some { p with p_addrspace := some { as with pgtable := some pgtable1 } } ∧
      vm_fault_traced m curproc faulttype a
        = (vm_fault_walk_traced m as pgtable a []).map
            (fun y => (y.1, y.2.1,
              some { p with p_addrspace := some { as with pgtable := some y.2.2.1 } },
              y.2.2.2))) := by
  have stop : ∀ code : Nat, code ≠ 0 →
      some (code, m, curproc) = some (result, m1, curproc1) →
      vm_fault_traced m curproc faulttype a = some (code, m, curproc, []) →
      (result ≠ 0 ∧ m1 = m ∧ curproc1 = curproc ∧
        vm_fault_traced m curproc faulttype a = some (result, m, curproc, [])) := by
    intro code hc he ht
    simp only [Option.some.injEq, Prod.mk.injEq] at he
    refine ⟨by rw [← he.1]; exact hc, he.2.1.symm, he.2.2.symm, ?_⟩
    rw [ht, he.1]
  unfold vm_fault at h
  cases curproc with
  | none => exact Or.inl (stop EFAULT (by decide) h rfl)
  | some p =>
    simp only at h
    cases hg : proc_getas (some p) with
    | none =>
      rw [hg] at h
      refine Or.inl (stop EFAULT (by decide) h ?_)
      unfold vm_fault_traced
      simp only [hg]
    | some as =>
      rw [hg] at h
      simp only at h
      by_cases hr : as.regions = []
      · rw [if_pos hr] at h
        refine Or.inl (stop EFAULT (by decide) h ?_)
        unfold vm_fault_traced
        simp only [hg, hr, if_true]
      · rw [if_neg hr] at h
        cases hpt : as.pgtable with
        | none =>
          rw [hpt] at h
          refine Or.inl (stop EFAULT (by decide) h ?_)
          unfold vm_fault_traced
          simp only [hg, hr, hpt, if_false]
        | some pgtable =>
          rw [hpt] at h
          simp only at h
          by_cases hft : faulttype = VM_FAULT_READ ∨ faulttype = VM_FAULT_WRITE
          · rw [if_pos hft] at h
            cases hw : vm_fault_walk m as pgtable a with
            | none => rw [hw] at h; cases h
            | some x =>
              obtain ⟨res, m2, pgtable1⟩ := x
              rw [hw] at h
              simp only [Option.some.injEq, Prod.mk.injEq] at h
              obtain ⟨h0, hm, hc⟩ := h
              subst h0
              subst hm
              refine Or.inr ⟨p, as, pgtable, pgtable1, rfl, hg, hpt, hw, hc.symm, ?_⟩
              unfold vm_fault_traced
              simp only [hg, hr, hpt, if_false]
              rw [if_pos hft]
              cases vm_fault_walk_traced m as pgtable a [] with
              | none => rfl
              | some y => rfl
          · rw [if_neg hft] at h
            by_cases hro : faulttype = VM_FAULT_READONLY
            · rw [if_pos hro] at h
              refine Or.inl (stop EFAULT (by decide) h ?_)
              unfold vm_fault_traced
              simp only [hg, hr, hpt, if_false]
              rw [if_neg hft, if_pos hro]
            · rw [if_neg hro] at h
              refine Or.inl (stop EINVAL (by decide) h ?_)
              unfold vm_fault_traced
              simp only [hg, hr, hpt, if_false]
              rw [if_neg hft, if_neg hro]

/-- C19: a `vm_fault(type, a)` that returns 0 performs exactly one TLB write, a
`tlb_random` with `entry_hi = a & PAGE_FRAME` and `entry_lo` the word that the leaf used
for `a` holds in the page table the call returns, and performs it after all its
page-table writes: the events of the call, in execution order, are a list `stores` of
stores into the page table followed by that one TLB write, and replaying `stores` on the
page table of before the call gives the page table that the call returns.  A `vm_fault`
that returns an error performs no TLB write: its events are stores only and the TLB
log is as before. -/
theorem vm_fault_tlb_write (m : Machine) (curproc : Option proc) (faulttype : Int)
    (a result : Nat) (m1 : Machine) (curproc1 : Option proc) (ha : a < 2 ^ 32)
    (hwf : ∀ pgtable, curproc_pgtable curproc = some pgtable → pgtable_wf pgtable = true)
    (h : vm_fault m curproc faulttype a = some (result, m1, curproc1)) :
    ∃ stores, (∀ e ∈ stores, is_pt_store e = true) ∧
      (∀ pgtable, curproc_pgtable curproc = some pgtable →
        curproc_pgtable curproc1 = some (stores.foldl pt_apply pgtable)) ∧
      (result = 0 → ∃ pgtable1, curproc_pgtable curproc1 = some pgtable1 ∧
        m1.tlb_log
          = m.tlb_log ++ [tlb_event.random (a &&& PAGE_FRAME) (fault_leaf pgtable1 a)] ∧
        vm_fault_traced m curproc faulttype a
          = some (0, m1, curproc1, stores ++
              [vm_event.tlb (tlb_event.random (a &&& PAGE_FRAME) (fault_leaf pgtable1 a))])) ∧
      (result ≠ 0 → m1.tlb_log = m.tlb_log ∧
        vm_fault_traced m curproc faulttype a = some (result, m1, curproc1, stores)) := by
  rcases vm_fault_traced_inv _ _ _ _ _ _ _ h with ⟨hne, hm, hc, ht⟩ |
    ⟨p, as, pgtable, pgtable1, hc, hp, hpt, hw, hc1, ht⟩
  · refine ⟨[], ?_, ?_, fun h0 => absurd h0 hne, fun _ => ⟨by rw [hm], ?_⟩⟩
    · intro e he
      cases he
    · intro pgtable hq
      rw [hc, hq]
      rfl
    · rw [ht, hm, hc]
  · have hcp : curproc_pgtable curproc = some pgtable := by
      rw [hc]
      unfold curproc_pgtable proc_getas
      simp only [hp, hpt]
    have hcp1 : curproc_pgtable curproc1 = some pgtable1 := by
      rw [hc1]
      rfl
    have hwf1 : pgtable_wf pgtable = true := hwf pgtable hcp
    have hu : u32 a = a := Nat.mod_eq_of_lt ha
    obtain ⟨st, hst, heq, hrep⟩ := vm_fault_walk_traced_eq m as pgtable a []
    have hrep1 : st.foldl pt_apply pgtable = pgtable1 := hrep _ hw
    rw [heq, hw] at ht
    simp only [Option.map_some', List.nil_append] at ht
    refine ⟨st, hst, ?_, ?_, ?_⟩
    · intro pgtable0 hq
      rw [hcp] at hq
      cases hq
      rw [hcp1, hrep1]
    · intro h0
      subst h0
      obtain ⟨e, he1, he2, _, _, _⟩ := vm_fault_walk_ok _ _ _ _ _ _ hwf1 hw
      refine ⟨pgtable1, hcp1, ?_, ?_⟩
      · rw [hu] at he2
        rw [he2]
        unfold fault_leaf
        rw [leaf_word_of_pt_leaf _ _ _ _ _ he1]
      · rw [ht, hc1]
        simp only [fault_tlb_events, if_true, hu, fault_leaf]
    · intro hne
      refine ⟨vm_fault_walk_err _ _ _ _ _ _ _ hne hw, ?_⟩
      rw [ht, hc1]
      simp only [fault_tlb_events, if_neg hne, List.append_nil]

/-- C19 witness: the READ fault at `0x00401500` on `text_as`, which returns 0, and the
READ fault at `0x00500000`, which returns EFAULT. -/
theorem vm_fault_tlb_write_witness :
    (∃ stores pgtable1, (∀ e ∈ stores, is_pt_store e = true) ∧
      stores.foldl pt_apply empty_pgtable = pgtable1 ∧
      curproc_pgtable
          (some ⟨some { text_as with pgtable := some (text_pgtable 0x00050200) }⟩)
        = some pgtable1 ∧
      ({ machine0 with
          kmalloc_results := List.replicate 14 true
          alloc_kpages_results := [0x80051000]
          tlb_log := [tlb_event.random 0x00401000 0x00050200] } : Machine).tlb_log
        = machine0.tlb_log
          ++ [tlb_event.random (0x00401500 &&& PAGE_FRAME) (fault_leaf pgtable1 0x00401500)] ∧
      vm_fault_traced machine0 (some ⟨some text_as⟩) VM_FAULT_READ 0x00401500
        = some (0,
            { machine0 with
              kmalloc_results := List.replicate 14 true
              alloc_kpages_results := [0x80051000]
              tlb_log := [tlb_event.random 0x00401000 0x00050200] },
            some ⟨some { text_as with pgtable := some (text_pgtable 0x00050200) }⟩,
            stores ++ [vm_event.tlb (tlb_event.random (0x00401500 &&& PAGE_FRAME)
              (fault_leaf pgtable1 0x00401500))])) ∧
    (vm_fault machine0 (some ⟨some text_as⟩) VM_FAULT_READ 0x00500000).map
        (fun x => x.2.1.tlb_log) = some machine0.tlb_log ∧
    (vm_fault_traced machine0 (some ⟨some text_as⟩) VM_FAULT_READ 0x00500000).map
        (fun x => (x.1, x.2.2.2.all is_pt_store)) = some (EFAULT, true) := by
  constructor
  · obtain ⟨stores, hst, hrep, h0, _⟩ :=
      vm_fault_tlb_write machine0 (some ⟨some text_as⟩) VM_FAULT_READ 0x00401500 0
        { machine0 with
          kmalloc_results := List.replicate 14 true
          alloc_kpages_results := [0x80051000]
          tlb_log := [tlb_event.random 0x00401000 0x00050200] }
        (some ⟨some { text_as with pgtable := some (text_pgtable 0x00050200) }⟩)
        (by decide) (fun pgtable hq => by cases hq; decide) (by decide)
    obtain ⟨pgtable1, hp1, hlog, htr⟩ := h0 rfl
    have hrep1 := hrep empty_pgtable rfl
    rw [hp1] at hrep1
    exact ⟨stores, pgtable1, hst, (Option.some.inj hrep1).symm, hp1, hlog, htr⟩
  · cases hv : vm_fault machine0 (some ⟨some text_as⟩) VM_FAULT_READ 0x00500000 with
    | none => exact absurd hv (by decide)
    | some x =>
      obtain ⟨result, m1, curproc1⟩ := x
      have hE : result = EFAULT := by
        have : (vm_fault machine0 (some ⟨some text_as⟩) VM_FAULT_READ 0x00500000).map
            (fun x => x.1) = some EFAULT := by decide
        rw [hv] at this
        simp only [Option.map_some', Option.some.injEq] at this
        exact this
      have hres : result ≠ 0 := by
        rw [hE]
        decide
      obtain ⟨stores, hst, _, _, herr⟩ :=
        vm_fault_tlb_write machine0 (some ⟨some text_as⟩) VM_FAULT_READ 0x00500000
          result m1 curproc1 (by decide) (fun pgtable hq => by cases hq; decide) hv
      obtain ⟨hlog, htr⟩ := herr hres
      rw [htr]
      simp only [Option.map_some', hlog, hE, true_and, Option.some.injEq, Prod.mk.injEq,
        List.all_eq_true]
      exact hst

/-- The events of the READ fault at `0x00401500` on `text_as`, and of the READ fault at
`0x00500000`, which returns EFAULT after two stores. -/
theorem vm_fault_traced_text_as :
    (vm_fault_traced machine0 (some ⟨some text_as⟩) VM_FAULT_READ 0x00401500).map
        (fun x => (x.1, x.2.2.2))
      = some (0, [vm_event.store_pte1 0x80 (some (List.replicate PG_SIZE_1 none)),
          vm_event.store_pte2 0x80 16 (some (List.replicate PG_SIZE_2 0)),
          vm_event.store_pte3 0x80 16 1 0x00050200,
          vm_event.tlb (tlb_event.random 0x00401000 0x00050200)]) ∧
    (vm_fault_traced machine0 (some ⟨some text_as⟩) VM_FAULT_READ 0x00500000).map
        (fun x => (x.1, x.2.2.2))
      = some (EFAULT, [vm_event.store_pte1 0x80 (some (List.replicate PG_SIZE_1 none)),
          vm_event.store_pte2 0x80 20 (some (List.replicate PG_SIZE_2 0))]) ∧
    (vm_fault_traced machine0 (some ⟨some loaded_text_as⟩) VM_FAULT_WRITE 0x00401500).map
        (fun x => (x.1, x.2.2.2))
      = some (0, [vm_event.tlb (tlb_event.random 0x00401000 0x00050600)]) := by
  decide

/-! ## The fault handler: a populated leaf (C20) -/

theorem fault_leaf_same_page (pgtable : pgtable_t) (a b : Nat) (ha : a < 2 ^ 32)
    (hb : b < 2 ^ 32) (hab : a / 2 ^ 12 = b / 2 ^ 12) :
    fault_leaf pgtable a = fault_leaf pgtable b := by
  unfold fault_leaf
  rw [PG_IDX0_KVADDR a ha, PG_IDX1_KVADDR a ha, PG_IDX2_KVADDR a ha, PG_IDX0_KVADDR b hb,
    PG_IDX1_KVADDR b hb, PG_IDX2_KVADDR b hb]
  have e0 : a / 2 ^ 24 = b / 2 ^ 24 := by omega
  have e1 : a / 2 ^ 18 = b / 2 ^ 18 := by omega
  rw [e0, e1, hab]

/-- C20 (amended): in an address space with a non-empty region list, a READ or WRITE
`vm_fault` at an address `a` whose leaf is already non-zero returns 0, consumes no
`kmalloc` and no `alloc_kpages` outcome, adds one TLB write, and returns the current
process with its page table exactly as it was; hence any further READ or WRITE fault
on the same page does the same and leaves the page table as the first one left it. -/
theorem vm_fault_on_populated_leaf (m : Machine) (as : addrspace) (pgtable : pgtable_t)
    (faulttype : Int) (a : Nat)
    (hr : as.regions ≠ []) (hpt : as.pgtable = some pgtable)
    (hft : faulttype = VM_FAULT_READ ∨ faulttype = VM_FAULT_WRITE)
    (hl : fault_leaf pgtable a ≠ 0) :
    vm_fault m (some ⟨some as⟩) faulttype a
      = some (0, tlb_random m (u32 a &&& PAGE_FRAME) (fault_leaf pgtable a),
          some ⟨some as⟩) ∧
    (tlb_random m (u32 a &&& PAGE_FRAME) (fault_leaf pgtable a)).kmalloc_results
      = m.kmalloc_results ∧
    (tlb_random m (u32 a &&& PAGE_FRAME) (fault_leaf pgtable a)).alloc_kpages_results
      = m.alloc_kpages_results ∧
    ∀ (m2 : Machine) (faulttype2 : Int) (a2 : Nat),
      (faulttype2 = VM_FAULT_READ ∨ faulttype2 = VM_FAULT_WRITE) →
      a < 2 ^ 32 → a2 < 2 ^ 32 → a2 / 2 ^ 12 = a / 2 ^ 12 →
      ∃ m3, vm_fault m2 (some ⟨some as⟩) faulttype2 a2 = some (0, m3, some ⟨some as⟩) := by
  have key : ∀ (m0 : Machine) (ft : Int) (b : Nat),
      (ft = VM_FAULT_READ ∨ ft = VM_FAULT_WRITE) → fault_leaf pgtable b ≠ 0 →
      vm_fault m0 (some ⟨some as⟩) ft b
        = some (0, tlb_random m0 (u32 b &&& PAGE_FRAME) (fault_leaf pgtable b),
            some ⟨some as⟩) := by
    intro m0 ft b hft0 hl0
    unfold vm_fault
    simp only [proc_getas, hr, hpt, hft0, if_true, if_false]
    rw [vm_fault_walk_populated _ _ _ _ hl0]
    simp only [Option.some.injEq, Prod.mk.injEq, true_and]
    cases as with
    | mk regions pt =>
      simp only at hpt
      rw [hpt]
  refine ⟨key m faulttype a hft hl, rfl, rfl, ?_⟩
  intro m2 ft2 a2 hft2 ha ha2 hpage
  have hl2 : fault_leaf pgtable a2 ≠ 0 := by
    rw [fault_leaf_same_page pgtable a2 a ha2 ha hpage]
    exact hl
  exact ⟨_, key m2 ft2 a2 hft2 hl2⟩

/-- C20 witness: a WRITE fault at `0x00401500` on `loaded_text_as`, and a further READ
fault at `0x00401ffc` on the same page. -/
theorem vm_fault_on_populated_leaf_witness :
    vm_fault machine0 (some ⟨some loaded_text_as⟩) VM_FAULT_WRITE 0x00401500
      = some (0, tlb_random machine0 (u32 0x00401500 &&& PAGE_FRAME)
            (fault_leaf (text_pgtable 0x00050600) 0x00401500),
          some ⟨some loaded_text_as⟩) ∧
    (∃ m3, vm_fault machine0 (some ⟨some loaded_text_as⟩) VM_FAULT_READ 0x00401ffc
      = some (0, m3, some ⟨some loaded_text_as⟩)) :=
  ⟨(vm_fault_on_populated_leaf machine0 loaded_text_as (text_pgtable 0x00050600) VM_FAULT_WRITE
      0x00401500 (by decide) rfl (Or.inr rfl) (by decide)).1,
   (vm_fault_on_populated_leaf machine0 loaded_text_as (text_pgtable 0x00050600) VM_FAULT_WRITE
      0x00401500 (by decide) rfl (Or.inr rfl) (by decide)).2.2.2 machine0 VM_FAULT_READ
      0x00401ffc (Or.inl rfl) (by decide) (by decide) (by decide)⟩

/-- C20 counterexample: the leaf used for `0x00401500` is non-zero in `regionless_as`,
whose region list is empty, and a READ fault there returns EFAULT, not 0. -/
theorem vm_fault_populated_without_regions :
    (regionless_as.pgtable.map (fun pt => fault_leaf pt 0x00401500)) = some 0x00050600 ∧
    vm_fault machine0 (some ⟨some regionless_as⟩) VM_FAULT_READ 0x00401500
      = some (EFAULT, machine0, some ⟨some regionless_as⟩) := by
  decide

/-! ## The fault handler: the value of a fresh leaf (C18) -/

theorem GET_DIRTY_BIT_eq (perm : Nat) :
    GET_DIRTY_BIT perm = if perm &&& R_WR ≠ 0 then TLBLO_DIRTY else 0 := by
  have h : perm &&& 2 = 0 ∨ perm &&& 2 = 2 := and_bit_cases perm 1
  unfold GET_DIRTY_BIT TLBLO_DIRTY R_WR
  rcases h with h | h <;> simp only [h] <;> decide

theorem GET_VALID_BIT_eq (perm : Nat) :
    GET_VALID_BIT perm = if perm &&& (R_RD ||| R_EX) ≠ 0 then TLBLO_VALID else 0 := by
  have h4 : perm &&& 4 = 0 ∨ perm &&& 4 = 4 := and_bit_cases perm 2
  have h1 : perm &&& 1 = 0 ∨ perm &&& 1 = 1 := and_bit_cases perm 0
  unfold GET_VALID_BIT TLBLO_VALID R_RD R_EX
  rw [Nat.and_or_distrib_left]
  rcases h4 with h4 | h4 <;> rcases h1 with h1 | h1 <;> simp only [h4, h1] <;> decide

theorem or_and_mask (x d v mask : Nat) :
    (x ||| d ||| v) &&& mask = (x &&& mask) ||| (d &&& mask) ||| (v &&& mask) := by
  rw [Nat.and_comm, Nat.and_or_distrib_left, Nat.and_or_distrib_left, Nat.and_comm mask x,
    Nat.and_comm mask d, Nat.and_comm mask v]

theorem fault_entry_low_bits (vaddr perm : Nat) :
    fault_entry vaddr perm &&& TLBLO_NOCACHE = 0 ∧ fault_entry vaddr perm &&& 0x1ff = 0 := by
  have hpf1 : PAGE_FRAME &&& TLBLO_NOCACHE = 0 := by decide
  have hpf2 : PAGE_FRAME &&& 0x1ff = 0 := by decide
  unfold fault_entry
  constructor
  · rw [or_and_mask, Nat.and_assoc, hpf1, Nat.and_zero]
    rcases GET_DIRTY_BIT_cases perm with hd | hd <;>
      rcases GET_VALID_BIT_cases perm with hv | hv <;> rw [hd, hv] <;> decide
  · rw [or_and_mask, Nat.and_assoc, hpf2, Nat.and_zero]
    rcases GET_DIRTY_BIT_cases perm with hd | hd <;>
      rcases GET_VALID_BIT_cases perm with hv | hv <;> rw [hd, hv] <;> decide

/-- Step 3 on an empty leaf goes through when a region is found and a frame is
returned. -/
theorem vm_fault_pte3_total (m : Machine) (as : addrspace) (pgtable : pgtable_t)
    (faultaddress paddr f1 : Nat) (p1 : Option pte1_t) (f2 : Nat) (p2 : Option pte2_t)
    (r : region)
    (hp : path_ok pgtable (PG_IDX0 paddr) (PG_IDX1 paddr) (PG_IDX2 paddr))
    (hl : pt_leaf pgtable (PG_IDX0 paddr) (PG_IDX1 paddr) (PG_IDX2 paddr) = some 0)
    (hs : search_region as faultaddress 0 = some r) (hv : (alloc_kpages m).1 ≠ 0) :
    ∃ m1 pgtable1,
      vm_fault_pte3 m as pgtable faultaddress paddr f1 p1 f2 p2 = some (0, m1, pgtable1) := by
  obtain ⟨pte1, pte2, h1, h2, _⟩ := (pt_leaf_eq_some _ _ _ _ _).1 hl
  obtain ⟨hi, hp1⟩ := hp
  obtain ⟨hj, hp2⟩ := hp1 pte1 h1
  have hk := hp2 pte2 h2
  unfold vm_fault_pte3
  rw [hl]
  simp only [if_true, hs, vm_allocpte3, h1, h2, hv, if_false, ne_eq, not_true_eq_false]
  rw [vm_fault_tlb_eq _ _ _ _ _ (pt_leaf_set _ _ _ _ _ _ _ hi hj hk)]
  exact ⟨_, _, rfl⟩

/-- Step 2 on an empty leaf goes through when a missing level-2 node can be
allocated, a region is found and a frame is returned. -/
theorem vm_fault_pte2_total (m : Machine) (as : addrspace) (pgtable : pgtable_t)
    (faultaddress paddr f1 : Nat) (p1 : Option pte1_t) (r : region) (node1 : pte1_t)
    (hp : path_ok pgtable (PG_IDX0 paddr) (PG_IDX1 paddr) (PG_IDX2 paddr))
    (h1 : pgtable.getD (PG_IDX0 paddr) none = some node1)
    (hzero : leaf_word pgtable (PG_IDX0 paddr) (PG_IDX1 paddr) (PG_IDX2 paddr) = 0)
    (hs : search_region as faultaddress 0 = some r) (hv : (alloc_kpages m).1 ≠ 0)
    (hk : (kmalloc m).1 = true) :
    ∃ m1 pgtable1,
      vm_fault_pte2 m as pgtable faultaddress paddr f1 p1 = some (0, m1, pgtable1) := by
  obtain ⟨hi, hp1⟩ := hp
  obtain ⟨hj, hp2⟩ := hp1 node1 h1
  unfold vm_fault_pte2
  rw [h1]
  simp only
  cases h2 : node1.getD (PG_IDX1 paddr) none with
  | none =>
    simp only [if_true, vm_allocpte2, h1, hk, Bool.true_eq_false, if_false, ne_eq,
      not_true_eq_false]
    refine vm_fault_pte3_total _ _ _ _ _ _ _ _ _ r ?_ ?_ hs ?_
    · refine ⟨by rw [List.length_set]; exact hi, ?_⟩
      intro pte1 e1
      rw [getD_set_self _ _ _ _ hi] at e1
      cases e1
      refine ⟨by rw [List.length_set]; exact hj, ?_⟩
      intro pte2 e2
      rw [getD_set_self _ _ _ _ hj] at e2
      cases e2
      rw [List.length_replicate]
      exact PG_IDX2_lt paddr
    · unfold pt_leaf
      rw [getD_set_self _ _ _ _ hi]
      simp only
      rw [getD_set_self _ _ _ _ hj]
      simp only
      rw [getD_replicate_self]
    · rw [kmalloc_alloc_kpages]
      exact hv
  | some node2 =>
    simp only [reduceCtorEq, if_false]
    have hl0 : pt_leaf pgtable (PG_IDX0 paddr) (PG_IDX1 paddr) (PG_IDX2 paddr) = some 0 := by
      unfold leaf_word pt_leaf at hzero
      rw [h1] at hzero
      simp only at hzero
      rw [h2] at hzero
      simp only [Option.getD_some] at hzero
      exact (pt_leaf_eq_some _ _ _ _ _).2 ⟨node1, node2, h1, h2, hzero⟩
    exact vm_fault_pte3_total _ _ _ _ _ _ _ _ _ r
      ⟨hi, fun pte1 e1 => by rw [h1] at e1; cases e1; exact ⟨hj, hp2⟩⟩ hl0 hs hv

/-- The walk on an empty leaf goes through when the missing nodes can be allocated, a
region is found and a frame is returned. -/
theorem vm_fault_walk_total (m : Machine) (as : addrspace) (pgtable : pgtable_t)
    (faultaddress : Nat) (r : region)
    (hwf : pgtable_wf pgtable = true) (hl : fault_leaf pgtable faultaddress = 0)
    (hs : search_region as faultaddress 0 = some r) (hv : (alloc_kpages m).1 ≠ 0)
    (hk1 : (kmalloc m).1 = true) (hk2 : (kmalloc (kmalloc m).2).1 = true) :
    ∃ m1 pgtable1, vm_fault_walk m as pgtable faultaddress = some (0, m1, pgtable1) := by
  have hp := pgtable_wf_path_ok pgtable _ _ _ hwf (PG_IDX0_lt (KVADDR_TO_PADDR faultaddress))
    (PG_IDX1_lt (KVADDR_TO_PADDR faultaddress)) (PG_IDX2_lt (KVADDR_TO_PADDR faultaddress))
  unfold fault_leaf at hl
  unfold vm_fault_walk
  simp only
  generalize KVADDR_TO_PADDR faultaddress = paddr at hl hp ⊢
  cases h1 : pgtable.getD (PG_IDX0 paddr) none with
  | none =>
    simp only [if_true, vm_allocpte1, hk1, Bool.true_eq_false, if_false, ne_eq,
      not_true_eq_false]
    refine vm_fault_pte2_total _ _ _ _ _ _ _ r (List.replicate PG_SIZE_1 none) ?_ ?_ ?_ hs ?_ hk2
    · refine ⟨by rw [List.length_set]; exact hp.1, ?_⟩
      intro pte1 e1
      rw [getD_set_self _ _ _ _ hp.1] at e1
      cases e1
      refine ⟨by rw [List.length_replicate]; exact PG_IDX1_lt _, ?_⟩
      intro pte2 e2
      rw [getD_replicate_self] at e2
      cases e2
    · exact getD_set_self _ _ _ _ hp.1
    · exact leaf_word_fresh_pte1 _ _ _ _ _ hp.1
    · rw [kmalloc_alloc_kpages]
      exact hv
  | some node1 =>
    simp only [reduceCtorEq, if_false]
    exact vm_fault_pte2_total _ _ _ _ _ _ _ r node1 hp h1 hl hs hv hk1

/-- C18: for a READ or WRITE fault at `a` whose leaf is empty and whose address the
point lookup finds in region `r`:
(a) whenever the call returns 0, `alloc_kpages(1)` returned a frame, at kernel address
`v` say, and the leaf is exactly
`(KVADDR_TO_PADDR(v) & PAGE_FRAME) | (DIRTY if r.cur_perm has WRITE) |
(VALID if r.cur_perm has READ or EXEC)`, with the NOCACHE bit and bits 8..0 zero;
(b) the call does the same for fault type READ and for fault type WRITE;
(c) the call does return 0 when `alloc_kpages(1)` returns a frame and the `kmalloc`
calls for the missing page-table nodes succeed. -/
theorem vm_fault_fresh_leaf_value (m : Machine) (as : addrspace) (pgtable : pgtable_t)
    (faulttype : Int) (a : Nat) (r : region)
    (hpt : as.pgtable = some pgtable) (hwf : pgtable_wf pgtable = true)
    (hft : faulttype = VM_FAULT_READ ∨ faulttype = VM_FAULT_WRITE)
    (hl : fault_leaf pgtable a = 0) (hs : search_region as a 0 = some r) :
    (∀ m1 curproc1, vm_fault m (some ⟨some as⟩) faulttype a = some (0, m1, curproc1) →
      ∃ pgtable1, curproc1 = some ⟨some { as with pgtable := some pgtable1 }⟩ ∧
        (alloc_kpages m).1 ≠ 0 ∧
        fault_leaf pgtable1 a
          = (KVADDR_TO_PADDR (alloc_kpages m).1 &&& PAGE_FRAME) |||
              (if r.cur_perm &&& R_WR ≠ 0 then TLBLO_DIRTY else 0) |||
              (if r.cur_perm &&& (R_RD ||| R_EX) ≠ 0 then TLBLO_VALID else 0) ∧
        fault_leaf pgtable1 a &&& TLBLO_NOCACHE = 0 ∧ fault_leaf pgtable1 a &&& 0x1ff = 0) ∧
    vm_fault m (some ⟨some as⟩) VM_FAULT_READ a
      = vm_fault m (some ⟨some as⟩) VM_FAULT_WRITE a ∧
    ((alloc_kpages m).1 ≠ 0 → (kmalloc m).1 = true → (kmalloc (kmalloc m).2).1 = true →
      ∃ m1 curproc1, vm_fault m (some ⟨some as⟩) faulttype a = some (0, m1, curproc1)) := by
  refine ⟨?_, ?_, ?_⟩
  · intro m1 curproc1 h
    rcases vm_fault_inv _ _ _ _ _ _ _ h with ⟨hne, _, _⟩ | ⟨p, as', pgtable', pgtable1, hc, hp,
      hpt', _, _, hw, hc1⟩
    · exact absurd rfl hne
    · cases hc
      simp only [Option.some.injEq] at hp
      subst hp
      rw [hpt] at hpt'
      cases hpt'
      obtain ⟨e, he1, _, _, he4, _⟩ := vm_fault_walk_ok _ _ _ _ _ _ hwf hw
      obtain ⟨r', hs', hv, he⟩ := he4 hl
      rw [hs] at hs'
      cases hs'
      have hleaf : fault_leaf pgtable1 a = fault_entry (alloc_kpages m).1 r.cur_perm := by
        unfold fault_leaf
        rw [leaf_word_of_pt_leaf _ _ _ _ _ he1, he]
      refine ⟨pgtable1, hc1, hv, ?_, ?_, ?_⟩
      · rw [hleaf]
        unfold fault_entry
        rw [GET_DIRTY_BIT_eq, GET_VALID_BIT_eq]
      · rw [hleaf]
        exact (fault_entry_low_bits _ _).1
      · rw [hleaf]
        exact (fault_entry_low_bits _ _).2
  · unfold vm_fault
    simp only [VM_FAULT_READ, VM_FAULT_WRITE, true_or, or_true, if_true]
  · intro hv hk1 hk2
    obtain ⟨m1, pgtable1, hw⟩ := vm_fault_walk_total m as pgtable a r hwf hl hs hv hk1 hk2
    have hreg : as.regions ≠ [] := by
      intro hnil
      unfold search_region at hs
      rw [hnil] at hs
      unfold search_region_from at hs
      cases hs
    unfold vm_fault
    simp only [proc_getas, hreg, hpt, hft, if_true, if_false, hw]
    exact ⟨_, _, rfl⟩

/-- C18 witness: the READ fault at `0x00401500` on `text_as` with the frame at
`0x80050000`: the leaf is `0x00050000 | VALID`. -/
theorem vm_fault_fresh_leaf_value_witness :
    (∃ pgtable1,
      (some ⟨some { text_as with pgtable := some (text_pgtable 0x00050200) }⟩ : Option proc)
        = some ⟨some { text_as with pgtable := some pgtable1 }⟩ ∧
      (alloc_kpages machine0).1 ≠ 0 ∧
      fault_leaf pgtable1 0x00401500
        = (KVADDR_TO_PADDR (alloc_kpages machine0).1 &&& PAGE_FRAME) |||
            (if (text_region 5 5).cur_perm &&& R_WR ≠ 0 then TLBLO_DIRTY else 0) |||
            (if (text_region 5 5).cur_perm &&& (R_RD ||| R_EX) ≠ 0 then TLBLO_VALID else 0) ∧
      fault_leaf pgtable1 0x00401500 &&& TLBLO_NOCACHE = 0 ∧
      fault_leaf pgtable1 0x00401500 &&& 0x1ff = 0) ∧
    vm_fault machine0 (some ⟨some text_as⟩) VM_FAULT_READ 0x00401500
      = vm_fault machine0 (some ⟨some text_as⟩) VM_FAULT_WRITE 0x00401500 ∧
    (∃ m1 curproc1,
      vm_fault machine0 (some ⟨some text_as⟩) VM_FAULT_READ 0x00401500
        = some (0, m1, curproc1)) :=
  ⟨(vm_fault_fresh_leaf_value machine0 text_as empty_pgtable VM_FAULT_READ 0x00401500
      (text_region 5 5) rfl (by decide) (Or.inl rfl) (by decide) (by decide)).1
      { machine0 with
        kmalloc_results := List.replicate 14 true
        alloc_kpages_results := [0x80051000]
        tlb_log := [tlb_event.random 0x00401000 0x00050200] }
      (some ⟨some { text_as with pgtable := some (text_pgtable 0x00050200) }⟩) (by decide),
   (vm_fault_fresh_leaf_value machine0 text_as empty_pgtable VM_FAULT_READ 0x00401500
      (text_region 5 5) rfl (by decide) (Or.inl rfl) (by decide) (by decide)).2.1,
   (vm_fault_fresh_leaf_value machine0 text_as empty_pgtable VM_FAULT_READ 0x00401500
      (text_region 5 5) rfl (by decide) (Or.inl rfl) (by decide) (by decide)).2.2
      (by decide) (by decide) (by decide)⟩

/-! ## Leaf flags and region permissions (C22) -/

theorem GET_WRITE_READ_cases (e : Nat) :
    (e &&& TLBLO_DIRTY = 0 ∨ e &&& TLBLO_DIRTY = TLBLO_DIRTY) ∧
      (e &&& TLBLO_VALID = 0 ∨ e &&& TLBLO_VALID = TLBLO_VALID) :=
  ⟨and_bit_cases e 10, and_bit_cases e 9⟩

theorem decode_encode_flags (e : Nat) :
    GET_DIRTY_BIT (GET_WRITE_BIT e ||| GET_READ_BIT e) = e &&& TLBLO_DIRTY ∧
      GET_VALID_BIT (GET_WRITE_BIT e ||| GET_READ_BIT e) = e &&& TLBLO_VALID := by
  obtain ⟨hd, hv⟩ := GET_WRITE_READ_cases e
  unfold GET_WRITE_BIT GET_READ_BIT
  rcases hd with hd | hd <;> rcases hv with hv | hv <;> rw [hd, hv] <;> decide

theorem encode_decode_perm (pfn p : Nat) :
    GET_WRITE_BIT ((pfn &&& PAGE_FRAME) ||| GET_DIRTY_BIT p ||| GET_VALID_BIT p) |||
        GET_READ_BIT ((pfn &&& PAGE_FRAME) ||| GET_DIRTY_BIT p ||| GET_VALID_BIT p)
      = (if p &&& R_WR ≠ 0 then R_WR else 0) |||
          (if p &&& (R_RD ||| R_EX) ≠ 0 then R_RD else 0) := by
  have h2 : p &&& 2 = 0 ∨ p &&& 2 = 2 := and_bit_cases p 1
  have h4 : p &&& 4 = 0 ∨ p &&& 4 = 4 := and_bit_cases p 2
  have h1 : p &&& 1 = 0 ∨ p &&& 1 = 1 := and_bit_cases p 0
  unfold GET_WRITE_BIT GET_READ_BIT
  rw [entry_and_DIRTY, entry_and_VALID]
  unfold GET_DIRTY_BIT GET_VALID_BIT TLBLO_DIRTY TLBLO_VALID R_WR R_RD R_EX
  rw [Nat.and_or_distrib_left]
  rcases h2 with h2 | h2 <;> rcases h4 with h4 | h4 <;> rcases h1 with h1 | h1 <;>
    simp only [h2, h4, h1] <;> decide

/-- C22: for every leaf word `e`, decoding its flags with
`perm = GET_WRITE_BIT(e) | GET_READ_BIT(e)` and encoding `perm` again gives the flags of
`e`: `GET_DIRTY_BIT(perm) = e & DIRTY` and `GET_VALID_BIT(perm) = e & VALID`; and for
every region permission `p` and frame `pfn`, the permission decoded from the entry
encoded from `p` has WRITE iff `p` has WRITE, READ iff `p` has READ or EXEC, and never
EXEC. -/
theorem flags_roundtrip (e pfn p : Nat) :
    GET_DIRTY_BIT (GET_WRITE_BIT e ||| GET_READ_BIT e) = e &&& TLBLO_DIRTY ∧
    GET_VALID_BIT (GET_WRITE_BIT e ||| GET_READ_BIT e) = e &&& TLBLO_VALID ∧
    ((GET_WRITE_BIT ((pfn &&& PAGE_FRAME) ||| GET_DIRTY_BIT p ||| GET_VALID_BIT p) |||
        GET_READ_BIT ((pfn &&& PAGE_FRAME) ||| GET_DIRTY_BIT p ||| GET_VALID_BIT p))
          &&& R_WR ≠ 0 ↔ p &&& R_WR ≠ 0) ∧
    ((GET_WRITE_BIT ((pfn &&& PAGE_FRAME) ||| GET_DIRTY_BIT p ||| GET_VALID_BIT p) |||
        GET_READ_BIT ((pfn &&& PAGE_FRAME) ||| GET_DIRTY_BIT p ||| GET_VALID_BIT p))
          &&& R_RD ≠ 0 ↔ p &&& (R_RD ||| R_EX) ≠ 0) ∧
    (GET_WRITE_BIT ((pfn &&& PAGE_FRAME) ||| GET_DIRTY_BIT p ||| GET_VALID_BIT p) |||
        GET_READ_BIT ((pfn &&& PAGE_FRAME) ||| GET_DIRTY_BIT p ||| GET_VALID_BIT p))
          &&& R_EX = 0 := by
  have h2 : p &&& 2 = 0 ∨ p &&& 2 = 2 := and_bit_cases p 1
  have h4 : p &&& 4 = 0 ∨ p &&& 4 = 4 := and_bit_cases p 2
  have h1 : p &&& 1 = 0 ∨ p &&& 1 = 1 := and_bit_cases p 0
  refine ⟨(decode_encode_flags e).1, (decode_encode_flags e).2, ?_, ?_, ?_⟩ <;>
    rw [encode_decode_perm] <;> unfold R_WR R_RD R_EX <;>
    rw [Nat.and_or_distrib_left] <;>
    rcases h2 with h2 | h2 <;> rcases h4 with h4 | h4 <;> rcases h1 with h1 | h1 <;>
    simp only [h2, h4, h1] <;> decide

/-! ## Two `as_prepare_load` calls (C25) -/

theorem as_prepare_load_regions (as : addrspace) (h : as.regions ≠ []) :
    (as_prepare_load as).1 = 0 ∧
      (as_prepare_load as).2.regions = as.regions.map
        (fun r => (⟨r.vaddr, r.memsize, R_RD ||| R_WR ||| R_EX, r.cur_perm⟩ : region)) := by
  unfold as_prepare_load
  simp only [h, if_false, and_self]

theorem as_complete_load_regions (m : Machine) (as : addrspace) (h : as.regions ≠ []) :
    (as_complete_load m as).1 = 0 ∧
      (as_complete_load m as).2.2.regions = as.regions.map
        (fun r => (⟨r.vaddr, r.memsize, r.old_perm, r.old_perm⟩ : region)) := by
  unfold as_complete_load
  simp only [h, if_false, and_self]

/-- C25: on a non-empty region list, two consecutive `as_prepare_load` calls return 0
and leave every region with `old_perm = READ|WRITE|EXEC`; the `as_complete_load` that
follows returns 0 and leaves every region with `cur_perm = READ|WRITE|EXEC`, whatever
the permissions of the regions were before the first call. -/
theorem as_prepare_load_twice (m : Machine) (as : addrspace) (h : as.regions ≠ []) :
    (as_prepare_load as).1 = 0 ∧
    (as_prepare_load (as_prepare_load as).2).1 = 0 ∧
    (∀ r ∈ (as_prepare_load (as_prepare_load as).2).2.regions,
      r.old_perm = R_RD ||| R_WR ||| R_EX) ∧
    (as_complete_load m (as_prepare_load (as_prepare_load as).2).2).1 = 0 ∧
    (∀ r ∈ (as_complete_load m (as_prepare_load (as_prepare_load as).2).2).2.2.regions,
      r.cur_perm = R_RD ||| R_WR ||| R_EX) ∧
    (as_complete_load m (as_prepare_load (as_prepare_load as).2).2).2.2.regions.length
      = as.regions.length := by
  obtain ⟨h1a, h1⟩ := as_prepare_load_regions as h
  have hne1 : (as_prepare_load as).2.regions ≠ [] := by
    rw [h1]
    simpa using h
  obtain ⟨h2a, h2⟩ := as_prepare_load_regions (as_prepare_load as).2 hne1
  have hne2 : (as_prepare_load (as_prepare_load as).2).2.regions ≠ [] := by
    rw [h2]
    simpa using hne1
  obtain ⟨h3a, h3⟩ := as_complete_load_regions m (as_prepare_load (as_prepare_load as).2).2 hne2
  refine ⟨h1a, h2a, ?_, h3a, ?_, ?_⟩
  · intro r hr
    rw [h2] at hr
    simp only [List.mem_map] at hr
    obtain ⟨x, hx, rfl⟩ := hr
    rw [h1] at hx
    simp only [List.mem_map] at hx
    obtain ⟨y, _, rfl⟩ := hx
    rfl
  · intro r hr
    rw [h3] at hr
    simp only [List.mem_map] at hr
    obtain ⟨x, hx, rfl⟩ := hr
    rw [h2] at hx
    simp only [List.mem_map] at hx
    obtain ⟨y, hy, rfl⟩ := hx
    rw [h1] at hy
    simp only [List.mem_map] at hy
    obtain ⟨z, _, rfl⟩ := hy
    rfl
  · rw [h3, List.length_map, h2, List.length_map, h1, List.length_map]

/-- C25 witness: the read-execute text segment of `text_as` ends with
`cur_perm = old_perm = 0b111`. -/
theorem as_prepare_load_twice_witness :
    (as_prepare_load text_as).1 = 0 ∧
    (as_prepare_load (as_prepare_load text_as).2).1 = 0 ∧
    (∀ r ∈ (as_prepare_load (as_prepare_load text_as).2).2.regions,
      r.old_perm = R_RD ||| R_WR ||| R_EX) ∧
    (as_complete_load machine0 (as_prepare_load (as_prepare_load text_as).2).2).1 = 0 ∧
    (∀ r ∈ (as_complete_load machine0
        (as_prepare_load (as_prepare_load text_as).2).2).2.2.regions,
      r.cur_perm = R_RD ||| R_WR ||| R_EX) ∧
    (as_complete_load machine0
        (as_prepare_load (as_prepare_load text_as).2).2).2.2.regions.length
      = text_as.regions.length :=
  as_prepare_load_twice machine0 text_as (by decide)

/-! ## `as_destroy` (C23) -/

theorem log_to_nil (m : Machine) : log_to m [] [] = m := by
  cases m
  simp [log_to]

theorem log_to_log_to (m : Machine) (f1 f2 : List Nat) (b1 b2 : List kblock) :
    log_to (log_to m f1 b1) f2 b2 = log_to m (f1 ++ f2) (b1 ++ b2) := by
  cases m
  simp [log_to]

theorem free_kpages_eq_log (m : Machine) (addr : Nat) : free_kpages m addr = log_to m [addr] [] := by
  cases m
  simp [log_to, free_kpages]

theorem kfree_some_eq_log (m : Machine) (b : kblock) : kfree m (some b) = log_to m [] [b] := by
  cases m
  simp [log_to, kfree]

theorem range_map_getD {α : Type} (l : List α) (d : α) :
    (List.range l.length).map (fun i => l.getD i d) = l := by
  apply List.ext_getElem
  · simp
  · intro n h1 h2
    simp only [List.getElem_map, List.getElem_range]
    exact List.getD_eq_getElem l d h2

theorem foldl_range_getD {α β : Type} (F : β → α → β) (l : List α) (d : α) (init : β)
    (n : Nat) (hn : l.length = n) :
    (List.range n).foldl (fun acc i => F acc (l.getD i d)) init = l.foldl F init := by
  subst hn
  rw [← List.foldl_map (fun i => l.getD i d) F, range_map_getD]

theorem as_destroy_pte2_fold (l : List Nat) (m : Machine) :
    l.foldl (fun acc e =>
        if e ≠ 0 then free_kpages acc (PADDR_TO_KVADDR (e &&& PAGE_FRAME)) else acc) m
      = log_to m ((pte2_leaves l).map (fun e => PADDR_TO_KVADDR (e &&& PAGE_FRAME))) [] := by
  induction l generalizing m with
  | nil => simp [pte2_leaves, log_to_nil]
  | cons e es ih =>
    rw [List.foldl_cons, ih]
    by_cases he : e ≠ 0
    · simp only [pte2_leaves, he, if_true, not_false_eq_true, List.map_cons, free_kpages_eq_log,
        log_to_log_to, List.singleton_append, List.append_nil, ne_eq]
    · simp only [pte2_leaves, he, if_false]

theorem as_destroy_pte2_eq (m : Machine) (pte2 : pte2_t) (h : pte2.length = PG_SIZE_2) :
    as_destroy_pte2 m pte2
      = log_to m ((pte2_leaves pte2).map (fun e => PADDR_TO_KVADDR (e &&& PAGE_FRAME))) [] := by
  unfold as_destroy_pte2
  rw [← as_destroy_pte2_fold]
  exact foldl_range_getD
    (fun acc e => if e ≠ 0 then free_kpages acc (PADDR_TO_KVADDR (e &&& PAGE_FRAME)) else acc)
    pte2 0 m PG_SIZE_2 h

theorem as_destroy_pte1_fold (l : pte1_t) (m : Machine)
    (hok : ∀ o ∈ l, pte2_ok o = true) :
    l.foldl (fun acc o =>
        match o with
        | none => kfree acc none
        | some pte2 => kfree (as_destroy_pte2 acc pte2) (some (kblock.level2 pte2))) m
      = log_to m ((pte1_leaves l).map (fun e => PADDR_TO_KVADDR (e &&& PAGE_FRAME)))
          (pte1_blocks l) := by
  induction l generalizing m with
  | nil => simp [pte1_leaves, pte1_blocks, log_to_nil]
  | cons o os ih =>
    have hos : ∀ x ∈ os, pte2_ok x = true := fun x hx => hok x (List.mem_cons_of_mem _ hx)
    rw [List.foldl_cons, ih _ hos]
    cases o with
    | none =>
      simp only [pte1_leaves, pte1_blocks, kfree]
    | some pte2 =>
      have h2 : pte2.length = PG_SIZE_2 := by
        have := hok (some pte2) (List.mem_cons_self _ _)
        unfold pte2_ok at this
        simpa using this
      simp only [pte1_leaves, pte1_blocks, as_destroy_pte2_eq _ _ h2, kfree_some_eq_log,
        log_to_log_to, List.map_append, List.append_nil, List.nil_append,
        List.singleton_append]

theorem as_destroy_pte1_eq (m : Machine) (pte1 : pte1_t) (h : pte1_ok (some pte1) = true) :
    as_destroy_pte1 m pte1
      = log_to m ((pte1_leaves pte1).map (fun e => PADDR_TO_KVADDR (e &&& PAGE_FRAME)))
          (pte1_blocks pte1) := by
  unfold pte1_ok at h
  simp only [Bool.and_eq_true, beq_iff_eq, List.all_eq_true] at h
  unfold as_destroy_pte1
  rw [← as_destroy_pte1_fold pte1 m h.2]
  exact foldl_range_getD
    (fun acc o =>
      match o with
      | none => kfree acc none
      | some pte2 => kfree (as_destroy_pte2 acc pte2) (some (kblock.level2 pte2)))
    pte1 none m PG_SIZE_1 h.1

theorem as_destroy_pgtable_fold (l : pgtable_t) (m : Machine)
    (hok : ∀ o ∈ l, pte1_ok o = true) :
    l.foldl (fun acc o =>
        match o with
        | none => acc
        | some pte1 => kfree (as_destroy_pte1 acc pte1) (some (kblock.level1 pte1))) m
      = log_to m ((pgtable_leaves l).map (fun e => PADDR_TO_KVADDR (e &&& PAGE_FRAME)))
          (pgtable_blocks l) := by
  induction l generalizing m with
  | nil => simp [pgtable_leaves, pgtable_blocks, log_to_nil]
  | cons o os ih =>
    have hos : ∀ x ∈ os, pte1_ok x = true := fun x hx => hok x (List.mem_cons_of_mem _ hx)
    rw [List.foldl_cons, ih _ hos]
    cases o with
    | none =>
      simp only [pgtable_leaves, pgtable_blocks]
    | some pte1 =>
      have h1 := hok (some pte1) (List.mem_cons_self _ _)
      simp only [pgtable_leaves, pgtable_blocks, as_destroy_pte1_eq _ _ h1, kfree_some_eq_log,
        log_to_log_to, List.map_append, List.append_nil, List.append_assoc,
        List.singleton_append]

theorem free_regions_fold (l : List region) (m : Machine) :
    l.foldl (fun acc cur => kfree acc (some (kblock.region_node cur))) m
      = log_to m [] (l.map kblock.region_node) := by
  induction l generalizing m with
  | nil => simp [log_to_nil]
  | cons r rs ih =>
    rw [List.foldl_cons, ih, kfree_some_eq_log, log_to_log_to]
    simp

/-- What `as_destroy` does to the collaborators of a well-formed address space. -/
theorem as_destroy_eq (m : Machine) (as : addrspace) (pgtable : pgtable_t)
    (hpt : as.pgtable = some pgtable) (hwf : pgtable_wf pgtable = true) :
    as_destroy m as
      = some (log_to m
          ((pgtable_leaves pgtable).map (fun e => PADDR_TO_KVADDR (e &&& PAGE_FRAME)))
          (as.regions.map kblock.region_node ++ pgtable_blocks pgtable
            ++ [kblock.level0 pgtable, kblock.as_struct])) := by
  unfold pgtable_wf at hwf
  simp only [Bool.and_eq_true, beq_iff_eq, List.all_eq_true] at hwf
  unfold as_destroy
  rw [hpt]
  simp only
  have hfold := foldl_range_getD
    (fun acc o =>
      match o with
      | none => acc
      | some pte1 => kfree (as_destroy_pte1 acc pte1) (some (kblock.level1 pte1)))
    pgtable none (free_regions m as) PG_SIZE_0 hwf.1
  rw [hfold, as_destroy_pgtable_fold _ _ hwf.2]
  unfold free_regions
  rw [free_regions_fold]
  simp only [kfree_some_eq_log, log_to_log_to, List.nil_append, List.append_nil,
    List.append_assoc, List.singleton_append]

theorem mem_pte2_leaves (pte2 : pte2_t) (e : Nat) :
    e ∈ pte2_leaves pte2 ↔ e ∈ pte2 ∧ e ≠ 0 := by
  induction pte2 with
  | nil => simp [pte2_leaves]
  | cons x xs ih =>
    by_cases hx : x ≠ 0
    · simp only [pte2_leaves, hx, ne_eq, not_false_eq_true, if_true, List.mem_cons, ih]
      constructor
      · rintro (h | h)
        · exact ⟨Or.inl h, by rw [h]; exact hx⟩
        · exact ⟨Or.inr h.1, h.2⟩
      · rintro ⟨h | h, h0⟩
        · exact Or.inl h
        · exact Or.inr ⟨h, h0⟩
    · simp only [pte2_leaves, hx, if_false, List.mem_cons, ih]
      constructor
      · rintro ⟨h, h0⟩
        exact ⟨Or.inr h, h0⟩
      · rintro ⟨h | h, h0⟩
        · rw [h] at h0
          exact absurd h0 hx
        · exact ⟨h, h0⟩

theorem mem_pte1_leaves (pte1 : pte1_t) (e : Nat) :
    e ∈ pte1_leaves pte1 ↔ ∃ pte2, some pte2 ∈ pte1 ∧ e ∈ pte2 ∧ e ≠ 0 := by
  induction pte1 with
  | nil => simp [pte1_leaves]
  | cons o os ih =>
    cases o with
    | none => simp [pte1_leaves, ih]
    | some p =>
      simp only [pte1_leaves, List.mem_append, ih, mem_pte2_leaves, List.mem_cons,
        Option.some.injEq]
      constructor
      · rintro (h | ⟨q, hq, h⟩)
        · exact ⟨p, Or.inl rfl, h⟩
        · exact ⟨q, Or.inr hq, h⟩
      · rintro ⟨q, hq | hq, h⟩
        · rw [hq] at h
          exact Or.inl h
        · exact Or.inr ⟨q, hq, h⟩

/-- The list `pgtable_leaves` holds exactly the non-zero leaf words of the table. -/
theorem mem_pgtable_leaves (pgtable : pgtable_t) (e : Nat) :
    e ∈ pgtable_leaves pgtable ↔
      ∃ pte1 pte2, some pte1 ∈ pgtable ∧ some pte2 ∈ pte1 ∧ e ∈ pte2 ∧ e ≠ 0 := by
  induction pgtable with
  | nil => simp [pgtable_leaves]
  | cons o os ih =>
    cases o with
    | none => simp [pgtable_leaves, ih]
    | some p =>
      simp only [pgtable_leaves, List.mem_append, ih, mem_pte1_leaves, List.mem_cons,
        Option.some.injEq]
      constructor
      · rintro (⟨q2, h⟩ | ⟨q1, q2, hq, h⟩)
        · exact ⟨p, q2, Or.inl rfl, h⟩
        · exact ⟨q1, q2, Or.inr hq, h⟩
      · rintro ⟨q1, q2, hq | hq, h⟩
        · rw [hq] at h
          exact Or.inl ⟨q2, h⟩
        · exact Or.inr ⟨q1, q2, hq, h⟩

/-- C23: on an address space whose page table exists, with arrays of their declared
sizes, `as_destroy` runs to its end; it calls `free_kpages` once for each non-zero leaf
`e` of the page table, in index order, with argument `PADDR_TO_KVADDR(e & PAGE_FRAME)`,
and for nothing else; and it hands to `kfree` every region node, then for each present
level-1 node its present level-2 nodes and the node itself, then the level-0 array and
the address space, each once.  The allocator outcomes and the TLB are not touched. -/
theorem as_destroy_frees (m : Machine) (as : addrspace) (pgtable : pgtable_t)
    (hpt : as.pgtable = some pgtable) (hwf : pgtable_wf pgtable = true) :
    ∃ m1, as_destroy m as = some m1 ∧
      m1.free_kpages_log
        = m.free_kpages_log
          ++ (pgtable_leaves pgtable).map (fun e => PADDR_TO_KVADDR (e &&& PAGE_FRAME)) ∧
      m1.kfree_log
        = m.kfree_log ++ (as.regions.map kblock.region_node ++ pgtable_blocks pgtable
            ++ [kblock.level0 pgtable, kblock.as_struct]) ∧
      m1.kmalloc_results = m.kmalloc_results ∧
      m1.alloc_kpages_results = m.alloc_kpages_results ∧
      m1.tlb_log = m.tlb_log :=
  ⟨_, as_destroy_eq m as pgtable hpt hwf, rfl, rfl, rfl, rfl, rfl⟩

/-- C23 witness: `loaded_text_as`, with one region, one leaf `0x00050600` and the two
nodes above it. -/
theorem as_destroy_frees_witness :
    ∃ m1, as_destroy machine0 loaded_text_as = some m1 ∧
      m1.free_kpages_log
        = machine0.free_kpages_log
          ++ (pgtable_leaves (text_pgtable 0x00050600)).map
              (fun e => PADDR_TO_KVADDR (e &&& PAGE_FRAME)) ∧
      m1.kfree_log
        = machine0.kfree_log ++ (loaded_text_as.regions.map kblock.region_node
            ++ pgtable_blocks (text_pgtable 0x00050600)
            ++ [kblock.level0 (text_pgtable 0x00050600), kblock.as_struct]) ∧
      m1.kmalloc_results = machine0.kmalloc_results ∧
      m1.alloc_kpages_results = machine0.alloc_kpages_results ∧
      m1.tlb_log = machine0.tlb_log :=
  as_destroy_frees machine0 loaded_text_as (text_pgtable 0x00050600) rfl (by decide)

/-- The frames and blocks that `as_destroy` releases for `loaded_text_as`. -/
theorem as_destroy_loaded_text_as :
    (pgtable_leaves (text_pgtable 0x00050600)).map (fun e => PADDR_TO_KVADDR (e &&& PAGE_FRAME))
      = [0x80050000] ∧
    pgtable_blocks (text_pgtable 0x00050600)
      = [kblock.level2 ((List.replicate PG_SIZE_2 0).set 1 0x00050600),
         kblock.level1 ((List.replicate PG_SIZE_1 none).set 16
           (some ((List.replicate PG_SIZE_2 0).set 1 0x00050600)))] := by
  decide

/-! ## `as_copy`: the number of leaves (C21) -/

/-- C21 (code evaluated at the failing input): `two_page_text_as` is what two READ
faults leave behind; copying it with frames `0x80052000` and `0x80053000` available
returns 0 and consumes both frames, but the destination page table has one non-zero
leaf, `0x00053200`, where the source has two: the `vm_allocpte1` call for the second
leaf replaced the level-1 node that held the first one, so frame `0x80052000` is
referenced by no destination leaf. -/
theorem as_copy_drops_leaf :
    (vm_fault machine0 (some ⟨some text_as⟩) VM_FAULT_READ 0x00401500).map
        (fun x => x.2.2)
      = some (some ⟨some { text_as with pgtable := some (text_pgtable 0x00050200) }⟩) ∧
    (vm_fault { machine0 with alloc_kpages_results := [0x80051000] }
        (some ⟨some { text_as with pgtable := some (text_pgtable 0x00050200) }⟩)
        VM_FAULT_READ 0x00402500).map (fun x => (x.1, x.2.2))
      = some (0, some ⟨some two_page_text_as⟩) ∧
    two_page_text_as.pgtable.map pgtable_leaves = some [0x00050200, 0x00051200] ∧
    (as_copy { machine0 with alloc_kpages_results := [0x80052000, 0x80053000] }
        two_page_text_as none).map
        (fun x => (x.1, x.2.1.alloc_kpages_results,
          x.2.2.2.map (fun new_as => new_as.pgtable.map pgtable_leaves)))
      = some (0, [], some (some [0x00053200])) := by
  decide

/-! ## `vm_fault` at the first address past a region (C24) -/

/-- C24: a READ fault at the first address past a region succeeds.  If `r` is in the
region list, `a = r.vaddr + r.memsize` is a 32-bit address lying in no region's half-open
range `[vaddr, vaddr + memsize)`, the leaf of `a` is empty, a frame is available and the
two `kmalloc` calls a missing node may need succeed, then `vm_fault(READ, a)` returns 0:
`search_region` finds a region `r1` of the list that ends exactly at `a`, the leaf of
`a` becomes the frame returned by `alloc_kpages` with DIRTY and VALID taken from
`r1.cur_perm`, and `r1` is `r` when `r` is the only region that ends at `a`. -/
theorem vm_fault_past_region_end (m : Machine) (as : addrspace) (pgtable : pgtable_t)
    (r : region) (a : Nat)
    (hpt : as.pgtable = some pgtable) (hwf : pgtable_wf pgtable = true)
    (hr : r ∈ as.regions) (ha : a = r.vaddr + r.memsize) (ha32 : a < 2 ^ 32)
    (hout : ∀ x ∈ as.regions, ¬ (x.vaddr ≤ a ∧ a < x.vaddr + x.memsize))
    (hl : fault_leaf pgtable a = 0) (hv : (alloc_kpages m).1 ≠ 0)
    (hk1 : (kmalloc m).1 = true) (hk2 : (kmalloc (kmalloc m).2).1 = true) :
    ∃ m1 pgtable1 r1,
      vm_fault m (some ⟨some as⟩) VM_FAULT_READ a
        = some (0, m1, some ⟨some { as with pgtable := some pgtable1 }⟩) ∧
      search_region as a 0 = some r1 ∧ r1 ∈ as.regions ∧ r1.vaddr + r1.memsize = a ∧
      fault_leaf pgtable1 a = fault_entry (alloc_kpages m).1 r1.cur_perm ∧
      (fault_leaf pgtable1 a &&& TLBLO_DIRTY ≠ 0 ↔ r1.cur_perm &&& R_WR ≠ 0) ∧
      (fault_leaf pgtable1 a &&& TLBLO_VALID ≠ 0 ↔ r1.cur_perm &&& (R_RD ||| R_EX) ≠ 0) ∧
      ((∀ x ∈ as.regions, x.vaddr + x.memsize = a → x = r) → r1 = r) := by
  have hsome : ∃ r1, search_region as a 0 = some r1 := by
    cases hs : search_region as a 0 with
    | some r1 => exact ⟨r1, rfl⟩
    | none =>
      exfalso
      unfold search_region at hs
      rw [search_region_from_eq_none] at hs
      apply hs r hr
      refine ⟨by omega, ?_⟩
      rw [ha]
      exact Nat.le_refl _
  obtain ⟨r1, hs⟩ := hsome
  have hs0 := hs
  unfold search_region at hs0
  obtain ⟨before, after, hsplit, ⟨hge, hle⟩, _⟩ := search_region_from_first _ _ _ _ hs0
  have hmem : r1 ∈ as.regions := by
    rw [hsplit]
    exact List.mem_append_right _ (List.mem_cons_self _ _)
  have hend : r1.vaddr + r1.memsize = a := by
    have hno := hout r1 hmem
    unfold u32 at hle
    omega
  obtain ⟨m1, pgtable1, hw⟩ := vm_fault_walk_total m as pgtable a r1 hwf hl hs hv hk1 hk2
  obtain ⟨e, he1, _, _, he4, _⟩ := vm_fault_walk_ok _ _ _ _ _ _ hwf hw
  obtain ⟨r2, hs2, _, he⟩ := he4 hl
  rw [hs] at hs2
  cases hs2
  have hleaf : fault_leaf pgtable1 a = fault_entry (alloc_kpages m).1 r1.cur_perm := by
    unfold fault_leaf
    rw [leaf_word_of_pt_leaf _ _ _ _ _ he1, he]
  have hreg : as.regions ≠ [] := by
    intro hnil
    rw [hnil] at hmem
    cases hmem
  refine ⟨m1, pgtable1, r1, ?_, hs, hmem, hend, hleaf, ?_, ?_, ?_⟩
  · unfold vm_fault
    simp only [proc_getas, hreg, hpt, VM_FAULT_READ, true_or, if_true, if_false, hw]
  · rw [hleaf]
    unfold fault_entry
    rw [entry_and_DIRTY]
    exact GET_DIRTY_BIT_ne_zero _
  · rw [hleaf]
    unfold fault_entry
    rw [entry_and_VALID]
    exact GET_VALID_BIT_ne_zero _
  · intro honly
    exact honly r1 hmem hend

/-- C24 witness: the address space whose only region is the stack
`[0x7fff0000, 0x80000000)` and a READ fault at `USERSTACK = 0x80000000`. -/
theorem vm_fault_past_region_end_witness :
    ∃ m1 pgtable1 r1,
      vm_fault machine0 (some ⟨some stack_as⟩) VM_FAULT_READ USERSTACK
        = some (0, m1, some ⟨some { stack_as with pgtable := some pgtable1 }⟩) ∧
      search_region stack_as USERSTACK 0 = some r1 ∧ r1 ∈ stack_as.regions ∧
      r1.vaddr + r1.memsize = USERSTACK ∧
      fault_leaf pgtable1 USERSTACK = fault_entry (alloc_kpages machine0).1 r1.cur_perm ∧
      (fault_leaf pgtable1 USERSTACK &&& TLBLO_DIRTY ≠ 0 ↔ r1.cur_perm &&& R_WR ≠ 0) ∧
      (fault_leaf pgtable1 USERSTACK &&& TLBLO_VALID ≠ 0
        ↔ r1.cur_perm &&& (R_RD ||| R_EX) ≠ 0) ∧
      ((∀ x ∈ stack_as.regions, x.vaddr + x.memsize = USERSTACK → x = stack_region) →
        r1 = stack_region) :=
  vm_fault_past_region_end machine0 stack_as empty_pgtable stack_region USERSTACK rfl
    (by decide) (by decide) (by decide) (by decide) (by decide) (by decide) (by decide)
    (by decide) (by decide)

/-- The fault at `USERSTACK` on the stack-only address space, evaluated: it returns 0,
the stack region is the one found, and the leaf `(0, 0, 0)` reached through the
physical form of the address holds frame `0x00050000` with DIRTY and VALID. -/
theorem vm_fault_at_USERSTACK :
    (vm_fault machine0 (some ⟨some stack_as⟩) VM_FAULT_READ USERSTACK).map
        (fun x => (x.1, x.2.2.map (fun p => p.p_addrspace.map (fun as1 =>
          (as1.regions, as1.pgtable.map (fun pt => fault_leaf pt USERSTACK))))))
      = some (0, some (some ([stack_region], some 0x00050600))) ∧
    search_region stack_as USERSTACK 0 = some stack_region ∧
    search_region stack_as (USERSTACK + 1) 0 = none ∧
    stack_region.vaddr + stack_region.memsize = USERSTACK := by
  decide

end OS161
